import Mathlib

/-!
Verification of the tmppy compiler core (the `_py2tmp` package) against its
design specification.

This file contains a shallow embedding, in Lean 4, of the parts of the code
that the specification's claims are about:

* `LowIr` — the template-codegen model and textual emitter of
  `src/_py2tmp/lowir.py` (`StaticAssert.to_cpp`, `Assignment.to_cpp_internal`,
  `FunctionSpecialization.__init__`, and the expression `to_cpp` methods they
  depend on).
* `PassA` — the exception/sugar-elimination pass of
  `src/_py2tmp/ir3_to_ir2.py` (`FunWriter`, `StmtWriter`,
  `expr_to_ir2`, `stmts_to_ir2`, `try_except_stmt_to_ir2`,
  `raise_stmt_to_ir2`, `new_var_for_expr_with_error_checking`, ...).

Python's mutable writer objects are modelled as explicit state values threaded
through the translation functions; the recursive traversal is driven by a fuel
parameter so that all definitions compute by kernel reduction.  Machinery that
the `_py2tmp` package imports from modules that are not part of the repository
snapshot (`ir2.get_unique_free_variables_in_stmts`,
`ir3.Stmt.get_return_type().always_returns`, `utils.replace_identifiers`, the
structural equality of IR types) is modelled from the specification; each such
definition carries a doc comment starting with `Modelled from the spec:`.
-/

set_option maxRecDepth 100000
set_option maxHeartbeats 4000000

namespace LowIr

/-- The kind classification of `_py2tmp.types.ExprType` values as used by
`lowir.py`.  The module `_py2tmp/types.py` is not part of the snapshot; the
kind vocabulary is taken from its uses in `lowir.py` and `sema.py`, which
mention exactly `ExprKind.BOOL`, `ExprKind.TYPE` and `ExprKind.TEMPLATE`. -/
inductive ExprKind where
  | bool : ExprKind
  | type : ExprKind
  | template : ExprKind
deriving DecidableEq, Repr

/-- The `types.ExprType` values consumed by `lowir.py`: boolean values,
C++ types, lists (whose `elem_type` is inspected by `ListExpr.to_cpp`) and
metafunction types (`types.FunctionType` with `argtypes` and `returns`). -/
inductive CxxType where
  | boolT : CxxType
  | typeT : CxxType
  | listT (elemType : CxxType) : CxxType
  | functionT (argtypes : List CxxType) (returns : CxxType) : CxxType

/-- `type.kind`: a `FunctionType` has kind TEMPLATE, a boolean has kind BOOL,
plain types and lists have kind TYPE. -/
def CxxType.kind : CxxType → ExprKind
  | .boolT => .bool
  | .typeT => .type
  | .listT _ => .type
  | .functionT _ _ => .template

/-- `pythonTitleAux` implements Python's `str.title()` over a character list:
the first character of every maximal run of letters is uppercased and the
others are lowercased (identifiers here are ASCII). -/
def pythonTitleAux : Bool → List Char → List Char
  | _, [] => []
  | prevAlpha, c :: cs =>
    if c.isAlpha then
      (if prevAlpha then c.toLower else c.toUpper) :: pythonTitleAux true cs
    else
      c :: pythonTitleAux false cs

/-- Python's `name.title()`. -/
def pythonTitle (s : String) : String := ⟨pythonTitleAux false s.data⟩

/-- Python's `.replace("_", "")`. -/
def stripUnderscores (s : String) : String := ⟨s.data.filter (fun c => c ≠ '_')⟩

/-- `lowir._identifier_to_cpp`: a BOOL-kind identifier is emitted verbatim; a
TYPE- or TEMPLATE-kind identifier is emitted as `name.title().replace("_", "")`. -/
def identifierToCpp (type : CxxType) (name : String) : String :=
  match type.kind with
  | .bool => name
  | .type => stripUnderscores (pythonTitle name)
  | .template => stripUnderscores (pythonTitle name)

/-- The `name`/`cxx_name` alternative of `lowir.VarReference` (exactly one of
the two is set, enforced by asserts in the Python constructor). -/
inductive CxxName where
  | name (n : String) : CxxName
  | cxxName (n : String) : CxxName

/-- The concrete `lowir.Expr` subclasses: `Literal` (boolean), `TypeLiteral`,
`EqualityComparison`, `FunctionCall`, `VarReference` and `ListExpr`. -/
inductive CxxExpr where
  | literal (value : Bool) : CxxExpr
  | typeLiteral (cppType : String) : CxxExpr
  | equalityComparison (lhs rhs : CxxExpr) : CxxExpr
  | functionCall (funExpr : CxxExpr) (args : List CxxExpr) : CxxExpr
  | varRef (type : CxxType) (name : CxxName) : CxxExpr
  | listExpr (type : CxxType) (elemExprs : List CxxExpr) : CxxExpr

/-- The `type` attribute of each `lowir.Expr` subclass: literals are booleans,
type literals are types, comparisons are booleans, a call has the callee's
return type (the constructor asserts the callee's kind is TEMPLATE), and
variable references and list expressions carry their type explicitly. -/
def CxxExpr.type : CxxExpr → CxxType
  | .literal _ => .boolT
  | .typeLiteral _ => .typeT
  | .equalityComparison _ _ => .boolT
  | .functionCall funExpr _ =>
    match funExpr.type with
    | .functionT _ returns => returns
    | t => t
  | .varRef t _ => t
  | .listExpr t _ => t

mutual

/-- `Expr.references_any_of` for each concrete `lowir.Expr` subclass; a
`VarReference` with a source-level `name` is looked up through
`_identifier_to_cpp` exactly as in `lowir.VarReference.references_any_of`. -/
def CxxExpr.referencesAnyOf : CxxExpr → List String → Bool
  | .literal _, _ => false
  | .typeLiteral _, _ => false
  | .equalityComparison lhs rhs, vs =>
    lhs.referencesAnyOf vs || rhs.referencesAnyOf vs
  | .functionCall funExpr args, vs =>
    funExpr.referencesAnyOf vs || CxxExpr.anyReferencesAnyOf args vs
  | .varRef t (.name n), vs => vs.contains (identifierToCpp t n)
  | .varRef _ (.cxxName c), vs => vs.contains c
  | .listExpr _ elems, vs => CxxExpr.anyReferencesAnyOf elems vs

/-- `any(expr.references_any_of(vs) for expr in ...)`. -/
def CxxExpr.anyReferencesAnyOf : List CxxExpr → List String → Bool
  | [], _ => false
  | e :: es, vs => e.referencesAnyOf vs || CxxExpr.anyReferencesAnyOf es vs

end

mutual

/-- `_type_to_template_param_declaration`. -/
def typeToTemplateParamDeclaration : CxxType → String
  | .boolT => "bool"
  | .typeT => "typename"
  | .listT _ => "typename"
  | .functionT argtypes _ =>
    "template <" ++ typeToTemplateParamDeclarationList argtypes ++ "> class"

/-- `', '.join(_type_to_template_param_declaration(t) for t in ts)`. -/
def typeToTemplateParamDeclarationList : List CxxType → String
  | [] => ""
  | [t] => typeToTemplateParamDeclaration t
  | t :: rest =>
    typeToTemplateParamDeclaration t ++ ", " ++ typeToTemplateParamDeclarationList rest

end

mutual

/-- The `to_cpp` methods of the concrete `lowir.Expr` subclasses.  The Bool
argument is `FunctionCall.to_cpp`'s `is_nested_call` keyword (`False` at every
call site except a `FunctionCall` whose callee is itself a `FunctionCall`). -/
def CxxExpr.toCppN : CxxExpr → Bool → String
  | .literal true, _ => "true"
  | .literal false, _ => "false"
  | .typeLiteral cppType, _ => cppType
  | .equalityComparison lhs rhs, _ =>
    match lhs.type.kind with
    | .bool => "(" ++ lhs.toCppN false ++ ") == (" ++ rhs.toCppN false ++ ")"
    | _ => "std::is_same<" ++ lhs.toCppN false ++ ", " ++ rhs.toCppN false ++ ">::value"
  | .functionCall funExpr args, isNestedCall =>
    let templateParams := CxxExpr.toCppListN args
    let cppFun :=
      match funExpr with
      | .functionCall f as1 => CxxExpr.toCppN (.functionCall f as1) true
      | e => e.toCppN false
    match (CxxExpr.functionCall funExpr args).type.kind with
    | .bool => cppFun ++ "<" ++ templateParams ++ ">::value"
    | _ =>
      if isNestedCall then
        cppFun ++ "<" ++ templateParams ++ ">::template type"
      else
        "typename " ++ cppFun ++ "<" ++ templateParams ++ ">::type"
  | .varRef t (.name n), _ => identifierToCpp t n
  | .varRef _ (.cxxName c), _ => c
  | .listExpr t elems, _ =>
    let templateParams := CxxExpr.toCppListN elems
    match t with
    | .listT elemType =>
      (match elemType.kind with
       | .bool => "BoolList<" ++ templateParams ++ ">"
       | _ => "List<" ++ templateParams ++ ">")
    | _ => "List<" ++ templateParams ++ ">"

/-- `', '.join(arg.to_cpp() for arg in args)`. -/
def CxxExpr.toCppListN : List CxxExpr → String
  | [] => ""
  | [e] => e.toCppN false
  | e :: es => e.toCppN false ++ ", " ++ CxxExpr.toCppListN es

end

/-- `expr.to_cpp()` with the default `is_nested_call=False`. -/
def CxxExpr.toCpp (e : CxxExpr) : String := e.toCppN false

/-- `lowir.FunctionArgDecl`. -/
structure FunctionArgDecl where
  type : CxxType
  name : String

/-- The loop of `StaticAssert.to_cpp` over `enclosing_function_defn_args`: the
first argument of BOOL kind anchors with `AlwaysTrueFromBool`, the first of
TYPE kind anchors with `AlwaysTrueFromType`, TEMPLATE-kind arguments are
skipped; returns the chosen macro and the C++ name of the chosen argument. -/
def staticAssertAnchorArg : List FunctionArgDecl → Option (String × String)
  | [] => none
  | a :: rest =>
    match a.type.kind with
    | .bool => some ("AlwaysTrueFromBool", identifierToCpp a.type a.name)
    | .type => some ("AlwaysTrueFromType", identifierToCpp a.type a.name)
    | .template => staticAssertAnchorArg rest

/-- The `CodegenError` message raised by `StaticAssert.to_cpp` when no
enclosing function argument has BOOL or TYPE kind. -/
def cannotDeferAssertionError (functionName : String) : String :=
  "Unable to convert to C++ an assertion in the function " ++ functionName ++
  " because it\x27s a constant expression and " ++ functionName ++
  " only has functions as params. You should move the assertion outside the function or reference one of " ++
  functionName ++ "\x27s params in the assertion."

/-- `lowir.StaticAssert.to_cpp`.  `enclosingFunctionDefnArgs = []` plays the
role of Python's `enclosing_function_defn_args` being `None` or empty (the two
are merged by the truthiness test `if not enclosing_function_defn_args`).
An `Except.error` value models the raised `CodegenError`. -/
def staticAssertToCpp (expr : CxxExpr) (message : String)
    (enclosingFunctionDefnArgs : List FunctionArgDecl) (enclosingFunctionDefnName : String) :
    Except String String :=
  let boundVariables := enclosingFunctionDefnArgs.map fun a => identifierToCpp a.type a.name
  if enclosingFunctionDefnArgs.isEmpty || expr.referencesAnyOf boundVariables then
    .ok ("static_assert(" ++ expr.toCpp ++ ", \"" ++ message ++ "\");")
  else
    match staticAssertAnchorArg enclosingFunctionDefnArgs with
    | some (macroName, boundVar) =>
      .ok ("static_assert(" ++ macroName ++ "<" ++ boundVar ++ ">::value && " ++
           expr.toCpp ++ ", \"" ++ message ++ "\");")
    | none => .error (cannotDeferAssertionError enclosingFunctionDefnName)

/-- The parameter-name list drawn by `Assignment.to_cpp_internal` from
`param_identifier_generator` for a TEMPLATE-kind assignment: one generated
name per argument type, in order. -/
def mkTemplateArgs (argtypes : List CxxType) (paramPfx : String) (paramCount : Nat) :
    List (String × CxxType) :=
  argtypes.enum.map fun p => (paramPfx ++ Nat.repr (paramCount + p.1), p.2)

/-- `template_args_decl` in `Assignment.to_cpp_internal`. -/
def templateArgsDecl (templateArgs : List (String × CxxType)) : String :=
  String.intercalate ", " (templateArgs.map fun p => typeToTemplateParamDeclaration p.2 ++ " " ++ p.1)

/-- `inner_lhs_cxx_name` in `Assignment.to_cpp_internal`: `value` for a BOOL
return kind, `type` for TYPE and TEMPLATE return kinds. -/
def innerLhsCxxName (k : ExprKind) : String :=
  match k with
  | .bool => "value"
  | .type => "type"
  | .template => "type"

/-- `lowir.Assignment.to_cpp_internal`.  The two Python generator arguments
(`helper_identifier_generator`, `param_identifier_generator`) are modelled as
a prefix plus a counter each; the function returns the emitted C++ text
together with the advanced counters.  The emitted text reproduces the
Python triple-quoted templates verbatim, including their indentation. -/
def assignmentToCppInternal : CxxType → String → CxxExpr → String → Nat → String → Nat →
    String × Nat × Nat
  | .boolT, lhsCxxName, rhs, _, helperCount, _, paramCount =>
    ("                static constexpr bool " ++ lhsCxxName ++ " = " ++ rhs.toCpp ++
     ";\n                ", helperCount, paramCount)
  | .typeT, lhsCxxName, rhs, _, helperCount, _, paramCount =>
    ("                using " ++ lhsCxxName ++ " = " ++ rhs.toCpp ++
     ";\n                ", helperCount, paramCount)
  | .listT _, lhsCxxName, rhs, _, helperCount, _, paramCount =>
    ("                using " ++ lhsCxxName ++ " = " ++ rhs.toCpp ++
     ";\n                ", helperCount, paramCount)
  | .functionT argtypes returns, lhsCxxName, rhs, helperPfx, helperCount, paramPfx, paramCount =>
    let templateArgs := mkTemplateArgs argtypes paramPfx paramCount
    let decl := templateArgsDecl templateArgs
    let innerAssignment :=
      assignmentToCppInternal returns (innerLhsCxxName returns.kind)
        (.functionCall rhs (templateArgs.map fun p => .varRef p.2 (.cxxName p.1)))
        helperPfx helperCount paramPfx (paramCount + argtypes.length)
    let cppInnerAssignment := innerAssignment.1
    let helperCount1 := innerAssignment.2.1
    let paramCount1 := innerAssignment.2.2
    if lhsCxxName = "type" then
      let helperCxxName := helperPfx ++ Nat.repr helperCount1
      let templateArgsUse := String.intercalate ", " (templateArgs.map fun p => p.1)
      ("                    template <" ++ decl ++ ">\n" ++
       "                    struct " ++ helperCxxName ++ " \x7b\n" ++
       "                      " ++ cppInnerAssignment ++ "\n" ++
       "                    \x7d;\n" ++
       "                    template <" ++ decl ++ ">\n" ++
       "                    using type = " ++ helperCxxName ++ "<" ++ templateArgsUse ++ ">;\n" ++
       "                    ", helperCount1 + 1, paramCount1)
    else
      ("                    template <" ++ decl ++ ">\n" ++
       "                    struct " ++ lhsCxxName ++ " \x7b\n" ++
       "                      " ++ cppInnerAssignment ++ "\n" ++
       "                    \x7d;\n" ++
       "                    ", helperCount1, paramCount1)

/-- `lowir.TypePatternLiteral` (only its `cxx_pattern` field matters after
construction; a `type_name`-constructed literal stores
`_identifier_to_cpp(TypeType(), type_name)`). -/
structure TypePatternLiteral where
  cxxPattern : String

/-- `TypePatternLiteral(type_name=n)`. -/
def TypePatternLiteral.fromTypeName (n : String) : TypePatternLiteral :=
  ⟨identifierToCpp .typeT n⟩

/-- Python set equality of two string collections, as in
`args_set == patterns_set` in `FunctionSpecialization.__init__`. -/
def listSetEqB (a b : List String) : Bool :=
  a.all (fun x => b.contains x) && b.all (fun x => a.contains x)

/-- The pattern-list normalization performed by
`lowir.FunctionSpecialization.__init__`: `none` in means this is the main
definition (kept); for an actual pattern list, if the set of pattern strings
equals the set of C++ argument names the patterns are dropped (the
specialization specializes nothing and becomes the main definition),
otherwise they are kept. -/
def functionSpecializationPatterns (args : List FunctionArgDecl)
    (patterns : Option (List TypePatternLiteral)) : Option (List TypePatternLiteral) :=
  match patterns with
  | none => none
  | some ps =>
    let patternsSet := ps.map TypePatternLiteral.cxxPattern
    let argsSet := args.map fun arg => identifierToCpp arg.type arg.name
    if listSetEqB patternsSet argsSet then none else some ps

/-- `FunctionSpecialization.is_main_definition`. -/
def functionSpecializationIsMainDefinition (args : List FunctionArgDecl)
    (patterns : Option (List TypePatternLiteral)) : Bool :=
  (functionSpecializationPatterns args patterns).isNone

lemma staticAssertAnchorArg_append_templates (pre rest : List FunctionArgDecl)
    (hpre : ∀ b ∈ pre, b.type.kind = .template) :
    staticAssertAnchorArg (pre ++ rest) = staticAssertAnchorArg rest := by
  induction pre with
  | nil => rfl
  | cons a pre ih =>
    have ha : a.type.kind = .template := hpre a (List.mem_cons_self a pre)
    have ih1 := ih (fun b hb => hpre b (List.mem_cons_of_mem a hb))
    simp only [List.cons_append, staticAssertAnchorArg, ha, List.append_eq]
    exact ih1

lemma staticAssertAnchorArg_none_of_templates (l : List FunctionArgDecl)
    (h : ∀ b ∈ l, b.type.kind = .template) :
    staticAssertAnchorArg l = none := by
  have h1 := staticAssertAnchorArg_append_templates l [] h
  simpa using h1

lemma listSetEqB_self (l : List String) : listSetEqB l l = true := by
  simp only [listSetEqB, Bool.and_self, List.all_eq_true]
  intro x hx
  exact List.elem_eq_true_of_mem hx

/-- C6: when `StaticAssert.to_cpp` emits an assertion inside a function and the
condition references none of the enclosing function's parameters, the emitted
`static_assert` conjoins the condition with `AlwaysTrueFromBool<P>::value`
(resp. `AlwaysTrueFromType<P>::value`) where `P` is the first parameter of
boolean (resp. type) kind, skipping earlier template-kind parameters; and if
the enclosing function has no parameter of boolean or type kind, a
`CodegenError` naming the offending function is raised instead of producing
output. -/
theorem staticAssert_anchoring (expr : CxxExpr) (message : String)
    (args : List FunctionArgDecl) (functionName : String)
    (hargs : args ≠ [])
    (hconst : expr.referencesAnyOf (args.map fun a => identifierToCpp a.type a.name) = false) :
    (∀ pre a post, args = pre ++ a :: post →
      (∀ b ∈ pre, b.type.kind = .template) →
      (a.type.kind = .bool →
        staticAssertToCpp expr message args functionName =
          .ok ("static_assert(AlwaysTrueFromBool<" ++ identifierToCpp a.type a.name ++
               ">::value && " ++ expr.toCpp ++ ", \"" ++ message ++ "\");")) ∧
      (a.type.kind = .type →
        staticAssertToCpp expr message args functionName =
          .ok ("static_assert(AlwaysTrueFromType<" ++ identifierToCpp a.type a.name ++
               ">::value && " ++ expr.toCpp ++ ", \"" ++ message ++ "\");"))) ∧
    ((∀ a ∈ args, a.type.kind = .template) →
      staticAssertToCpp expr message args functionName =
        .error (cannotDeferAssertionError functionName)) ∧
    (∃ s1 s2, cannotDeferAssertionError functionName = s1 ++ (functionName ++ s2)) := by
  have hempty : args.isEmpty = false := by
    cases args with
    | nil => exact absurd rfl hargs
    | cons a l => rfl
  refine ⟨?_, ?_, ?_⟩
  · intro pre a post hsplit hpre
    have hanchor : staticAssertAnchorArg args = staticAssertAnchorArg (a :: post) := by
      rw [hsplit]
      exact staticAssertAnchorArg_append_templates pre (a :: post) hpre
    constructor
    · intro hk
      simp only [staticAssertToCpp, hempty, hconst, Bool.or_self, if_neg, Bool.false_eq_true,
        not_false_iff, hanchor, staticAssertAnchorArg, hk]
      rfl
    · intro hk
      simp only [staticAssertToCpp, hempty, hconst, Bool.or_self, if_neg, Bool.false_eq_true,
        not_false_iff, hanchor, staticAssertAnchorArg, hk]
      rfl
  · intro hall
    have hanchor := staticAssertAnchorArg_none_of_templates args hall
    simp only [staticAssertToCpp, hempty, hconst, Bool.or_self, if_neg, Bool.false_eq_true,
      not_false_iff, hanchor]
  · refine ⟨"Unable to convert to C++ an assertion in the function ",
      " because it\x27s a constant expression and " ++ functionName ++
      " only has functions as params. You should move the assertion outside the function or reference one of " ++
      functionName ++ "\x27s params in the assertion.", ?_⟩
    simp only [cannotDeferAssertionError, String.append_assoc]

/-- Witness for C6: at a concrete input whose first parameter is
template-kind and whose second is boolean-kind, the assertion is anchored to
the boolean parameter; with only template-kind parameters, the distinct
error is raised. -/
theorem staticAssert_anchoring_witness :
    staticAssertToCpp (.literal true) "m" [⟨.functionT [] .boolT, "f"⟩, ⟨.boolT, "b"⟩] "g" =
      .ok "static_assert(AlwaysTrueFromBool<b>::value && true, \"m\");" ∧
    staticAssertToCpp (.literal true) "m" [⟨.functionT [] .boolT, "f"⟩] "g" =
      .error (cannotDeferAssertionError "g") := by
  constructor
  · have h := staticAssert_anchoring (.literal true) "m"
      [⟨.functionT [] .boolT, "f"⟩, ⟨.boolT, "b"⟩] "g"
      (by intro hcontr; exact List.noConfusion hcontr) rfl
    exact (h.1 [⟨.functionT [] .boolT, "f"⟩] ⟨.boolT, "b"⟩ [] rfl
      (by intro b hb; simp only [List.mem_singleton] at hb; rw [hb]; rfl)).1 rfl
  · have h := staticAssert_anchoring (.literal true) "m"
      [⟨.functionT [] .boolT, "f"⟩] "g"
      (by intro hcontr; exact List.noConfusion hcontr) rfl
    exact h.2.1 (by intro a ha; simp only [List.mem_singleton] at ha; rw [ha]; rfl)

/-- C7: kind-directed assignment codegen.  Assigning a boolean-kind expression
emits a `static constexpr bool` declaration; assigning a type-kind expression
emits a `using` alias; assigning a template-kind expression emits a nested
class template over that function type's argument list whose body is the
kind-directed emission of a synthetic call of the right-hand side against
those parameters; and when the outer name is `type` and the inner result
member is also `type`, a uniquely named helper struct is introduced and
aliased instead of nesting directly. -/
theorem assignment_kind_directed_codegen (t : CxxType) (lhsCxxName : String) (rhs : CxxExpr)
    (helperPfx : String) (helperCount : Nat) (paramPfx : String) (paramCount : Nat) :
    (t.kind = .bool →
      (assignmentToCppInternal t lhsCxxName rhs helperPfx helperCount paramPfx paramCount).1 =
        "                static constexpr bool " ++ lhsCxxName ++ " = " ++ rhs.toCpp ++
        ";\n                ") ∧
    (t.kind = .type →
      (assignmentToCppInternal t lhsCxxName rhs helperPfx helperCount paramPfx paramCount).1 =
        "                using " ++ lhsCxxName ++ " = " ++ rhs.toCpp ++ ";\n                ") ∧
    (∀ argtypes returns, t = .functionT argtypes returns → lhsCxxName ≠ "type" →
      (assignmentToCppInternal t lhsCxxName rhs helperPfx helperCount paramPfx paramCount).1 =
        (let templateArgs := mkTemplateArgs argtypes paramPfx paramCount
         let inner := assignmentToCppInternal returns (innerLhsCxxName returns.kind)
           (.functionCall rhs (templateArgs.map fun p => .varRef p.2 (.cxxName p.1)))
           helperPfx helperCount paramPfx (paramCount + argtypes.length)
         "                    template <" ++ templateArgsDecl templateArgs ++ ">\n" ++
         "                    struct " ++ lhsCxxName ++ " \x7b\n" ++
         "                      " ++ inner.1 ++ "\n" ++
         "                    \x7d;\n" ++
         "                    ")) ∧
    (∀ argtypes returns, t = .functionT argtypes returns → lhsCxxName = "type" →
      innerLhsCxxName returns.kind = "type" →
      (assignmentToCppInternal t lhsCxxName rhs helperPfx helperCount paramPfx paramCount).1 =
        (let templateArgs := mkTemplateArgs argtypes paramPfx paramCount
         let inner := assignmentToCppInternal returns (innerLhsCxxName returns.kind)
           (.functionCall rhs (templateArgs.map fun p => .varRef p.2 (.cxxName p.1)))
           helperPfx helperCount paramPfx (paramCount + argtypes.length)
         let helperCxxName := helperPfx ++ Nat.repr inner.2.1
         "                    template <" ++ templateArgsDecl templateArgs ++ ">\n" ++
         "                    struct " ++ helperCxxName ++ " \x7b\n" ++
         "                      " ++ inner.1 ++ "\n" ++
         "                    \x7d;\n" ++
         "                    template <" ++ templateArgsDecl templateArgs ++ ">\n" ++
         "                    using type = " ++ helperCxxName ++ "<" ++
         String.intercalate ", " (templateArgs.map fun p => p.1) ++ ">;\n" ++
         "                    ")) := by
  refine ⟨?_, ?_, ?_, ?_⟩
  · intro hk
    cases t with
    | boolT => rfl
    | typeT => exact absurd hk (by simp [CxxType.kind])
    | listT e => exact absurd hk (by simp [CxxType.kind])
    | functionT a r => exact absurd hk (by simp [CxxType.kind])
  · intro hk
    cases t with
    | boolT => exact absurd hk (by simp [CxxType.kind])
    | typeT => rfl
    | listT e => rfl
    | functionT a r => exact absurd hk (by simp [CxxType.kind])
  · intro argtypes returns ht hlhs
    subst ht
    simp only [assignmentToCppInternal, if_neg hlhs]
  · intro argtypes returns ht hlhs hinner
    subst ht
    subst hlhs
    simp only [assignmentToCppInternal, if_pos]

/-- Witness for C7: concrete instances of all four cases of the kind-directed
assignment codegen. -/
theorem assignment_kind_directed_codegen_witness :
    (assignmentToCppInternal .boolT "value" (.literal false) "H" 0 "Param_" 0).1 =
      "                static constexpr bool value = false;\n                " ∧
    (assignmentToCppInternal .typeT "x" (.typeLiteral "int") "H" 0 "Param_" 0).1 =
      "                using x = int;\n                " ∧
    (assignmentToCppInternal (.functionT [.typeT] .typeT) "F" (.typeLiteral "G") "H" 0 "Param_" 0).1 =
      "                    template <typename Param_0>\n" ++
      "                    struct F \x7b\n" ++
      "                      " ++ "                using type = typename G<Param_0>::type;\n                " ++ "\n" ++
      "                    \x7d;\n" ++
      "                    " ∧
    (assignmentToCppInternal (.functionT [.typeT] .typeT) "type" (.typeLiteral "G") "H" 0 "Param_" 0).1 =
      "                    template <typename Param_0>\n" ++
      "                    struct H0 \x7b\n" ++
      "                      " ++ "                using type = typename G<Param_0>::type;\n                " ++ "\n" ++
      "                    \x7d;\n" ++
      "                    template <typename Param_0>\n" ++
      "                    using type = H0<Param_0>;\n" ++
      "                    " := by
  have h1 := assignment_kind_directed_codegen .boolT "value" (.literal false) "H" 0 "Param_" 0
  have h2 := assignment_kind_directed_codegen .typeT "x" (.typeLiteral "int") "H" 0 "Param_" 0
  have h3 := assignment_kind_directed_codegen (.functionT [.typeT] .typeT) "F" (.typeLiteral "G")
    "H" 0 "Param_" 0
  have h4 := assignment_kind_directed_codegen (.functionT [.typeT] .typeT) "type" (.typeLiteral "G")
    "H" 0 "Param_" 0
  refine ⟨?_, ?_, ?_, ?_⟩
  · exact (h1.1 rfl).trans (by rfl)
  · exact (h2.2.1 rfl).trans (by rfl)
  · exact (h3.2.2.1 [.typeT] .typeT rfl (by decide)).trans (by rfl)
  · exact (h4.2.2.2 [.typeT] .typeT rfl rfl rfl).trans (by rfl)

/-- C8: if a pattern-matched arm's pattern list is syntactically identical to
the function's own unconstrained C++ parameter list, then
`FunctionSpecialization.__init__` drops the explicit patterns and the arm
becomes the primary (main) template definition rather than a partial
specialization. -/
theorem specialization_identical_patterns_is_main
    (args : List FunctionArgDecl) (ps : List TypePatternLiteral)
    (h : ps.map TypePatternLiteral.cxxPattern = args.map fun a => identifierToCpp a.type a.name) :
    functionSpecializationPatterns args (some ps) = none ∧
    functionSpecializationIsMainDefinition args (some ps) = true := by
  have heq : listSetEqB (ps.map TypePatternLiteral.cxxPattern)
      (args.map fun a => identifierToCpp a.type a.name) = true := by
    rw [h]
    exact listSetEqB_self _
  constructor
  · simp only [functionSpecializationPatterns, heq, if_pos]
  · simp only [functionSpecializationIsMainDefinition, functionSpecializationPatterns, heq,
      if_pos, Option.isNone_none]

/-- Witness for C8: a one-argument function whose arm's single pattern equals
the C++ name of its only parameter is emitted as the main definition. -/
theorem specialization_identical_patterns_is_main_witness :
    functionSpecializationPatterns [⟨CxxType.typeT, "b"⟩] (some [⟨"B"⟩]) = none := by
  exact (specialization_identical_patterns_is_main [⟨CxxType.typeT, "b"⟩] [⟨"B"⟩] rfl).1

end LowIr

namespace PassA

/-- `ir2.ExprType`: the type vocabulary of the IR produced by Pass A
(`ir3_to_ir2.py`), as constructed by `type_to_ir2`:
Bool, Int, Type, Bottom, ErrorOrVoid, List, Function and CustomType
(a custom type is its name plus its named, typed argument declarations). -/
inductive IrType where
  | bool : IrType
  | int : IrType
  | typeT : IrType
  | bottom : IrType
  | errorOrVoid : IrType
  | listT (elemType : IrType) : IrType
  | functionT (argtypes : List IrType) (returns : IrType) : IrType
  | custom (name : String) (argTypes : List (String × IrType)) : IrType

mutual

/-- Modelled from the spec: `ir2.ExprType` equality (`ir2.py` is not in the
snapshot; §3 of the spec fixes "Structural equality; no subtyping"). -/
def IrType.beq : IrType → IrType → Bool
  | .bool, .bool => true
  | .int, .int => true
  | .typeT, .typeT => true
  | .bottom, .bottom => true
  | .errorOrVoid, .errorOrVoid => true
  | .listT a, .listT b => IrType.beq a b
  | .functionT as1 r, .functionT bs s => IrType.beqList as1 bs && IrType.beq r s
  | .custom n xs, .custom m ys => n == m && IrType.beqFields xs ys
  | _, _ => false

/-- Structural equality on argument-type lists. -/
def IrType.beqList : List IrType → List IrType → Bool
  | [], [] => true
  | a :: as1, b :: bs => IrType.beq a b && IrType.beqList as1 bs
  | _, _ => false

/-- Structural equality on named field lists. -/
def IrType.beqFields : List (String × IrType) → List (String × IrType) → Bool
  | [], [] => true
  | (n, a) :: as1, (m, b) :: bs => n == m && IrType.beq a b && IrType.beqFields as1 bs
  | _, _ => false

end

/-- `isinstance(type, ir2.FunctionType)`. -/
def IrType.isFunctionType : IrType → Bool
  | .functionT _ _ => true
  | _ => false

/-- `ir3.ExprType`: the front-end IR's type vocabulary (it additionally has
sets and lacks ErrorOrVoid). -/
inductive Ir3Type where
  | bool : Ir3Type
  | int : Ir3Type
  | typeT : Ir3Type
  | bottom : Ir3Type
  | listT (elemType : Ir3Type) : Ir3Type
  | setT (elemType : Ir3Type) : Ir3Type
  | functionT (argtypes : List Ir3Type) (returns : Ir3Type) : Ir3Type
  | custom (name : String) (argTypes : List (String × Ir3Type)) : Ir3Type

mutual

/-- `ir3_to_ir2.type_to_ir2`: the identity on most types, except that
`ir3.SetType` becomes `ir2.ListType` (sets become list-backed). -/
def typeToIr2 : Ir3Type → IrType
  | .bool => .bool
  | .int => .int
  | .typeT => .typeT
  | .bottom => .bottom
  | .listT e => .listT (typeToIr2 e)
  | .setT e => .listT (typeToIr2 e)
  | .functionT args ret => .functionT (typeToIr2List args) (typeToIr2 ret)
  | .custom n fields => .custom n (typeToIr2Fields fields)

/-- `type_to_ir2` mapped over a list of argument types. -/
def typeToIr2List : List Ir3Type → List IrType
  | [] => []
  | t :: ts => typeToIr2 t :: typeToIr2List ts

/-- `type_to_ir2` mapped over custom-type argument declarations. -/
def typeToIr2Fields : List (String × Ir3Type) → List (String × IrType)
  | [] => []
  | (n, t) :: ts => (n, typeToIr2 t) :: typeToIr2Fields ts

end

/-- `ir3.VarReference`: name, type, and the two flags described in §3 of the
spec. -/
structure Var3 where
  type : Ir3Type
  name : String
  isGlobalFunction : Bool
  isFunctionThatMayThrow : Bool

/-- `ir3.Expr`: the front-end IR expressions dispatched by
`ir3_to_ir2.expr_to_ir2`.  A match case is the triple
`(type_patterns, matched_var_names, expr)` of `ir3.MatchCase`; `ir3.MatchExpr`
carries its `type` (read by `match_expr_to_ir2`), and a `TypeLiteral` carries
its keyword argument expressions as a name-keyed association list
(`arg_exprs`). -/
inductive Expr3 where
  | varRef (v : Var3) : Expr3
  | matchExpr (matchedExprs : List Expr3) (matchCases : List (List String × List String × Expr3))
      (type : Ir3Type) : Expr3
  | boolLiteral (value : Bool) : Expr3
  | intLiteral (value : Int) : Expr3
  | typeLiteral (cppType : String) (argExprs : List (String × Expr3)) : Expr3
  | listExpr (elemType : Ir3Type) (elemExprs : List Expr3) : Expr3
  | setExpr (elemType : Ir3Type) (elemExprs : List Expr3) : Expr3
  | functionCall (funExpr : Expr3) (args : List Expr3) : Expr3
  | equalityComparison (lhs rhs : Expr3) : Expr3
  | attributeAccess (expr : Expr3) (attributeName : String) (type : Ir3Type) : Expr3
  | andExpr (lhs rhs : Expr3) : Expr3
  | orExpr (lhs rhs : Expr3) : Expr3
  | notExpr (expr : Expr3) : Expr3
  | intUnaryMinus (expr : Expr3) : Expr3
  | intListSum (listArg : Expr3) : Expr3
  | intSetSum (setArg : Expr3) : Expr3
  | boolListAll (listArg : Expr3) : Expr3
  | boolSetAll (setArg : Expr3) : Expr3
  | boolListAny (listArg : Expr3) : Expr3
  | boolSetAny (setArg : Expr3) : Expr3
  | intComparison (lhs rhs : Expr3) (op : String) : Expr3
  | intBinaryOp (lhs rhs : Expr3) (op : String) : Expr3
  | listConcat (lhs rhs : Expr3) : Expr3
  | listComprehension (listArg : Expr3) (loopVar : Var3) (resultElemExpr : Expr3) : Expr3
  | setComprehension (setArg : Expr3) (loopVar : Var3) (resultElemExpr : Expr3) : Expr3

/-- Modelled from the spec: "Every expression carries its statically-known
ExprType" (§3).  `ir3.py` is not in the snapshot; the type of each node kind
follows the obvious static typing rules, and the nodes whose type
`ir3_to_ir2.py` actually reads (`MatchExpr.type`, `AttributeAccessExpr.type`,
element types of list/set expressions, `VarReference.type`) store it
explicitly. -/
def Expr3.type : Expr3 → Ir3Type
  | .varRef v => v.type
  | .matchExpr _ _ ty => ty
  | .boolLiteral _ => .bool
  | .intLiteral _ => .int
  | .typeLiteral _ _ => .typeT
  | .listExpr elemType _ => .listT elemType
  | .setExpr elemType _ => .setT elemType
  | .functionCall funExpr _ =>
    match funExpr.type with
    | .functionT _ r => r
    | _ => .bottom
  | .equalityComparison _ _ => .bool
  | .attributeAccess _ _ ty => ty
  | .andExpr _ _ => .bool
  | .orExpr _ _ => .bool
  | .notExpr _ => .bool
  | .intUnaryMinus _ => .int
  | .intListSum _ => .int
  | .intSetSum _ => .int
  | .boolListAll _ => .bool
  | .boolSetAll _ => .bool
  | .boolListAny _ => .bool
  | .boolSetAny _ => .bool
  | .intComparison _ _ _ => .bool
  | .intBinaryOp _ _ _ => .int
  | .listConcat lhs _ => lhs.type
  | .listComprehension _ _ res => .listT res.type
  | .setComprehension _ _ res => .setT res.type

/-- `ir3.Stmt`: the front-end IR statements dispatched by
`ir3_to_ir2.stmts_to_ir2`, including the front-end-only `raise` and
`try`/`except`. -/
inductive Stmt3 where
  | ifStmt (condExpr : Expr3) (ifStmts elseStmts : List Stmt3) : Stmt3
  | assignment (lhs : Var3) (rhs : Expr3) : Stmt3
  | unpackingAssignment (lhsList : List Var3) (rhs : Expr3) (errorMessage : String) : Stmt3
  | returnStmt (expr : Expr3) : Stmt3
  | raiseStmt (expr : Expr3) : Stmt3
  | assertStmt (expr : Expr3) (message : String) : Stmt3
  | tryExcept (tryBody : List Stmt3) (caughtExceptionType : Ir3Type)
      (caughtExceptionName : String) (exceptBody : List Stmt3) : Stmt3

mutual

/-- Modelled from the spec: `stmt.get_return_type().always_returns` for an
`ir3.Stmt` (`ir3.py` is not in the snapshot).  A return or raise statement
always returns; an if or try/except statement always returns when both of its
nested statement lists do; other statements do not. -/
def Stmt3.alwaysReturns : Stmt3 → Bool
  | .returnStmt _ => true
  | .raiseStmt _ => true
  | .ifStmt _ a b => Stmt3.lastAlwaysReturns a && Stmt3.lastAlwaysReturns b
  | .tryExcept tb _ _ eb => Stmt3.lastAlwaysReturns tb && Stmt3.lastAlwaysReturns eb
  | _ => false

/-- `stmts and stmts[-1].get_return_type().always_returns`: the Python
truthiness pattern used at lines 584-585 and 611-612 of `ir3_to_ir2.py`
(false for an empty list, otherwise the last statement's flag). -/
def Stmt3.lastAlwaysReturns : List Stmt3 → Bool
  | [] => false
  | [s] => Stmt3.alwaysReturns s
  | _ :: rest => Stmt3.lastAlwaysReturns rest

end

/-- `ir2.VarReference` (see §3 of the spec: name, type, and the two flags
`is_global_function` and `is_function_that_may_throw`). -/
structure VarReference where
  type : IrType
  name : String
  isGlobalFunction : Bool
  isFunctionThatMayThrow : Bool

/-- The return type of a function type (used for the `type` of an
`ir2.FunctionCall`). -/
def IrType.fnReturns : IrType → IrType
  | .functionT _ r => r
  | t => t

/-- `ir2.Expr`: the expressions constructed by Pass A.  All subexpression
slots hold `ir2.VarReference`s, matching how `ir3_to_ir2.py` builds them
(every intermediate value is first bound to a fresh variable).
`listComprehension` stores the `ir2.ListComprehensionExpr` fields with its
`result_elem_expr` (an `ir2.FunctionCall`) split into callee and arguments;
a `matchExpr` case is `(type_patterns, matched_var_names, callee, args)` for
an `ir2.MatchCase` whose `expr` is the `ir2.FunctionCall` of the outlined
arm function. -/
inductive Expr2 where
  | varRef (v : VarReference) : Expr2
  | boolLiteral (value : Bool) : Expr2
  | intLiteral (value : Int) : Expr2
  | typeLiteral (cppType : String) (args : List (String × VarReference)) : Expr2
  | listExpr (elemType : IrType) (elems : List VarReference) : Expr2
  | addToSet (setArg elemArg : VarReference) : Expr2
  | functionCall (fn : VarReference) (args : List VarReference) : Expr2
  | equalityComparison (lhs rhs : VarReference) : Expr2
  | setEqualityComparison (lhs rhs : VarReference) : Expr2
  | attributeAccess (var : VarReference) (attributeName : String) (type : IrType) : Expr2
  | notExpr (var : VarReference) : Expr2
  | unaryMinus (var : VarReference) : Expr2
  | intListSum (var : VarReference) : Expr2
  | boolListAll (var : VarReference) : Expr2
  | boolListAny (var : VarReference) : Expr2
  | intComparison (lhs rhs : VarReference) (op : String) : Expr2
  | intBinaryOp (lhs rhs : VarReference) (op : String) : Expr2
  | listConcat (lhs rhs : VarReference) : Expr2
  | listComprehension (listVar loopVar : VarReference) (resultFun : VarReference)
      (resultArgs : List VarReference) : Expr2
  | matchExpr (matchedVars : List VarReference)
      (matchCases : List (List String × List String × VarReference × List VarReference)) : Expr2
  | listToSet (var : VarReference) : Expr2
  | setToList (var : VarReference) : Expr2
  | isInstance (var : VarReference) (checkedType : IrType) : Expr2
  | safeUncheckedCast (var : VarReference) (type : IrType) : Expr2

/-- Modelled from the spec: the `type` attribute of each `ir2.Expr` node
(`ir2.py` is not in the snapshot; §3: every expression carries its
statically-known type).  A call's type is the callee's return type, a
comprehension is a list of its element function's return type, a match
expression has the type of its (first) case call, boolean operators are
boolean, and casts/attribute accesses carry their type explicitly. -/
def Expr2.type : Expr2 → IrType
  | .varRef v => v.type
  | .boolLiteral _ => .bool
  | .intLiteral _ => .int
  | .typeLiteral _ _ => .typeT
  | .listExpr elemType _ => .listT elemType
  | .addToSet setArg _ => setArg.type
  | .functionCall fn _ => fn.type.fnReturns
  | .equalityComparison _ _ => .bool
  | .setEqualityComparison _ _ => .bool
  | .attributeAccess _ _ t => t
  | .notExpr _ => .bool
  | .unaryMinus _ => .int
  | .intListSum _ => .int
  | .boolListAll _ => .bool
  | .boolListAny _ => .bool
  | .intComparison _ _ _ => .bool
  | .intBinaryOp _ _ _ => .int
  | .listConcat lhs _ => lhs.type
  | .listComprehension _ _ resultFun _ => .listT resultFun.type.fnReturns
  | .matchExpr _ matchCases =>
    match matchCases with
    | [] => .bottom
    | c :: _ => c.2.2.1.type.fnReturns
  | .listToSet v => v.type
  | .setToList v => v.type
  | .isInstance _ _ => .bool
  | .safeUncheckedCast _ t => t

/-- `ir2.Stmt`: the statements constructed by Pass A.  `assignment` covers
both single-target (`lhs2 = none`) and the two-target result/error binding
(`lhs2 = some errorVar`) of `ir2.Assignment`; `returnStmt` holds the result
channel and the error channel of `ir2.ReturnStmt`. -/
inductive Stmt2 where
  | assignment (lhs : VarReference) (lhs2 : Option VarReference) (rhs : Expr2) : Stmt2
  | returnStmt (result error : Option VarReference) : Stmt2
  | ifStmt (cond : VarReference) (ifStmts elseStmts : List Stmt2) : Stmt2
  | assertStmt (var : VarReference) (message : String) : Stmt2
  | unpackingAssignment (lhsList : List VarReference) (rhs : Expr2) (errorMessage : String) : Stmt2

/-- `ir2.FunctionArgDecl`. -/
structure FunctionArgDecl2 where
  type : IrType
  name : String

/-- `ir2.FunctionDefn`.  `returnType` is an `Option` because
`try_except_stmt_to_ir2` passes `writer.current_fun_return_type`, which is
`None` for the top-level statement writer. -/
structure FunctionDefn2 where
  name : String
  description : String
  args : List FunctionArgDecl2
  body : List Stmt2
  returnType : Option IrType

/-- `ir3_to_ir2.TryExceptContext`. -/
structure TryExceptContext where
  caughtExceptionType : IrType
  caughtExceptionName : String
  exceptFunCallExpr : Expr2

/-- The state of `ir3_to_ir2.FunWriter`: the identifier generator (modelled
as a counter, see `genIdentifier`), the memoized obfuscation map
(`obfuscated_identifiers_by_identifier`, a `defaultdict` keyed by source
name), the accumulated function definitions, and `is_error_fun_ref`. -/
structure FunWriterState where
  counter : Nat
  obfuscatedIdentifiersByIdentifier : List (String × String)
  functionDefns : List FunctionDefn2
  isErrorFunRef : VarReference

/-- The external `identifier_generator` handed to `module_to_ir2` is "a
monotonically increasing counter producing globally unique names for the
whole compilation" (§3); it is modelled as the injective function
`n ↦ "_t" ++ n`. -/
def genIdentifier (n : Nat) : String := "_t" ++ Nat.repr n

/-- `FunWriter.new_id` / `StmtWriter.new_id`: `next(self.identifier_generator)`. -/
def FunWriterState.newId (s : FunWriterState) : String × FunWriterState :=
  (genIdentifier s.counter, { s with counter := s.counter + 1 })

/-- `FunWriter.new_var`: a fresh variable of the given type; its
`is_function_that_may_throw` flag is `isinstance(type, ir2.FunctionType)`. -/
def FunWriterState.newVar (s : FunWriterState) (type : IrType) (isGlobalFunction : Bool) :
    VarReference × FunWriterState :=
  let p := s.newId
  (⟨type, p.1, isGlobalFunction, type.isFunctionType⟩, p.2)

/-- `FunWriter.obfuscate_identifier`: a `defaultdict` lookup that generates
and memoizes a fresh name on first use. -/
def FunWriterState.obfuscateIdentifier (s : FunWriterState) (identifier : String) :
    String × FunWriterState :=
  match List.lookup identifier s.obfuscatedIdentifiersByIdentifier with
  | some n => (n, s)
  | none =>
    let p := s.newId
    (p.1, { p.2 with obfuscatedIdentifiersByIdentifier :=
              p.2.obfuscatedIdentifiersByIdentifier ++ [(identifier, p.1)] })

/-- `FunWriter.write_function`. -/
def FunWriterState.writeFunction (s : FunWriterState) (d : FunctionDefn2) : FunWriterState :=
  { s with functionDefns := s.functionDefns ++ [d] }

/-- The local state of one `ir3_to_ir2.StmtWriter`: the current function's
return type, the accumulated statements, and the active try/except handler
stack (`try_except_contexts`).  A fresh `StmtWriter(fun_writer, ret)` is
`StmtWriterState.mk0 ret`. -/
structure StmtWriterState where
  currentFunReturnType : Option IrType
  stmts : List Stmt2
  tryExceptContexts : List TryExceptContext

/-- `StmtWriter.__init__`: empty statement list and empty handler stack. -/
def StmtWriterState.mk0 (currentFunReturnType : Option IrType) : StmtWriterState :=
  ⟨currentFunReturnType, [], []⟩

/-- `StmtWriter.write_stmt`. -/
def StmtWriterState.writeStmt (sw : StmtWriterState) (st : Stmt2) : StmtWriterState :=
  { sw with stmts := sw.stmts ++ [st] }

/-- `StmtWriter.new_var_for_expr`: bind the expression to a fresh variable. -/
def newVarForExpr (e : Expr2) (sw : StmtWriterState) (fw : FunWriterState) :
    VarReference × StmtWriterState × FunWriterState :=
  let p := fw.newVar e.type false
  (p.1, sw.writeStmt (.assignment p.1 none e), p.2)

/-- The loop body of `StmtWriter.new_var_for_expr_with_error_checking` over
`self.try_except_contexts` (in Python list order, i.e. outermost context
first), building the statements of `outer_if_branch_writer`, followed by the
trailing `return None, err` propagation statement. -/
def errorCheckingDispatch (contexts : List TryExceptContext) (retTy : IrType)
    (errorVar : VarReference) (fw : FunWriterState) : List Stmt2 × FunWriterState :=
  match contexts with
  | [] => ([.returnStmt none (some errorVar)], fw)
  | ctx :: rest =>
    let p1 := fw.obfuscateIdentifier ctx.caughtExceptionName
    let excVar : VarReference := ⟨ctx.caughtExceptionType, p1.1, false, false⟩
    let p2 := p1.2.newVar retTy false
    let resI := p2.1
    let p3 := p2.2.newVar .errorOrVoid false
    let errI := p3.1
    let branchStmts : List Stmt2 :=
      [.assignment excVar none (.safeUncheckedCast errorVar ctx.caughtExceptionType),
       .assignment resI (some errI) ctx.exceptFunCallExpr,
       .returnStmt (some resI) (some errI)]
    let p4 := p3.2.newVar (Expr2.isInstance errorVar ctx.caughtExceptionType).type false
    let bI := p4.1
    let p5 := errorCheckingDispatch rest retTy errorVar p4.2
    (Stmt2.assignment bI none (.isInstance errorVar ctx.caughtExceptionType) ::
     Stmt2.ifStmt bI branchStmts [] :: p5.1, p5.2)

/-- `StmtWriter.new_var_for_expr_with_error_checking`: inside a function
(`current_fun_return_type` set) the expression is bound to a result variable
and an error variable, `is_error` is called on the error variable, and an if
branch walks the active handler stack and otherwise propagates; at top level
the expression is simply bound to a fresh variable. -/
def newVarForExprWithErrorChecking (e : Expr2) (sw : StmtWriterState) (fw : FunWriterState) :
    VarReference × StmtWriterState × FunWriterState :=
  match sw.currentFunReturnType with
  | some retTy =>
    let p1 := fw.newVar e.type false
    let xVar := p1.1
    let p2 := p1.2.newVar .errorOrVoid false
    let errorVar := p2.1
    let sw1 := sw.writeStmt (.assignment xVar (some errorVar) e)
    let isErrorCall : Expr2 := .functionCall p2.2.isErrorFunRef [errorVar]
    let p3 := p2.2.newVar isErrorCall.type false
    let bVar := p3.1
    let sw2 := sw1.writeStmt (.assignment bVar none isErrorCall)
    let p4 := errorCheckingDispatch sw.tryExceptContexts retTy errorVar p3.2
    let sw3 := sw2.writeStmt (.ifStmt bVar p4.1 [])
    (xVar, sw3, p4.2)
  | none =>
    let p1 := fw.newVar e.type false
    (p1.1, sw.writeStmt (.assignment p1.1 none e), p1.2)

/-- The `for context in writer.try_except_contexts: ... else: ...` loop of
`raise_stmt_to_ir2`: the first context (in Python list order, i.e. outermost
first) whose caught exception type structurally equals the raised
expression's static type receives the dispatch; with no match the raised
value is returned as the propagated error. -/
def raiseDispatch (contexts : List TryExceptContext) (exceptionExpr : VarReference)
    (sw : StmtWriterState) (fw : FunWriterState) : StmtWriterState × FunWriterState :=
  match contexts with
  | [] => (sw.writeStmt (.returnStmt none (some exceptionExpr)), fw)
  | ctx :: rest =>
    if IrType.beq ctx.caughtExceptionType exceptionExpr.type then
      let p1 := fw.obfuscateIdentifier ctx.caughtExceptionName
      let exceptionVar : VarReference := ⟨exceptionExpr.type, p1.1, false, false⟩
      let sw1 := sw.writeStmt (.assignment exceptionVar none (.varRef exceptionExpr))
      let p2 := p1.2.newVar ctx.exceptFunCallExpr.type false
      let handlerResultVar := p2.1
      let p3 := p2.2.newVar .errorOrVoid false
      let handlerErrorVar := p3.1
      let sw2 := sw1.writeStmt (.assignment handlerResultVar (some handlerErrorVar)
        ctx.exceptFunCallExpr)
      let sw3 := sw2.writeStmt (.returnStmt (some handlerResultVar) (some handlerErrorVar))
      (sw3, p3.2)
    else
      raiseDispatch rest exceptionExpr sw fw

/-- `var_reference_to_ir2`: a global function keeps its name, any other
reference is obfuscated; both flags are copied. -/
def varReferenceToIr2 (v : Var3) (fw : FunWriterState) : VarReference × FunWriterState :=
  if v.isGlobalFunction then
    (⟨typeToIr2 v.type, v.name, v.isGlobalFunction, v.isFunctionThatMayThrow⟩, fw)
  else
    let p := fw.obfuscateIdentifier v.name
    (⟨typeToIr2 v.type, p.1, v.isGlobalFunction, v.isFunctionThatMayThrow⟩, p.2)

/-- `var_reference_to_ir2` mapped over a list (for
`unpacking_assignment_to_ir2`). -/
def varListToIr2 (vs : List Var3) (fw : FunWriterState) :
    List VarReference × FunWriterState :=
  match vs with
  | [] => ([], fw)
  | v :: rest =>
    let p := varReferenceToIr2 v fw
    let q := varListToIr2 rest p.2
    (p.1 :: q.1, q.2)

/-- `obfuscate_identifier` mapped over a list of names, returning the
(source name, generated name) pairs — the `replacements` dict built by
`match_expr_to_ir2`. -/
def obfuscateAll (names : List String) (fw : FunWriterState) :
    List (String × String) × FunWriterState :=
  match names with
  | [] => ([], fw)
  | n :: rest =>
    let p := fw.obfuscateIdentifier n
    let q := obfuscateAll rest p.2
    ((n, p.1) :: q.1, q.2)

/-- The variable references occurring in an `ir2.Expr`, in left-to-right
order, with the binders of comprehensions (`loop_var`) and match cases
(`matched_var_names`) removed. -/
def Expr2.varRefs : Expr2 → List VarReference
  | .varRef v => [v]
  | .boolLiteral _ => []
  | .intLiteral _ => []
  | .typeLiteral _ args => args.map (fun a => a.2)
  | .listExpr _ elems => elems
  | .addToSet setArg elemArg => [setArg, elemArg]
  | .functionCall fn args => fn :: args
  | .equalityComparison l r => [l, r]
  | .setEqualityComparison l r => [l, r]
  | .attributeAccess v _ _ => [v]
  | .notExpr v => [v]
  | .unaryMinus v => [v]
  | .intListSum v => [v]
  | .boolListAll v => [v]
  | .boolListAny v => [v]
  | .intComparison l r _ => [l, r]
  | .intBinaryOp l r _ => [l, r]
  | .listConcat l r => [l, r]
  | .listComprehension listVar loopVar resultFun resultArgs =>
    listVar :: (resultFun :: resultArgs).filter (fun v => v.name ≠ loopVar.name)
  | .matchExpr matchedVars matchCases =>
    matchedVars ++ matchCases.flatMap (fun c =>
      (c.2.2.1 :: c.2.2.2).filter (fun v => ¬ c.2.1.contains v.name))
  | .listToSet v => [v]
  | .setToList v => [v]
  | .isInstance v _ => [v]
  | .safeUncheckedCast v _ => [v]

/-- Append the references in `vs` that are free (not global functions, not
bound) and not yet accumulated (by name) to `acc`, preserving first-occurrence
order. -/
def addFree (bound : List String) (acc : List VarReference) (vs : List VarReference) :
    List VarReference :=
  vs.foldl (fun acc1 v =>
    if v.isGlobalFunction || bound.contains v.name ||
        (acc1.map (fun w => w.name)).contains v.name then
      acc1
    else
      acc1 ++ [v]) acc

mutual

/-- Names assigned anywhere in a statement list (both targets of assignments,
unpacking targets, and assignments inside if branches). -/
def assignedNamesInStmts : List Stmt2 → List String
  | [] => []
  | s :: rest => assignedNamesInStmt s ++ assignedNamesInStmts rest

/-- Names assigned by one statement. -/
def assignedNamesInStmt : Stmt2 → List String
  | .assignment lhs lhs2 _ =>
    lhs.name :: (match lhs2 with | some v => [v.name] | none => [])
  | .unpackingAssignment lhsList _ _ => lhsList.map (fun v => v.name)
  | .ifStmt _ a b => assignedNamesInStmts a ++ assignedNamesInStmts b
  | _ => []

end

mutual

/-- Sequential free-variable scan of a statement list, threading the set of
bound names and the accumulator of free references. -/
def freeVarsInStmts : List Stmt2 → List String → List VarReference →
    List String × List VarReference
  | [], bound, acc => (bound, acc)
  | s :: rest, bound, acc =>
    let p := freeVarsInStmt s bound acc
    freeVarsInStmts rest p.1 p.2

/-- Free-variable scan of one statement: references made before a name is
assigned are free; an assignment binds its targets for the following
statements; an if statement scans its condition and both branches and binds
the names assigned in either branch for the following statements. -/
def freeVarsInStmt : Stmt2 → List String → List VarReference →
    List String × List VarReference
  | .assignment lhs lhs2 rhs, bound, acc =>
    (bound ++ lhs.name :: (match lhs2 with | some v => [v.name] | none => []),
     addFree bound acc rhs.varRefs)
  | .returnStmt r e, bound, acc =>
    (bound, addFree bound acc ((r.toList) ++ (e.toList)))
  | .assertStmt v _, bound, acc => (bound, addFree bound acc [v])
  | .unpackingAssignment lhsList rhs _, bound, acc =>
    (bound ++ lhsList.map (fun v => v.name), addFree bound acc rhs.varRefs)
  | .ifStmt c a b, bound, acc =>
    let acc1 := addFree bound acc [c]
    let p1 := freeVarsInStmts a bound acc1
    let p2 := freeVarsInStmts b bound p1.2
    (bound ++ assignedNamesInStmts a ++ assignedNamesInStmts b, p2.2)

end

/-- Modelled from the spec: `ir2.get_unique_free_variables_in_stmts`
(`ir2.py` is not in the snapshot).  Per §4.1 the parameters of every
synthesized helper are "exactly the free variables referenced" in its body,
"computed, not hand-picked", "each exactly once in its parameter list, in a
stable order" (§8): the references made before assignment, excluding
global-function references, deduplicated by name in first-occurrence order. -/
def getUniqueFreeVariablesInStmts (stmts : List Stmt2) : List VarReference :=
  (freeVarsInStmts stmts [] []).2

/-- `FunWriter._create_is_error_fun_defn`:
`def is_error(x: ErrorOrVoid): v = Type('void'); b = (x == v); b2 = not b; return b2`. -/
def createIsErrorFunDefn (fw : FunWriterState) : FunctionDefn2 × FunWriterState :=
  let sw0 := StmtWriterState.mk0 (some .bool)
  let px := fw.newVar .errorOrVoid false
  let xVar := px.1
  let pv := newVarForExpr (.typeLiteral "void" []) sw0 px.2
  let vVar := pv.1
  let pb := newVarForExpr (.equalityComparison xVar vVar) pv.2.1 pv.2.2
  let bVar := pb.1
  let pb2 := newVarForExpr (.notExpr bVar) pb.2.1 pb.2.2
  let b2Var := pb2.1
  let sw4 := pb2.2.1.writeStmt (.returnStmt (some b2Var) none)
  (⟨fw.isErrorFunRef.name, "The is_error (meta)function",
    [⟨xVar.type, xVar.name⟩], sw4.stmts, some .bool⟩, pb2.2.2)

/-- `FunWriter.__init__`: create `is_error_fun_ref` (a fresh global,
may-throw-flagged function variable) and the `is_error` definition, and start
with an empty obfuscation map. -/
def FunWriterState.init : FunWriterState :=
  let s0 : FunWriterState := ⟨0, [], [], ⟨.bool, "", false, false⟩⟩
  let p0 := s0.newVar (.functionT [.errorOrVoid] .bool) true
  let s1 : FunWriterState := { p0.2 with isErrorFunRef := p0.1 }
  let p1 := createIsErrorFunDefn s1
  { p1.2 with functionDefns := [p1.1] }

/-- A character that can be part of a Python identifier. -/
def isIdentChar (c : Char) : Bool := c.isAlphanum || c = '_'

/-- Replace a maximal identifier token via the replacements map (tokens not
in the map are kept). -/
def replTok (repl : List (String × String)) (tok : String) : String :=
  (List.lookup tok repl).getD tok

/-- Token-by-token scan for `replaceIdentifiers`; `cur` is the reversed
run of identifier characters currently being read. -/
def replaceIdentifiersAux (repl : List (String × String)) :
    List Char → List Char → String
  | cur, [] => replTok repl ⟨cur.reverse⟩
  | cur, c :: cs =>
    if isIdentChar c then
      replaceIdentifiersAux repl (c :: cur) cs
    else
      replTok repl ⟨cur.reverse⟩ ++ String.singleton c ++ replaceIdentifiersAux repl [] cs

/-- Modelled from the spec: `utils.replace_identifiers` (`utils.py` is not in
the snapshot): every maximal identifier token occurring in a type-pattern
string is replaced through the replacements map, so that pattern variables
are "each consistently obfuscated" (§4.1). -/
def replaceIdentifiers (s : String) (repl : List (String × String)) : String :=
  replaceIdentifiersAux repl [] s.data

/-- Byte-wise comparison of characters (for the `sorted(...)` key order of
`type_literal_to_ir2`). -/
def charListLeB : List Char → List Char → Bool
  | [], _ => true
  | _ :: _, [] => false
  | a :: as1, b :: bs =>
    if a.toNat = b.toNat then charListLeB as1 bs
    else Nat.ble a.toNat b.toNat

/-- Lexicographic string order (Python's `str` comparison on ASCII keys). -/
def strLeB (a b : String) : Bool := charListLeB a.data b.data

/-- Insert into a sorted list (stable). -/
def insSorted (le : α → α → Bool) (x : α) : List α → List α
  | [] => [x]
  | y :: ys => if le x y then x :: y :: ys else y :: insSorted le x ys

/-- Stable insertion sort, modelling Python's `sorted`. -/
def insSort (le : α → α → Bool) : List α → List α
  | [] => []
  | x :: xs => insSorted le x (insSort le xs)

/-- The fold of `set_expr_to_ir2` rewriting a set display into an empty list
plus one `AddToSetExpr` binding per element. -/
def addToSetFold (result : VarReference) (elemVars : List VarReference)
    (sw : StmtWriterState) (fw : FunWriterState) :
    VarReference × StmtWriterState × FunWriterState :=
  match elemVars with
  | [] => (result, sw, fw)
  | v :: rest =>
    let p := newVarForExpr (.addToSet result v) sw fw
    addToSetFold p.1 rest p.2.1 p.2.2

/-- The default result returned when the traversal fuel runs out (never
reached when the fuel exceeds the input's size; the Python recursion is
structural on the finite input tree, §5). -/
def dummyVar : VarReference := ⟨.bottom, "", false, false⟩

/-- `ir2.FunctionArgDecl`s built from forwarded variables, as in
`args=[ir2.FunctionArgDecl(type=var.type, name=var.name) for var in forwarded_vars]`. -/
def argDeclsOfVars (vs : List VarReference) : List FunctionArgDecl2 :=
  vs.map (fun v => ⟨v.type, v.name⟩)

mutual

/-- `expr_to_ir2` and the per-node-kind functions it dispatches to
(`var_reference_to_ir2`, `match_expr_to_ir2`, literal/list/set translation,
`function_call_to_ir2`, `equality_comparison_to_ir2`,
`attribute_access_expr_to_ir2`, `and_expr_to_ir2`, `or_expr_to_ir2`, the
unary/binary operator translations and the comprehension translations), with
the writer pair threaded explicitly and a fuel parameter driving the
recursion. -/
def exprToIr2 : Nat → Expr3 → StmtWriterState → FunWriterState →
    VarReference × StmtWriterState × FunWriterState
  | 0, _, sw, fw => (dummyVar, sw, fw)
  | fuel + 1, e, sw, fw =>
    match e with
    | .varRef v =>
      -- var_reference_to_ir2
      let p := varReferenceToIr2 v fw
      (p.1, sw, p.2)
    | .matchExpr matchedExprs matchCases ty =>
      -- match_expr_to_ir2
      let p1 := exprListToIr2 fuel matchedExprs sw fw
      let matchedVars := p1.1
      let p2 := matchCasesToIr2 fuel ty matchCases p1.2.1 p1.2.2
      newVarForExprWithErrorChecking (.matchExpr matchedVars p2.1) p2.2.1 p2.2.2
    | .boolLiteral b =>
      -- bool_literal_to_ir2
      newVarForExpr (.boolLiteral b) sw fw
    | .intLiteral n =>
      -- int_literal_to_ir2
      newVarForExpr (.intLiteral n) sw fw
    | .typeLiteral cppType argExprs =>
      -- type_literal_to_ir2 (arg_exprs sorted by name)
      let sorted := insSort (fun a b => strLeB a.1 b.1) argExprs
      let p := typeLiteralArgsToIr2 fuel sorted sw fw
      newVarForExpr (.typeLiteral cppType p.1) p.2.1 p.2.2
    | .listExpr elemType elemExprs =>
      -- list_expr_to_ir2
      let p := exprListToIr2 fuel elemExprs sw fw
      newVarForExpr (.listExpr (typeToIr2 elemType) p.1) p.2.1 p.2.2
    | .setExpr elemType elemExprs =>
      -- set_expr_to_ir2
      let p0 := newVarForExpr (.listExpr (typeToIr2 elemType) []) sw fw
      let p1 := exprListToIr2 fuel elemExprs p0.2.1 p0.2.2
      addToSetFold p0.1 p1.1 p1.2.1 p1.2.2
    | .functionCall funExpr args =>
      -- function_call_to_ir2
      let p1 := exprToIr2 fuel funExpr sw fw
      let funVar := p1.1
      let p2 := exprListToIr2 fuel args p1.2.1 p1.2.2
      if funVar.isFunctionThatMayThrow then
        newVarForExprWithErrorChecking (.functionCall funVar p2.1) p2.2.1 p2.2.2
      else
        newVarForExpr (.functionCall funVar p2.1) p2.2.1 p2.2.2
    | .equalityComparison lhs rhs =>
      -- equality_comparison_to_ir2
      match lhs.type with
      | .setT _ =>
        let p1 := exprToIr2 fuel lhs sw fw
        let p2 := exprToIr2 fuel rhs p1.2.1 p1.2.2
        newVarForExpr (.setEqualityComparison p1.1 p2.1) p2.2.1 p2.2.2
      | _ =>
        let p1 := exprToIr2 fuel lhs sw fw
        let p2 := exprToIr2 fuel rhs p1.2.1 p1.2.2
        newVarForExpr (.equalityComparison p1.1 p2.1) p2.2.1 p2.2.2
    | .attributeAccess e1 attributeName ty =>
      -- attribute_access_expr_to_ir2
      let p := exprToIr2 fuel e1 sw fw
      newVarForExpr (.attributeAccess p.1 attributeName (typeToIr2 ty)) p.2.1 p.2.2
    | .andExpr lhs rhs =>
      -- and_expr_to_ir2: rhs evaluated in a fresh branch writer
      let p1 := exprToIr2 fuel lhs sw fw
      let lhsVar := p1.1
      let p2 := exprToIr2 fuel rhs (StmtWriterState.mk0 p1.2.1.currentFunReturnType) p1.2.2
      let rhsVar := p2.1
      let sw2 := p1.2.1.writeStmt (.ifStmt lhsVar p2.2.1.stmts
        [.assignment rhsVar none (.boolLiteral false)])
      (rhsVar, sw2, p2.2.2)
    | .orExpr lhs rhs =>
      -- or_expr_to_ir2: mirror image of and_expr_to_ir2
      let p1 := exprToIr2 fuel lhs sw fw
      let lhsVar := p1.1
      let p2 := exprToIr2 fuel rhs (StmtWriterState.mk0 p1.2.1.currentFunReturnType) p1.2.2
      let rhsVar := p2.1
      let sw2 := p1.2.1.writeStmt (.ifStmt lhsVar
        [.assignment rhsVar none (.boolLiteral true)] p2.2.1.stmts)
      (rhsVar, sw2, p2.2.2)
    | .notExpr e1 =>
      let p := exprToIr2 fuel e1 sw fw
      newVarForExpr (.notExpr p.1) p.2.1 p.2.2
    | .intUnaryMinus e1 =>
      let p := exprToIr2 fuel e1 sw fw
      newVarForExpr (.unaryMinus p.1) p.2.1 p.2.2
    | .intListSum e1 =>
      let p := exprToIr2 fuel e1 sw fw
      newVarForExpr (.intListSum p.1) p.2.1 p.2.2
    | .intSetSum e1 =>
      -- int_set_sum_expr_to_ir2 also lowers to ir2.IntListSumExpr
      let p := exprToIr2 fuel e1 sw fw
      newVarForExpr (.intListSum p.1) p.2.1 p.2.2
    | .boolListAll e1 =>
      let p := exprToIr2 fuel e1 sw fw
      newVarForExpr (.boolListAll p.1) p.2.1 p.2.2
    | .boolSetAll e1 =>
      let p := exprToIr2 fuel e1 sw fw
      newVarForExpr (.boolListAll p.1) p.2.1 p.2.2
    | .boolListAny e1 =>
      let p := exprToIr2 fuel e1 sw fw
      newVarForExpr (.boolListAny p.1) p.2.1 p.2.2
    | .boolSetAny e1 =>
      let p := exprToIr2 fuel e1 sw fw
      newVarForExpr (.boolListAny p.1) p.2.1 p.2.2
    | .intComparison lhs rhs op =>
      let p1 := exprToIr2 fuel lhs sw fw
      let p2 := exprToIr2 fuel rhs p1.2.1 p1.2.2
      newVarForExpr (.intComparison p1.1 p2.1 op) p2.2.1 p2.2.2
    | .intBinaryOp lhs rhs op =>
      let p1 := exprToIr2 fuel lhs sw fw
      let p2 := exprToIr2 fuel rhs p1.2.1 p1.2.2
      newVarForExpr (.intBinaryOp p1.1 p2.1 op) p2.2.1 p2.2.2
    | .listConcat lhs rhs =>
      let p1 := exprToIr2 fuel lhs sw fw
      let p2 := exprToIr2 fuel rhs p1.2.1 p1.2.2
      newVarForExpr (.listConcat p1.1 p2.1) p2.2.1 p2.2.2
    | .listComprehension listArg loopVar resultElemExpr =>
      -- list_comprehension_expr_to_ir2
      let p := exprToIr2 fuel listArg sw fw
      deconstructedListComprehensionToIr2 fuel p.1 loopVar resultElemExpr p.2.1 p.2.2
    | .setComprehension setArg loopVar resultElemExpr =>
      -- set_comprehension_expr_to_ir2
      let p1 := exprToIr2 fuel setArg sw fw
      let p2 := newVarForExpr (.setToList p1.1) p1.2.1 p1.2.2
      let p3 := deconstructedListComprehensionToIr2 fuel p2.1 loopVar resultElemExpr p2.2.1 p2.2.2
      newVarForExpr (.listToSet p3.1) p3.2.1 p3.2.2

/-- `expr_to_ir2` over an expression list (the comprehensions at lines
261-262, 310-311, 319-320 and 328-329 of `ir3_to_ir2.py`). -/
def exprListToIr2 : Nat → List Expr3 → StmtWriterState → FunWriterState →
    List VarReference × StmtWriterState × FunWriterState
  | 0, _, sw, fw => ([], sw, fw)
  | _ + 1, [], sw, fw => ([], sw, fw)
  | fuel + 1, e :: es, sw, fw =>
    let p1 := exprToIr2 fuel e sw fw
    let p2 := exprListToIr2 fuel es p1.2.1 p1.2.2
    (p1.1 :: p2.1, p2.2.1, p2.2.2)

/-- `expr_to_ir2` over the name-sorted keyword arguments of a `TypeLiteral`
(lines 304-307 of `ir3_to_ir2.py`). -/
def typeLiteralArgsToIr2 : Nat → List (String × Expr3) → StmtWriterState → FunWriterState →
    List (String × VarReference) × StmtWriterState × FunWriterState
  | 0, _, sw, fw => ([], sw, fw)
  | _ + 1, [], sw, fw => ([], sw, fw)
  | fuel + 1, (n, e) :: rest, sw, fw =>
    let p1 := exprToIr2 fuel e sw fw
    let p2 := typeLiteralArgsToIr2 fuel rest p1.2.1 p1.2.2
    ((n, p1.1) :: p2.1, p2.2.1, p2.2.2)

/-- The per-case loop of `match_expr_to_ir2` (lines 264-293): each case's
expression is translated in a fresh `StmtWriter` whose return type is the
match expression's type, a return is appended, the case body is outlined into
a fresh global may-throw function over its unique free variables, the
pattern-bound names are obfuscated (memoized), and the case expression
becomes a call of the outlined function on the forwarded variables. -/
def matchCasesToIr2 : Nat → Ir3Type →
    List (List String × List String × Expr3) → StmtWriterState → FunWriterState →
    List (List String × List String × VarReference × List VarReference) ×
      StmtWriterState × FunWriterState
  | 0, _, _, sw, fw => ([], sw, fw)
  | _ + 1, _, [], sw, fw => ([], sw, fw)
  | fuel + 1, ty, (typePatterns, matchedVarNames, caseExpr) :: rest, sw, fw =>
    let p1 := exprToIr2 fuel caseExpr (StmtWriterState.mk0 (some (typeToIr2 ty))) fw
    let matchCaseVar := p1.1
    let csw := p1.2.1.writeStmt (.returnStmt (some matchCaseVar) none)
    let forwardedVars := getUniqueFreeVariablesInStmts csw.stmts
    let p2 := p1.2.2.newId
    let matchFunName := p2.1
    let fw3 := p2.2.writeFunction
      ⟨matchFunName, "(meta)function wrapping the code in a branch of a match expression",
       argDeclsOfVars forwardedVars, csw.stmts, some matchCaseVar.type⟩
    let matchFunRef : VarReference :=
      ⟨.functionT (forwardedVars.map (fun v => v.type)) matchCaseVar.type,
       matchFunName, true, true⟩
    let p3 := obfuscateAll matchedVarNames fw3
    let replacements := p3.1
    let p4 := obfuscateAll matchedVarNames p3.2
    let case2 := (typePatterns.map (fun p => replaceIdentifiers p replacements),
                  p4.1.map (fun q => q.2), matchFunRef, forwardedVars)
    let p5 := matchCasesToIr2 fuel ty rest sw p4.2
    (case2 :: p5.1, p5.2.1, p5.2.2)

/-- `deconstructed_list_comprehension_expr_to_ir2`: the result expression is
outlined into a fresh global may-throw helper function over its unique free
variables, and the comprehension (with the helper call as element expression)
is expanded through the error-checking call path. -/
def deconstructedListComprehensionToIr2 : Nat → VarReference → Var3 → Expr3 →
    StmtWriterState → FunWriterState →
    VarReference × StmtWriterState × FunWriterState
  | 0, _, _, _, sw, fw => (dummyVar, sw, fw)
  | fuel + 1, listVar, loopVar, resultElemExpr, sw, fw =>
    let resultElemType := typeToIr2 resultElemExpr.type
    let p1 := exprToIr2 fuel resultElemExpr (StmtWriterState.mk0 (some resultElemType)) fw
    let hsw := p1.2.1.writeStmt (.returnStmt (some p1.1) none)
    let forwardedVars := getUniqueFreeVariablesInStmts hsw.stmts
    let p2 := p1.2.2.newId
    let helperFunName := p2.1
    let fw3 := p2.2.writeFunction
      ⟨helperFunName, "(meta)function wrapping the result expression in a list/set comprehension",
       argDeclsOfVars forwardedVars, hsw.stmts, some resultElemType⟩
    let helperFunRef : VarReference :=
      ⟨.functionT (forwardedVars.map (fun v => v.type)) resultElemType, helperFunName, true, true⟩
    let p4 := varReferenceToIr2 loopVar fw3
    newVarForExprWithErrorChecking
      (.listComprehension listVar p4.1 helperFunRef forwardedVars) sw p4.2

/-- `stmts_to_ir2` with the per-statement-kind helpers (`if_stmt_to_ir2`,
`assignment_to_ir2`, `unpacking_assignment_to_ir2`, `return_stmt_to_ir2`,
`raise_stmt_to_ir2`, `assert_to_ir2`) inlined at their dispatch sites; on a
`TryExcept` the remaining statements become the `then_stmts` argument of
`try_except_stmt_to_ir2` and the loop returns. -/
def stmtsToIr2 : Nat → List Stmt3 → StmtWriterState → FunWriterState →
    StmtWriterState × FunWriterState
  | 0, _, sw, fw => (sw, fw)
  | _ + 1, [], sw, fw => (sw, fw)
  | fuel + 1, stmt :: rest, sw, fw =>
    match stmt with
    | .ifStmt condExpr ifStmts elseStmts =>
      -- if_stmt_to_ir2: both branches are lowered in fresh StmtWriters
      let p1 := exprToIr2 fuel condExpr sw fw
      let condVar := p1.1
      let p2 := stmtsToIr2 fuel ifStmts (StmtWriterState.mk0 p1.2.1.currentFunReturnType) p1.2.2
      let p3 := stmtsToIr2 fuel elseStmts (StmtWriterState.mk0 p1.2.1.currentFunReturnType) p2.2
      stmtsToIr2 fuel rest
        (p1.2.1.writeStmt (.ifStmt condVar p2.1.stmts p3.1.stmts)) p3.2
    | .assignment lhs rhs =>
      -- assignment_to_ir2 (lhs translated first, as in the Python kwargs order)
      let p1 := varReferenceToIr2 lhs fw
      let p2 := exprToIr2 fuel rhs sw p1.2
      stmtsToIr2 fuel rest (p2.2.1.writeStmt (.assignment p1.1 none (.varRef p2.1))) p2.2.2
    | .unpackingAssignment lhsList rhs errorMessage =>
      -- unpacking_assignment_to_ir2
      let p1 := varListToIr2 lhsList fw
      let p2 := exprToIr2 fuel rhs sw p1.2
      stmtsToIr2 fuel rest
        (p2.2.1.writeStmt (.unpackingAssignment p1.1 (.varRef p2.1) errorMessage)) p2.2.2
    | .returnStmt e =>
      -- return_stmt_to_ir2
      let p := exprToIr2 fuel e sw fw
      stmtsToIr2 fuel rest (p.2.1.writeStmt (.returnStmt (some p.1) none)) p.2.2
    | .raiseStmt e =>
      -- raise_stmt_to_ir2
      let p1 := exprToIr2 fuel e sw fw
      let p2 := raiseDispatch p1.2.1.tryExceptContexts p1.1 p1.2.1 p1.2.2
      stmtsToIr2 fuel rest p2.1 p2.2
    | .assertStmt e message =>
      -- assert_to_ir2
      let p := exprToIr2 fuel e sw fw
      stmtsToIr2 fuel rest (p.2.1.writeStmt (.assertStmt p.1 message)) p.2.2
    | .tryExcept tryBody caughtTy caughtName exceptBody =>
      tryExceptStmtToIr2 fuel tryBody caughtTy caughtName exceptBody rest sw fw

/-- `try_except_stmt_to_ir2`: the statements following the block are outlined
into a continuation function over their unique free variables; the except
body is outlined into a handler function (with a trailing error-checked
continuation call when the except body does not always return); the try body
is lowered with an active handler-stack entry holding the handler call, and a
trailing error-checked continuation call is appended when the try body does
not always return. -/
def tryExceptStmtToIr2 : Nat → List Stmt3 → Ir3Type → String → List Stmt3 → List Stmt3 →
    StmtWriterState → FunWriterState → StmtWriterState × FunWriterState
  | 0, _, _, _, _, _, sw, fw => (sw, fw)
  | fuel + 1, tryBody, caughtTy, caughtName, exceptBody, thenStmts, sw, fw =>
    let pThen :
        Option Expr2 × FunWriterState :=
      if thenStmts.isEmpty then (none, fw)
      else
        let q1 := stmtsToIr2 fuel thenStmts (StmtWriterState.mk0 sw.currentFunReturnType) fw
        let thenFunForwardedVars := getUniqueFreeVariablesInStmts q1.1.stmts
        let q2 := q1.2.newId
        let thenFunDefn : FunctionDefn2 :=
          ⟨q2.1, "(meta)function wrapping the code after a try-except statement",
           argDeclsOfVars thenFunForwardedVars, q1.1.stmts, sw.currentFunReturnType⟩
        let q3 := q2.2.writeFunction thenFunDefn
        let thenFunRef : VarReference :=
          ⟨.functionT (thenFunForwardedVars.map (fun v => v.type))
             ((sw.currentFunReturnType).getD .bottom), thenFunDefn.name, true, true⟩
        (some (.functionCall thenFunRef thenFunForwardedVars), q3)
    let thenFunCallExpr := pThen.1
    let fwA := pThen.2
    let pExc := stmtsToIr2 fuel exceptBody (StmtWriterState.mk0 sw.currentFunReturnType) fwA
    let pExc2 : StmtWriterState × FunWriterState :=
      match thenFunCallExpr with
      | some callE =>
        if Stmt3.lastAlwaysReturns exceptBody then pExc
        else
          let r := newVarForExprWithErrorChecking callE pExc.1 pExc.2
          (r.2.1.writeStmt (.returnStmt (some r.1) none), r.2.2)
      | none => pExc
    let exceptFunForwardedVars := getUniqueFreeVariablesInStmts pExc2.1.stmts
    let pId := pExc2.2.newId
    let exceptFunDefn : FunctionDefn2 :=
      ⟨pId.1, "(meta)function wrapping the code in an except block",
       argDeclsOfVars exceptFunForwardedVars, pExc2.1.stmts, sw.currentFunReturnType⟩
    let fwB := pId.2.writeFunction exceptFunDefn
    let exceptFunRef : VarReference :=
      ⟨.functionT (exceptFunForwardedVars.map (fun v => v.type))
         ((sw.currentFunReturnType).getD .bottom), exceptFunDefn.name, true, true⟩
    let exceptFunCallExpr : Expr2 := .functionCall exceptFunRef exceptFunForwardedVars
    -- with writer.enter_try_except_context(...): stmts_to_ir2(try_body, writer)
    let ctx : TryExceptContext := ⟨typeToIr2 caughtTy, caughtName, exceptFunCallExpr⟩
    let swPushed := { sw with tryExceptContexts := sw.tryExceptContexts ++ [ctx] }
    let pTry := stmtsToIr2 fuel tryBody swPushed fwB
    let swPopped := { pTry.1 with tryExceptContexts := pTry.1.tryExceptContexts.dropLast }
    match thenFunCallExpr with
    | some callE =>
      if Stmt3.lastAlwaysReturns tryBody then (swPopped, pTry.2)
      else
        let r := newVarForExprWithErrorChecking callE swPopped pTry.2
        (r.2.1.writeStmt (.returnStmt (some r.1) none), r.2.2)
    | none => (swPopped, pTry.2)

end

/-- `function_arg_decl_to_ir2`. -/
def functionArgDeclToIr2 (arg : String × Ir3Type) (fw : FunWriterState) :
    FunctionArgDecl2 × FunWriterState :=
  let p := fw.obfuscateIdentifier arg.1
  (⟨typeToIr2 arg.2, p.1⟩, p.2)

/-- `function_arg_decl_to_ir2` over the argument list. -/
def argDeclsToIr2 (args : List (String × Ir3Type)) (fw : FunWriterState) :
    List FunctionArgDecl2 × FunWriterState :=
  match args with
  | [] => ([], fw)
  | a :: rest =>
    let p := functionArgDeclToIr2 a fw
    let q := argDeclsToIr2 rest p.2
    (p.1 :: q.1, q.2)

/-- `ir3.FunctionDefn` (name, argument declarations, body, return type). -/
structure FunctionDefn3 where
  name : String
  args : List (String × Ir3Type)
  body : List Stmt3
  returnType : Ir3Type

/-- `function_defn_to_ir2`: the body is lowered first with a fresh
`StmtWriter`, then the argument names are obfuscated (memoized, so names
already used in the body map to the same generated names). -/
def functionDefnToIr2 (fuel : Nat) (fd : FunctionDefn3) (fw : FunWriterState) :
    FunWriterState :=
  let returnType := typeToIr2 fd.returnType
  let p1 := stmtsToIr2 fuel fd.body (StmtWriterState.mk0 (some returnType)) fw
  let p2 := argDeclsToIr2 fd.args p1.2
  p2.2.writeFunction ⟨fd.name, "", p2.1, p1.1.stmts, some returnType⟩

/-- `ir3.CustomType` as used by `module_to_ir2` (name, argument declarations,
exception flag and message). -/
structure CustomType3 where
  name : String
  argTypes : List (String × Ir3Type)
  isExceptionClass : Bool
  exceptionMessage : String

/-- `ir3.Module`. -/
structure Module3 where
  functionDefns : List FunctionDefn3
  assertions : List (Expr3 × String)
  customTypes : List CustomType3

/-- A top-level element of the `ir2.Module` body assembled by
`module_to_ir2`. -/
inductive TopLevelElem where
  | customType (t : IrType) : TopLevelElem
  | checkIfErrorDefn (errorTypesAndMessages : List (IrType × String)) : TopLevelElem
  | functionDefn (d : FunctionDefn2) : TopLevelElem
  | stmt (s : Stmt2) : TopLevelElem

/-- `assert_to_ir2` over the module-level assertions (with the top-level
statement writer, whose `current_fun_return_type` is `None`). -/
def assertionsToIr2 (fuel : Nat) (assertions : List (Expr3 × String))
    (sw : StmtWriterState) (fw : FunWriterState) : StmtWriterState × FunWriterState :=
  match assertions with
  | [] => (sw, fw)
  | (e, message) :: rest =>
    let p := exprToIr2 fuel e sw fw
    assertionsToIr2 fuel rest (p.2.1.writeStmt (.assertStmt p.1 message)) p.2.2

/-- `module_to_ir2`: one `FunWriter` for the whole module; each function is
compiled with `function_defn_to_ir2`, the module-level assertions with a
top-level `StmtWriter`; the body is custom types, the `CheckIfErrorDefn`,
the accumulated function definitions and the top-level statements. -/
def moduleToIr2 (fuel : Nat) (m : Module3) : List TopLevelElem :=
  let fw1 := m.functionDefns.foldl (fun fw fd => functionDefnToIr2 fuel fd fw)
    FunWriterState.init
  let p := assertionsToIr2 fuel m.assertions (StmtWriterState.mk0 none) fw1
  (m.customTypes.map (fun t => TopLevelElem.customType (typeToIr2 (.custom t.name t.argTypes))))
    ++ [TopLevelElem.checkIfErrorDefn
          ((m.customTypes.filter (fun t => t.isExceptionClass)).map
            (fun t => (typeToIr2 (.custom t.name t.argTypes), t.exceptionMessage)))]
    ++ p.2.functionDefns.map TopLevelElem.functionDefn
    ++ p.1.stmts.map TopLevelElem.stmt

/-- The callee names occurring in an `ir2.Expr` (a call's callee, the case
calls of a match expression, the element function of a comprehension). -/
def Expr2.callees : Expr2 → List String
  | .functionCall fn _ => [fn.name]
  | .matchExpr _ matchCases => matchCases.map (fun c => c.2.2.1.name)
  | .listComprehension _ _ resultFun _ => [resultFun.name]
  | _ => []

mutual

/-- All callee names referenced in a statement list (recursing into if
branches). -/
def stmtsCallees : List Stmt2 → List String
  | [] => []
  | s :: rest => stmtCallees s ++ stmtsCallees rest

/-- All callee names referenced in one statement. -/
def stmtCallees : Stmt2 → List String
  | .assignment _ _ rhs => rhs.callees
  | .unpackingAssignment _ rhs _ => rhs.callees
  | .ifStmt _ a b => stmtsCallees a ++ stmtsCallees b
  | _ => []

end

/-- The callee name of an `ir2.FunctionCall` expression (and nothing for any
other expression kind). -/
def Expr2.callCalleeNames : Expr2 → List String
  | .functionCall fn _ => [fn.name]
  | _ => []

mutual

/-- The callees of two-target (result, error) assignments — the error-checked
call dispatch sites — in emission order, recursing into if branches. -/
def stmtsMayFailCallees : List Stmt2 → List String
  | [] => []
  | s :: rest => stmtMayFailCallees s ++ stmtsMayFailCallees rest

/-- The may-fail callees of one statement. -/
def stmtMayFailCallees : Stmt2 → List String
  | .assignment _ (some _) rhs => rhs.callCalleeNames
  | .ifStmt _ a b => stmtsMayFailCallees a ++ stmtsMayFailCallees b
  | _ => []

end

/-- A short display form of an `IrType` (used only to render evaluation
results in the concrete theorems below). -/
def IrType.fmt : IrType → String
  | .bool => "bool"
  | .int => "int"
  | .typeT => "Type"
  | .bottom => "bottom"
  | .errorOrVoid => "ErrorOrVoid"
  | .listT _ => "List"
  | .functionT _ _ => "Function"
  | .custom n _ => n

/-- Display form of an `ir2.VarReference`: its name, with `[g]` marking a
global-function reference and `[t]` marking `is_function_that_may_throw`. -/
def VarReference.fmt (v : VarReference) : String :=
  v.name ++ (if v.isGlobalFunction then "[g]" else "") ++
    (if v.isFunctionThatMayThrow then "[t]" else "")

/-- Display form of an `ir2.Expr`. -/
def Expr2.fmt : Expr2 → String
  | .varRef v => v.fmt
  | .boolLiteral b => toString b
  | .intLiteral n => toString n
  | .typeLiteral c args =>
    "Type(" ++ c ++ "," ++ String.intercalate "," (args.map (fun a => a.1 ++ "=" ++ a.2.fmt)) ++ ")"
  | .listExpr _ es => "[" ++ String.intercalate "," (es.map VarReference.fmt) ++ "]"
  | .addToSet s e => "addToSet(" ++ s.fmt ++ "," ++ e.fmt ++ ")"
  | .functionCall f args =>
    f.fmt ++ "(" ++ String.intercalate "," (args.map VarReference.fmt) ++ ")"
  | .equalityComparison l r => l.fmt ++ "==" ++ r.fmt
  | .setEqualityComparison l r => l.fmt ++ "=set=" ++ r.fmt
  | .attributeAccess v a _ => v.fmt ++ "." ++ a
  | .notExpr v => "not " ++ v.fmt
  | .unaryMinus v => "-" ++ v.fmt
  | .intListSum v => "sum " ++ v.fmt
  | .boolListAll v => "all " ++ v.fmt
  | .boolListAny v => "any " ++ v.fmt
  | .intComparison l r op => l.fmt ++ op ++ r.fmt
  | .intBinaryOp l r op => l.fmt ++ op ++ r.fmt
  | .listConcat l r => l.fmt ++ "++" ++ r.fmt
  | .listComprehension lv loop rf rargs =>
    "[" ++ rf.fmt ++ "(" ++ String.intercalate "," (rargs.map VarReference.fmt) ++ ") for " ++
      loop.fmt ++ " in " ++ lv.fmt ++ "]"
  | .matchExpr mv cases =>
    "match(" ++ String.intercalate "," (mv.map VarReference.fmt) ++ ")\x7b" ++
      String.intercalate "; " (cases.map (fun c =>
        String.intercalate "|" c.1 ++ "/" ++ String.intercalate "," c.2.1 ++ " -> " ++
          c.2.2.1.fmt ++ "(" ++ String.intercalate "," (c.2.2.2.map VarReference.fmt) ++ ")")) ++
      "\x7d"
  | .listToSet v => "listToSet " ++ v.fmt
  | .setToList v => "setToList " ++ v.fmt
  | .isInstance v t => "isinstance(" ++ v.fmt ++ ", " ++ t.fmt ++ ")"
  | .safeUncheckedCast v t => "cast[" ++ t.fmt ++ "] " ++ v.fmt

mutual

/-- Display form of an `ir2.Stmt`. -/
def Stmt2.fmt : Stmt2 → String
  | .assignment lhs lhs2 rhs =>
    lhs.fmt ++ (match lhs2 with | some v => ", " ++ v.fmt | none => "") ++ " := " ++ rhs.fmt
  | .returnStmt r e =>
    "return (" ++ (match r with | some v => v.fmt | none => "None") ++ ", " ++
      (match e with | some v => v.fmt | none => "None") ++ ")"
  | .ifStmt c a b =>
    "if " ++ c.fmt ++ " \x7b " ++ fmtStmts a ++ " \x7d else \x7b " ++ fmtStmts b ++ " \x7d"
  | .assertStmt v m => "assert " ++ v.fmt ++ " \"" ++ m ++ "\""
  | .unpackingAssignment ls rhs _ =>
    String.intercalate "," (ls.map VarReference.fmt) ++ " := " ++ rhs.fmt

/-- Display form of a statement list. -/
def fmtStmts : List Stmt2 → String
  | [] => ""
  | [s] => s.fmt
  | s :: rest => s.fmt ++ "; " ++ fmtStmts rest

end

/-- The exception type `E` of the concrete try/except scenarios below. -/
def excType : Ir3Type := .custom "E" []

/-- The failing input for C3: a function whose try body raises (a value of
type `E`) inside an if branch, with an except handler for exactly `E`:
`def f(x: E) -> bool: try: (if True: raise x) except E as err: return False;
return True`. -/
def c3Fun : FunctionDefn3 :=
  ⟨"f", [("x", excType)],
   [.tryExcept
      [.ifStmt (.boolLiteral true) [.raiseStmt (.varRef ⟨excType, "x", false, false⟩)] []]
      excType "err"
      [.returnStmt (.boolLiteral false)],
    .returnStmt (.boolLiteral true)],
   .bool⟩

/-- The `FunWriter` state after compiling `c3Fun`. -/
def c3Out : FunWriterState := functionDefnToIr2 100 c3Fun FunWriterState.init

/-- A failing input for C2: two nested try/except blocks both catching `E`,
with a raise of a value of type `E` inside the inner try body.  Python
semantics (and the claim) require the innermost handler to receive the
exception; `except E as e1: return False` is the inner handler and
`except E as e2: return True` the outer one. -/
def c2rFun : FunctionDefn3 :=
  ⟨"f3", [],
   [.tryExcept
      [.tryExcept
         [.raiseStmt (.varRef ⟨excType, "x", false, false⟩)]
         excType "e1"
         [.returnStmt (.boolLiteral false)]]
      excType "e2"
      [.returnStmt (.boolLiteral true)]],
   .bool⟩

/-- The `FunWriter` state after compiling `c2rFun`. -/
def c2rOut : FunWriterState := functionDefnToIr2 100 c2rFun FunWriterState.init

/-- A one-handler input showing the error branch generated for a call to a
possibly-failing function `g` inside a try body:
`def f4() -> bool: try: y = g() except E as e: return False`. -/
def c2cFun : FunctionDefn3 :=
  ⟨"f4", [],
   [.tryExcept
      [.assignment ⟨.bool, "y", false, false⟩
         (.functionCall (.varRef ⟨.functionT [] .bool, "g", true, true⟩) [])]
      excType "e"
      [.returnStmt (.boolLiteral false)]],
   .bool⟩

/-- The `FunWriter` state after compiling `c2cFun`. -/
def c2cOut : FunWriterState := functionDefnToIr2 100 c2cFun FunWriterState.init

lemma errorCheckingDispatch_callees (ctxs : List TryExceptContext) (retTy : IrType)
    (errorVar : VarReference) (fw : FunWriterState) :
    stmtsMayFailCallees (errorCheckingDispatch ctxs retTy errorVar fw).1 =
      ctxs.flatMap (fun c => c.exceptFunCallExpr.callCalleeNames) := by
  induction ctxs generalizing fw with
  | nil => rfl
  | cons c rest ih =>
    simp only [errorCheckingDispatch, stmtsMayFailCallees, stmtMayFailCallees,
      Expr2.callCalleeNames, List.flatMap_cons, List.append_nil, List.nil_append,
      List.append_assoc, ih]

/-- C2: the generated error branch of an error-checked call walks the active
handler stack in `try_except_contexts` list order — which is OUTERMOST first,
because `enter_try_except_context` appends each newly entered context at the
end of the list — not innermost first as claimed.
(1) In general, the dispatch sites emitted by
`new_var_for_expr_with_error_checking`'s context loop appear in exactly the
list order of the handler stack.
(2) At the concrete input `c2rFun` (two nested try/except blocks both
catching `E`, the exception raised in the inner try body), the generated code
dispatches to `_t6` — the OUTER handler, whose body is the lowering of
`except E as e2: return True` — and never to the inner handler `_t8`
(`except E as e1: return False`); Python semantics and the claim require the
innermost one.
(3) At the concrete input `c2cFun` the full error branch generated for a
call is visible: the isinstance dispatch for the active handler, and the
untouched propagation `return (None, err)` when no handler matches (that part
of the claim holds). -/
theorem errorCheck_dispatch_walks_outermost_first :
    (∀ (ctxs : List TryExceptContext) (retTy : IrType) (errorVar : VarReference)
        (fw : FunWriterState),
      stmtsMayFailCallees (errorCheckingDispatch ctxs retTy errorVar fw).1 =
        ctxs.flatMap (fun c => c.exceptFunCallExpr.callCalleeNames)) ∧
    (c2rOut.functionDefns.map (fun d => (d.name, d.description, fmtStmts d.body))) =
      [("_t0", "The is_error (meta)function",
        "_t2 := Type(void,); _t3 := _t1==_t2; _t4 := not _t3; return (_t4, None)"),
       ("_t6", "(meta)function wrapping the code in an except block",
        "_t5 := true; return (_t5, None)"),
       ("_t8", "(meta)function wrapping the code in an except block",
        "_t7 := false; return (_t7, None)"),
       ("f3", "", "_t10 := _t9; _t11, _t12 := _t6[g][t](); return (_t11, _t12)")] ∧
    ((c2cOut.functionDefns.find? (fun d => d.name == "f4")).map (fun d => fmtStmts d.body)) =
      some ("_t8, _t9 := g[g][t](); _t10 := _t0[g][t](_t9); " ++
        "if _t10 \x7b _t14 := isinstance(_t9, E); " ++
        "if _t14 \x7b _t11 := cast[E] _t9; _t12, _t13 := _t6[g][t](); " ++
        "return (_t12, _t13) \x7d else \x7b  \x7d; " ++
        "return (None, _t9) \x7d else \x7b  \x7d; _t7 := _t8") := by
  refine ⟨errorCheckingDispatch_callees, by decide, by decide⟩

/-- C3: evaluation of Pass A at the failing input `c3Fun`.  `if_stmt_to_ir2`
lowers both branches with fresh `StmtWriter`s whose `try_except_contexts`
stack is empty, so the raise statement inside the if branch of the try body
does NOT see the enclosing try's handler: it is lowered to a bare propagating
`return None, <exception>` and the synthesized except handler (`_t8`) is
never called anywhere in the enclosing function — contradicting the claimed
threading of the handler stack through every nested statement lowering. -/
theorem raise_in_if_branch_skips_enclosing_handler :
    (c3Out.functionDefns.map (fun d => d.name)) = ["_t0", "_t6", "_t8", "f"] ∧
    ((c3Out.functionDefns.find? (fun d => d.name == "_t8")).map
        (fun d => (d.description, fmtStmts d.body))) =
      some ("(meta)function wrapping the code in an except block",
        "_t7 := false; return (_t7, None)") ∧
    ((c3Out.functionDefns.find? (fun d => d.name == "f")).map (fun d => fmtStmts d.body)) =
      some ("_t9 := true; if _t9 \x7b return (None, _t10) \x7d else \x7b  \x7d; " ++
        "_t11, _t12 := _t6[g][t](); _t13 := _t0[g][t](_t12); " ++
        "if _t13 \x7b return (None, _t12) \x7d else \x7b  \x7d; return (_t11, None)") ∧
    ((c3Out.functionDefns.find? (fun d => d.name == "f")).map
        (fun d => (stmtsCallees d.body).contains "_t8")) = some false := by
  refine ⟨by decide, by decide, by decide, by decide⟩

/-- The two-function module used to refute the per-function scoping of the
obfuscation map: both functions have the body `return x` for the same source
name `x`. -/
def c9IdBody : List Stmt3 := [.returnStmt (.varRef ⟨.bool, "x", false, false⟩)]

/-- The `FunWriter` state after compiling the first function `f1(x)`. -/
def c9OutFirst : FunWriterState :=
  functionDefnToIr2 100 ⟨"f1", [("x", Ir3Type.bool)], c9IdBody, .bool⟩ FunWriterState.init

/-- The `FunWriter` state after then compiling the second function `f2(x)`
with the same `FunWriter` (exactly as `module_to_ir2` does). -/
def c9Out : FunWriterState :=
  functionDefnToIr2 100 ⟨"f2", [("x", Ir3Type.bool)], c9IdBody, .bool⟩ c9OutFirst

/-- Whether a name was produced by the identifier generator (every generated
name starts with the generator prefix, see `genIdentifier`; the input
program's own identifiers never collide with generated ones, which models the
global uniqueness of the external generator, §3). -/
def isGeneratedName (s : String) : Bool :=
  match s.data with
  | '_' :: 't' :: _ => true
  | _ => false

/-- The flag invariant of C10 on one variable reference: a reference to a
generated global function always carries `is_function_that_may_throw`. -/
def VarReference.flagOk (v : VarReference) : Bool :=
  !(v.isGlobalFunction && isGeneratedName v.name) || v.isFunctionThatMayThrow

/-- Whether a function type declares exactly `n` arguments. -/
def arity2 : IrType → Nat → Bool
  | .functionT ats _, n => ats.length == n
  | _, _ => false

/-- Arity correctness of the calls Pass A synthesizes: a call whose callee is
a generated global function passes exactly as many arguments as the callee's
function type declares; the outlined-arm calls of a match expression and the
element-function call of a comprehension (whose callees are always
synthesized helpers) likewise. -/
def Expr2.arityOkB : Expr2 → Bool
  | .functionCall fn args =>
    !(fn.isGlobalFunction && isGeneratedName fn.name) || arity2 fn.type args.length
  | .matchExpr _ matchCases => matchCases.all (fun c => arity2 c.2.2.1.type c.2.2.2.length)
  | .listComprehension _ _ resultFun resultArgs => arity2 resultFun.type resultArgs.length
  | _ => true

/-- The flag invariant of C10 on one expression: every embedded reference
satisfies `flagOk`, and the synthesized-helper references of match
expressions and comprehensions carry `is_function_that_may_throw` (so their
calls are expanded through the error-checking call path). -/
def Expr2.flagsOkB : Expr2 → Bool
  | .matchExpr mv matchCases =>
    mv.all VarReference.flagOk && matchCases.all (fun c =>
      c.2.2.1.isFunctionThatMayThrow && c.2.2.1.flagOk && c.2.2.2.all VarReference.flagOk)
  | .listComprehension lv loop resultFun resultArgs =>
    lv.flagOk && loop.flagOk && resultFun.isFunctionThatMayThrow && resultFun.flagOk &&
      resultArgs.all VarReference.flagOk
  | e => (e.varRefs).all VarReference.flagOk

/-- An expression that communicates through the result/error pair: a call to
a may-throw function, a match expression (whose arm functions are all
may-throw), or a comprehension over a may-throw element function.  These are
exactly the expressions Pass A routes through
`new_var_for_expr_with_error_checking`. -/
def mayFailRhs : Expr2 → Bool
  | .functionCall fn _ => fn.isFunctionThatMayThrow
  | .matchExpr _ _ => true
  | .listComprehension _ _ resultFun _ => resultFun.isFunctionThatMayThrow
  | _ => false

/-- The result/error-channel invariant of C1 on a statement list.  `pairs`
holds the (result, error) variable pairs bound so far by two-target
assignments from may-fail expressions.  Every return statement either
populates exactly one channel, or populates both with a previously bound
(result, error) pair — i.e. forwards a may-fail callee's channels verbatim,
which preserves run-time exclusivity inductively; a return populating
neither channel never occurs. -/
def pairsOfStmt (pairs : List (String × String)) : Stmt2 → List (String × String)
  | .assignment lhs (some lhs2) _ => (lhs.name, lhs2.name) :: pairs
  | _ => pairs

mutual

/-- The channel check of one statement (with the branch lists of an if
statement checked recursively under the same pair set). -/
def chStmtOkHead : List (String × String) → Stmt2 → Bool
  | _, .assignment _ (some _) rhs => mayFailRhs rhs
  | _, .assignment _ none _ => true
  | pairs, .returnStmt (some r) (some e) => pairs.contains (r.name, e.name)
  | _, .returnStmt none none => false
  | _, .returnStmt _ _ => true
  | pairs, .ifStmt _ a b => chStmtsOk pairs a && chStmtsOk pairs b
  | _, .assertStmt _ _ => true
  | _, .unpackingAssignment _ _ _ => true

def chStmtsOk : List (String × String) → List Stmt2 → Bool
  | _, [] => true
  | pairs, s :: rest => chStmtOkHead pairs s && chStmtsOk (pairsOfStmt pairs s) rest

end

/-- The pair accumulator of `chStmtsOk` after a statement list. -/
def pairsAfter (pairs : List (String × String)) : List Stmt2 → List (String × String)
  | [] => pairs
  | .assignment lhs (some lhs2) _ :: rest => pairsAfter ((lhs.name, lhs2.name) :: pairs) rest
  | _ :: rest => pairsAfter pairs rest

mutual

/-- A per-expression / per-variable predicate holding everywhere in a
statement list (recursing into if branches). -/
def stmtsAll (p : Expr2 → Bool) (q : VarReference → Bool) : List Stmt2 → Bool
  | [] => true
  | s :: rest => stmtAll p q s && stmtsAll p q rest

/-- A per-expression / per-variable predicate on one statement. -/
def stmtAll (p : Expr2 → Bool) (q : VarReference → Bool) : Stmt2 → Bool
  | .assignment lhs lhs2 rhs =>
    q lhs && (match lhs2 with | some v => q v | none => true) && p rhs
  | .returnStmt r e =>
    (match r with | some v => q v | none => true) &&
    (match e with | some v => q v | none => true)
  | .ifStmt c a b => q c && stmtsAll p q a && stmtsAll p q b
  | .assertStmt v _ => q v
  | .unpackingAssignment ls rhs _ => ls.all q && p rhs

end

/-- All conditions the master invariant tracks for a generated statement
block: the result/error-channel discipline (C1), the arity discipline of
synthesized calls (C5) and the may-throw flag discipline (C10). -/
def GenStmtsOk (σ : List Stmt2) : Prop :=
  (∀ pairs, chStmtsOk pairs σ = true) ∧
  stmtsAll Expr2.arityOkB (fun _ => true) σ = true ∧
  stmtsAll Expr2.flagsOkB VarReference.flagOk σ = true

/-- The descriptions of the four kinds of helper functions Pass A
synthesizes. -/
def helperDescriptions : List String :=
  ["(meta)function wrapping the code in a branch of a match expression",
   "(meta)function wrapping the result expression in a list/set comprehension",
   "(meta)function wrapping the code after a try-except statement",
   "(meta)function wrapping the code in an except block"]

/-- All conditions the master invariant tracks for an emitted function
definition: its body satisfies the statement disciplines, and if it is one of
the four synthesized helper kinds its argument declarations are exactly (the
declarations of) the unique free variables of its body. -/
def DefnOkP (d : FunctionDefn2) : Prop :=
  chStmtsOk [] d.body = true ∧
  stmtsAll Expr2.arityOkB (fun _ => true) d.body = true ∧
  stmtsAll Expr2.flagsOkB VarReference.flagOk d.body = true ∧
  (d.description ∈ helperDescriptions →
    d.args = argDeclsOfVars (getUniqueFreeVariablesInStmts d.body))

/-- The handler-stack invariant: every active context's handler call is a
call of a may-throw generated function with matching arity and flag-clean
arguments. -/
def ctxOk (c : TryExceptContext) : Bool :=
  match c.exceptFunCallExpr with
  | .functionCall fn args =>
    fn.isFunctionThatMayThrow && fn.flagOk && arity2 fn.type args.length &&
      args.all VarReference.flagOk
  | _ => false

/-- The `FunWriter` field invariant: `is_error_fun_ref` is the global
may-throw one-argument function built by `FunWriter.__init__`. -/
def fwInv (fw : FunWriterState) : Bool :=
  fw.isErrorFunRef.isFunctionThatMayThrow &&
  (match fw.isErrorFunRef.type with
   | .functionT [_] _ => true
   | _ => false)

/-- `Var3` references of the source program never use generator-reserved
global names (the external generator produces globally unique fresh names,
§3). -/
def Var3.wfB (v : Var3) : Bool := !(v.isGlobalFunction && isGeneratedName v.name)

mutual

/-- Well-formedness of an `ir3.Expr` for the master invariant: every
variable reference in it satisfies `Var3.wfB`. -/
def Expr3.wfB : Expr3 → Bool
  | .varRef v => v.wfB
  | .matchExpr ms matchCases _ => Expr3.wfListB ms && Expr3.wfCasesB matchCases
  | .boolLiteral _ => true
  | .intLiteral _ => true
  | .typeLiteral _ argExprs => Expr3.wfPairsB argExprs
  | .listExpr _ es => Expr3.wfListB es
  | .setExpr _ es => Expr3.wfListB es
  | .functionCall funExpr args => Expr3.wfB funExpr && Expr3.wfListB args
  | .equalityComparison l r => Expr3.wfB l && Expr3.wfB r
  | .attributeAccess e _ _ => Expr3.wfB e
  | .andExpr l r => Expr3.wfB l && Expr3.wfB r
  | .orExpr l r => Expr3.wfB l && Expr3.wfB r
  | .notExpr e => Expr3.wfB e
  | .intUnaryMinus e => Expr3.wfB e
  | .intListSum e => Expr3.wfB e
  | .intSetSum e => Expr3.wfB e
  | .boolListAll e => Expr3.wfB e
  | .boolSetAll e => Expr3.wfB e
  | .boolListAny e => Expr3.wfB e
  | .boolSetAny e => Expr3.wfB e
  | .intComparison l r _ => Expr3.wfB l && Expr3.wfB r
  | .intBinaryOp l r _ => Expr3.wfB l && Expr3.wfB r
  | .listConcat l r => Expr3.wfB l && Expr3.wfB r
  | .listComprehension la lv res => Expr3.wfB la && lv.wfB && Expr3.wfB res
  | .setComprehension sa lv res => Expr3.wfB sa && lv.wfB && Expr3.wfB res

/-- `Expr3.wfB` over a list. -/
def Expr3.wfListB : List Expr3 → Bool
  | [] => true
  | e :: es => Expr3.wfB e && Expr3.wfListB es

/-- `Expr3.wfB` over keyword-argument pairs. -/
def Expr3.wfPairsB : List (String × Expr3) → Bool
  | [] => true
  | (_, e) :: es => Expr3.wfB e && Expr3.wfPairsB es

/-- `Expr3.wfB` over match cases. -/
def Expr3.wfCasesB : List (List String × List String × Expr3) → Bool
  | [] => true
  | (_, _, e) :: cs => Expr3.wfB e && Expr3.wfCasesB cs

end

mutual

/-- Well-formedness of an `ir3.Stmt` for the master invariant. -/
def Stmt3.wfB : Stmt3 → Bool
  | .ifStmt c a b => Expr3.wfB c && Stmt3.wfListB a && Stmt3.wfListB b
  | .assignment lhs rhs => lhs.wfB && Expr3.wfB rhs
  | .unpackingAssignment ls rhs _ => ls.all Var3.wfB && Expr3.wfB rhs
  | .returnStmt e => Expr3.wfB e
  | .raiseStmt e => Expr3.wfB e
  | .assertStmt e _ => Expr3.wfB e
  | .tryExcept tb _ _ eb => Stmt3.wfListB tb && Stmt3.wfListB eb

/-- `Stmt3.wfB` over a list. -/
def Stmt3.wfListB : List Stmt3 → Bool
  | [] => true
  | s :: ss => Stmt3.wfB s && Stmt3.wfListB ss

end

/-- Well-formedness of an `ir3.FunctionDefn`. -/
def FunctionDefn3.wfB (d : FunctionDefn3) : Bool := Stmt3.wfListB d.body

/-- Well-formedness of an `ir3.Module`. -/
def Module3.wfB (m : Module3) : Bool :=
  m.functionDefns.all FunctionDefn3.wfB && m.assertions.all (fun a => Expr3.wfB a.1)

/-- The function definitions of an assembled `ir2.Module` body. -/
def defnsOf (body : List TopLevelElem) : List FunctionDefn2 :=
  body.filterMap (fun e =>
    match e with
    | .functionDefn d => some d
    | _ => none)

/-- C9 counterexample: the obfuscation map is NOT per-function and is stable
beyond one function's compilation.  `obfuscated_identifiers_by_identifier`
lives on the module-wide `FunWriter`, so compiling `f2` after `f1` maps the
source name `x` to the SAME generated name `_t5` (instead of a freshly
generated one for `f2`'s function-compilation scope), the map still holds the
single shared entry afterwards, and `f2`'s compilation draws no fresh
identifier at all. -/
theorem obfuscation_map_shared_across_functions :
    ((c9OutFirst.functionDefns.find? (fun d => d.name == "f1")).map
        (fun d => (d.args.map (fun a => a.name), fmtStmts d.body))) =
      some (["_t5"], "return (_t5, None)") ∧
    ((c9Out.functionDefns.find? (fun d => d.name == "f2")).map
        (fun d => (d.args.map (fun a => a.name), fmtStmts d.body))) =
      some (["_t5"], "return (_t5, None)") ∧
    c9OutFirst.obfuscatedIdentifiersByIdentifier = [("x", "_t5")] ∧
    c9Out.obfuscatedIdentifiersByIdentifier = [("x", "_t5")] ∧
    c9Out.counter = c9OutFirst.counter := by
  refine ⟨by decide, by decide, by decide, by decide, by decide⟩

/-- A variable reference that is not a generated global function name: true
of every fresh variable (non-global), every obfuscated local (non-global)
and every source-program global (whose name is not generator-reserved). -/
def VarReference.notGenGlobal (v : VarReference) : Bool :=
  !(v.isGlobalFunction && isGeneratedName v.name)

lemma flagOk_of_notGenGlobal (v : VarReference) (h : v.notGenGlobal = true) :
    v.flagOk = true := by
  simp only [VarReference.notGenGlobal, Bool.not_eq_true'] at h
  simp [VarReference.flagOk, h]

lemma flagOk_of_mayThrow (v : VarReference) (h : v.isFunctionThatMayThrow = true) :
    v.flagOk = true := by
  simp [VarReference.flagOk, h]

/-- How one `FunWriter` state evolves into another under Pass A: the
obfuscation map and the function-definition list only grow (every appended
definition satisfying the definition invariant), and `is_error_fun_ref` is
unchanged. -/
def FwExtends (fw fw' : FunWriterState) : Prop :=
  (∃ ext, fw'.obfuscatedIdentifiersByIdentifier =
    fw.obfuscatedIdentifiersByIdentifier ++ ext) ∧
  (∃ δ, fw'.functionDefns = fw.functionDefns ++ δ ∧ ∀ d ∈ δ, DefnOkP d) ∧
  fw'.isErrorFunRef = fw.isErrorFunRef

def FwExtends.refl (fw : FunWriterState) : FwExtends fw fw :=
  ⟨⟨[], by simp⟩, ⟨[], by simp⟩, rfl⟩

def FwExtends.trans {a b c : FunWriterState} (h1 : FwExtends a b) (h2 : FwExtends b c) :
    FwExtends a c := by
  obtain ⟨⟨e1, he1⟩, ⟨d1, hd1, hq1⟩, hr1⟩ := h1
  obtain ⟨⟨e2, he2⟩, ⟨d2, hd2, hq2⟩, hr2⟩ := h2
  refine ⟨⟨e1 ++ e2, by rw [he2, he1, List.append_assoc]⟩,
    ⟨d1 ++ d2, by rw [hd2, hd1, List.append_assoc], ?_⟩, hr2.trans hr1⟩
  intro d hd
  rcases List.mem_append.1 hd with h | h
  · exact hq1 d h
  · exact hq2 d h

lemma fwInv_of_extends {a b : FunWriterState} (h : FwExtends a b) (ha : fwInv a = true) :
    fwInv b = true := by
  simpa [fwInv, h.2.2] using ha

lemma chStmtsOk_append (xs ys : List Stmt2) (pairs : List (String × String)) :
    chStmtsOk pairs (xs ++ ys) =
      (chStmtsOk pairs xs && chStmtsOk (pairsAfter pairs xs) ys) := by
  induction xs generalizing pairs with
  | nil => simp [chStmtsOk, pairsAfter]
  | cons s rest ih =>
    cases s with
    | assignment lhs lhs2 rhs =>
      cases lhs2 with
      | none => simp [chStmtsOk, chStmtOkHead, pairsOfStmt, pairsAfter, ih]
      | some l2 => simp [chStmtsOk, chStmtOkHead, pairsOfStmt, pairsAfter, ih, Bool.and_assoc]
    | returnStmt r e =>
      cases r with
      | none =>
        cases e with
        | none => simp [chStmtsOk, chStmtOkHead, pairsOfStmt, pairsAfter]
        | some v => simp [chStmtsOk, chStmtOkHead, pairsOfStmt, pairsAfter, ih]
      | some rv =>
        cases e with
        | none => simp [chStmtsOk, chStmtOkHead, pairsOfStmt, pairsAfter, ih]
        | some ev => simp [chStmtsOk, chStmtOkHead, pairsOfStmt, pairsAfter, ih, Bool.and_assoc]
    | ifStmt c a b => simp [chStmtsOk, chStmtOkHead, pairsOfStmt, pairsAfter, ih, Bool.and_assoc]
    | assertStmt v m => simp [chStmtsOk, chStmtOkHead, pairsOfStmt, pairsAfter, ih]
    | unpackingAssignment ls rhs msg => simp [chStmtsOk, chStmtOkHead, pairsOfStmt, pairsAfter, ih]

lemma stmtsAll_append (p : Expr2 → Bool) (q : VarReference → Bool) (xs ys : List Stmt2) :
    stmtsAll p q (xs ++ ys) = (stmtsAll p q xs && stmtsAll p q ys) := by
  induction xs with
  | nil => simp [stmtsAll]
  | cons s rest ih => simp [stmtsAll, ih, Bool.and_assoc]

lemma GenStmtsOk.nil : GenStmtsOk [] :=
  ⟨fun _ => by simp [chStmtsOk], by simp [stmtsAll], by simp [stmtsAll]⟩

lemma GenStmtsOk.append {xs ys : List Stmt2} (hx : GenStmtsOk xs) (hy : GenStmtsOk ys) :
    GenStmtsOk (xs ++ ys) := by
  refine ⟨fun pairs => ?_, ?_, ?_⟩
  · rw [chStmtsOk_append, hx.1 pairs, hy.1 (pairsAfter pairs xs)]
    rfl
  · rw [stmtsAll_append, hx.2.1, hy.2.1]
    rfl
  · rw [stmtsAll_append, hx.2.2, hy.2.2]
    rfl

/-- How one `StmtWriter` state evolves into another within one statement-list
lowering: return type and handler stack are preserved and the emitted
statement suffix satisfies the generation invariants. -/
def SwExtends (sw sw' : StmtWriterState) : Prop :=
  sw'.currentFunReturnType = sw.currentFunReturnType ∧
  sw'.tryExceptContexts = sw.tryExceptContexts ∧
  ∃ σ, sw'.stmts = sw.stmts ++ σ ∧ GenStmtsOk σ

def SwExtends.refl (sw : StmtWriterState) : SwExtends sw sw :=
  ⟨rfl, rfl, ⟨[], by simp, GenStmtsOk.nil⟩⟩

def SwExtends.trans {a b c : StmtWriterState} (h1 : SwExtends a b) (h2 : SwExtends b c) :
    SwExtends a c := by
  obtain ⟨hr1, hc1, σ1, hs1, hg1⟩ := h1
  obtain ⟨hr2, hc2, σ2, hs2, hg2⟩ := h2
  exact ⟨hr2.trans hr1, hc2.trans hc1,
    ⟨σ1 ++ σ2, by rw [hs2, hs1, List.append_assoc], GenStmtsOk.append hg1 hg2⟩⟩

lemma SwExtends.write {sw : StmtWriterState} (s : Stmt2) (hs : GenStmtsOk [s]) :
    SwExtends sw (sw.writeStmt s) :=
  ⟨rfl, rfl, ⟨[s], rfl, hs⟩⟩

lemma GenStmtsOk.assign1 {lhs : VarReference} {rhs : Expr2}
    (h1 : lhs.flagOk = true) (h2 : Expr2.arityOkB rhs = true) (h3 : Expr2.flagsOkB rhs = true) :
    GenStmtsOk [.assignment lhs none rhs] := by
  refine ⟨fun pairs => by simp [chStmtsOk, chStmtOkHead, pairsOfStmt], ?_, ?_⟩
  · simp [stmtsAll, stmtAll, h2]
  · simp [stmtsAll, stmtAll, h1, h3]

lemma GenStmtsOk.returnResult {r : VarReference} (h : r.flagOk = true) :
    GenStmtsOk [.returnStmt (some r) none] := by
  refine ⟨fun pairs => by simp [chStmtsOk, chStmtOkHead, pairsOfStmt], ?_, ?_⟩
  · simp [stmtsAll, stmtAll]
  · simp [stmtsAll, stmtAll, h]

lemma GenStmtsOk.returnError {e : VarReference} (h : e.flagOk = true) :
    GenStmtsOk [.returnStmt none (some e)] := by
  refine ⟨fun pairs => by simp [chStmtsOk, chStmtOkHead, pairsOfStmt], ?_, ?_⟩
  · simp [stmtsAll, stmtAll]
  · simp [stmtsAll, stmtAll, h]

lemma GenStmtsOk.ifOne {c : VarReference} {a b : List Stmt2}
    (hc : c.flagOk = true) (ha : GenStmtsOk a) (hb : GenStmtsOk b) :
    GenStmtsOk [.ifStmt c a b] := by
  refine ⟨fun pairs => ?_, ?_, ?_⟩
  · simp [chStmtsOk, chStmtOkHead, pairsOfStmt, ha.1 pairs, hb.1 pairs]
  · simp [stmtsAll, stmtAll, ha.2.1, hb.2.1]
  · simp [stmtsAll, stmtAll, hc, ha.2.2, hb.2.2]

lemma GenStmtsOk.assertOne {v : VarReference} {msg : String} (h : v.flagOk = true) :
    GenStmtsOk [.assertStmt v msg] := by
  refine ⟨fun pairs => by simp [chStmtsOk, chStmtOkHead, pairsOfStmt], ?_, ?_⟩
  · simp [stmtsAll, stmtAll]
  · simp [stmtsAll, stmtAll, h]

lemma GenStmtsOk.unpackingOne {ls : List VarReference} {rhs : Expr2} {msg : String}
    (hl : ls.all VarReference.flagOk = true) (h2 : Expr2.arityOkB rhs = true)
    (h3 : Expr2.flagsOkB rhs = true) :
    GenStmtsOk [.unpackingAssignment ls rhs msg] := by
  refine ⟨fun pairs => by simp [chStmtsOk, chStmtOkHead, pairsOfStmt], ?_, ?_⟩
  · simp [stmtsAll, stmtAll, h2]
  · simp [stmtsAll, stmtAll, hl, h3]

/-- The result/error dispatch triple written by `raise_stmt_to_ir2` on a
handler match and inside each branch of
`new_var_for_expr_with_error_checking`: a single-target assignment, a
two-target assignment from the handler call, and a return forwarding the
bound pair. -/
lemma GenStmtsOk.dispatchTriple {a resI errI : VarReference} {rhs0 callE : Expr2}
    (ha : a.flagOk = true) (hres : resI.flagOk = true) (herrI : errI.flagOk = true)
    (h0a : rhs0.arityOkB = true) (h0f : rhs0.flagsOkB = true)
    (hmf : mayFailRhs callE = true) (har : callE.arityOkB = true)
    (hfl : callE.flagsOkB = true) :
    GenStmtsOk [.assignment a none rhs0, .assignment resI (some errI) callE,
                .returnStmt (some resI) (some errI)] := by
  refine ⟨fun pairs => ?_, ?_, ?_⟩
  · simp [chStmtsOk, chStmtOkHead, pairsOfStmt, hmf, List.contains_cons]
  · simp [stmtsAll, stmtAll, h0a, har]
  · simp [stmtsAll, stmtAll, ha, hres, herrI, h0f, hfl]

lemma SwExtends.write3 {sw : StmtWriterState} (s1 s2 s3 : Stmt2)
    (h : GenStmtsOk [s1, s2, s3]) :
    SwExtends sw (((sw.writeStmt s1).writeStmt s2).writeStmt s3) :=
  ⟨rfl, rfl, ⟨[s1, s2, s3], by simp [StmtWriterState.writeStmt], h⟩⟩

lemma newId_extends (fw : FunWriterState) : FwExtends fw fw.newId.2 :=
  ⟨⟨[], by simp [FunWriterState.newId]⟩, ⟨[], by simp [FunWriterState.newId], by simp⟩, rfl⟩

lemma newVar_extends (fw : FunWriterState) (t : IrType) (g : Bool) :
    FwExtends fw (fw.newVar t g).2 :=
  newId_extends fw

lemma newVar_notGenGlobal (fw : FunWriterState) (t : IrType) :
    ((fw.newVar t false).1).notGenGlobal = true := by
  simp [FunWriterState.newVar, VarReference.notGenGlobal]

lemma obfuscateIdentifier_extends (fw : FunWriterState) (id : String) :
    FwExtends fw (fw.obfuscateIdentifier id).2 := by
  unfold FunWriterState.obfuscateIdentifier
  cases h : List.lookup id fw.obfuscatedIdentifiersByIdentifier with
  | some n => exact FwExtends.refl fw
  | none =>
    exact ⟨⟨[(id, (fw.newId).1)], by simp [FunWriterState.newId]⟩,
      ⟨[], by simp [FunWriterState.newId], by simp⟩, rfl⟩

lemma writeFunction_extends (fw : FunWriterState) (d : FunctionDefn2) (hd : DefnOkP d) :
    FwExtends fw (fw.writeFunction d) :=
  ⟨⟨[], by simp [FunWriterState.writeFunction]⟩,
   ⟨[d], by simp [FunWriterState.writeFunction], by simpa using hd⟩, rfl⟩

lemma varReferenceToIr2_spec (v : Var3) (fw : FunWriterState) (hv : Var3.wfB v = true) :
    FwExtends fw (varReferenceToIr2 v fw).2 ∧
    ((varReferenceToIr2 v fw).1).notGenGlobal = true := by
  unfold varReferenceToIr2
  by_cases hg : v.isGlobalFunction = true
  · rw [if_pos hg]
    refine ⟨FwExtends.refl fw, ?_⟩
    simpa [VarReference.notGenGlobal, Var3.wfB] using hv
  · rw [if_neg hg]
    refine ⟨obfuscateIdentifier_extends fw v.name, ?_⟩
    simp only [Bool.not_eq_true] at hg
    simp [VarReference.notGenGlobal, hg]

lemma varListToIr2_spec (vs : List Var3) :
    ∀ fw : FunWriterState, vs.all Var3.wfB = true →
    FwExtends fw (varListToIr2 vs fw).2 ∧
    ((varListToIr2 vs fw).1).all VarReference.notGenGlobal = true := by
  induction vs with
  | nil => intro fw _; exact ⟨FwExtends.refl fw, by simp [varListToIr2]⟩
  | cons v rest ih =>
    intro fw hwf
    simp only [List.all_cons, Bool.and_eq_true] at hwf
    have h1 := varReferenceToIr2_spec v fw hwf.1
    have h2 := ih (varReferenceToIr2 v fw).2 hwf.2
    refine ⟨h1.1.trans h2.1, ?_⟩
    simp only [varListToIr2, List.all_cons, Bool.and_eq_true]
    exact ⟨h1.2, h2.2⟩

lemma obfuscateAll_extends (names : List String) :
    ∀ fw : FunWriterState, FwExtends fw (obfuscateAll names fw).2 := by
  induction names with
  | nil => intro fw; exact FwExtends.refl fw
  | cons n rest ih =>
    intro fw
    exact (obfuscateIdentifier_extends fw n).trans (ih (fw.obfuscateIdentifier n).2)

lemma newVarForExpr_spec (e : Expr2) (sw : StmtWriterState) (fw : FunWriterState)
    (h2 : e.arityOkB = true) (h3 : e.flagsOkB = true) :
    FwExtends fw (newVarForExpr e sw fw).2.2 ∧
    SwExtends sw (newVarForExpr e sw fw).2.1 ∧
    ((newVarForExpr e sw fw).1).notGenGlobal = true := by
  have h1 : newVarForExpr e sw fw =
      ((fw.newVar e.type false).1,
       sw.writeStmt (.assignment (fw.newVar e.type false).1 none e),
       (fw.newVar e.type false).2) := rfl
  rw [h1]
  exact ⟨newVar_extends fw e.type false,
    SwExtends.write _ (GenStmtsOk.assign1
      (flagOk_of_notGenGlobal _ (newVar_notGenGlobal fw e.type)) h2 h3),
    newVar_notGenGlobal fw e.type⟩

lemma ctxOk_facts (c : TryExceptContext) (h : ctxOk c = true) :
    mayFailRhs c.exceptFunCallExpr = true ∧
    Expr2.arityOkB c.exceptFunCallExpr = true ∧
    Expr2.flagsOkB c.exceptFunCallExpr = true := by
  unfold ctxOk at h
  cases hc : c.exceptFunCallExpr with
  | functionCall fn args =>
    rw [hc] at h
    simp only [Bool.and_eq_true] at h
    obtain ⟨⟨⟨h1, h2⟩, h3⟩, h4⟩ := h
    refine ⟨by simp [mayFailRhs, hc, h1], ?_, ?_⟩
    · simp [Expr2.arityOkB, hc, h3]
    · simp only [hc, Expr2.flagsOkB, Expr2.varRefs, List.all_cons, Bool.and_eq_true]
      exact ⟨h2, by simpa using h4⟩
  | varRef v => rw [hc] at h; simp at h
  | boolLiteral b => rw [hc] at h; simp at h
  | intLiteral n => rw [hc] at h; simp at h
  | typeLiteral a b => rw [hc] at h; simp at h
  | listExpr a b => rw [hc] at h; simp at h
  | addToSet a b => rw [hc] at h; simp at h
  | equalityComparison a b => rw [hc] at h; simp at h
  | setEqualityComparison a b => rw [hc] at h; simp at h
  | attributeAccess a b t => rw [hc] at h; simp at h
  | notExpr a => rw [hc] at h; simp at h
  | unaryMinus a => rw [hc] at h; simp at h
  | intListSum a => rw [hc] at h; simp at h
  | boolListAll a => rw [hc] at h; simp at h
  | boolListAny a => rw [hc] at h; simp at h
  | intComparison a b op => rw [hc] at h; simp at h
  | intBinaryOp a b op => rw [hc] at h; simp at h
  | listConcat a b => rw [hc] at h; simp at h
  | listComprehension a b f g => rw [hc] at h; simp at h
  | matchExpr a b => rw [hc] at h; simp at h
  | listToSet a => rw [hc] at h; simp at h
  | setToList a => rw [hc] at h; simp at h
  | isInstance a t => rw [hc] at h; simp at h
  | safeUncheckedCast a t => rw [hc] at h; simp at h

lemma errorCheckingDispatch_spec (ctxs : List TryExceptContext) (retTy : IrType)
    (errorVar : VarReference) :
    ∀ fw : FunWriterState, ctxs.all ctxOk = true → errorVar.notGenGlobal = true →
    FwExtends fw (errorCheckingDispatch ctxs retTy errorVar fw).2 ∧
    GenStmtsOk (errorCheckingDispatch ctxs retTy errorVar fw).1 := by
  induction ctxs with
  | nil =>
    intro fw _ herr
    exact ⟨FwExtends.refl fw,
      GenStmtsOk.returnError (flagOk_of_notGenGlobal _ herr)⟩
  | cons ctx rest ih =>
    intro fw hctx herr
    simp only [List.all_cons, Bool.and_eq_true] at hctx
    obtain ⟨hmf, har, hfl⟩ := ctxOk_facts ctx hctx.1
    have hflag := flagOk_of_notGenGlobal _ herr
    simp only [errorCheckingDispatch]
    set p1 := fw.obfuscateIdentifier ctx.caughtExceptionName with hp1
    set p2 := p1.2.newVar retTy false with hp2
    set p3 := p2.2.newVar .errorOrVoid false with hp3
    set p4 := p3.2.newVar (Expr2.isInstance errorVar ctx.caughtExceptionType).type false with hp4
    have hih := ih p4.2 hctx.2 herr
    constructor
    · exact ((obfuscateIdentifier_extends fw ctx.caughtExceptionName).trans
        ((newVar_extends p1.2 retTy false).trans
          ((newVar_extends p2.2 .errorOrVoid false).trans
            ((newVar_extends p3.2 _ false).trans hih.1))))
    · have hbranch : GenStmtsOk
          [.assignment ⟨ctx.caughtExceptionType, p1.1, false, false⟩ none
             (.safeUncheckedCast errorVar ctx.caughtExceptionType),
           .assignment p2.1 (some p3.1) ctx.exceptFunCallExpr,
           .returnStmt (some p2.1) (some p3.1)] := by
        refine GenStmtsOk.dispatchTriple ?_ ?_ ?_ ?_ ?_ hmf har hfl
        · simp [VarReference.flagOk]
        · exact flagOk_of_notGenGlobal _ (newVar_notGenGlobal p1.2 retTy)
        · exact flagOk_of_notGenGlobal _ (newVar_notGenGlobal p2.2 .errorOrVoid)
        · rfl
        · simp only [Expr2.flagsOkB, Expr2.varRefs, List.all_cons, List.all_nil,
            Bool.and_eq_true]
          exact ⟨hflag, trivial⟩
      have hone : GenStmtsOk
          [Stmt2.assignment p4.1 none (.isInstance errorVar ctx.caughtExceptionType)] := by
        refine GenStmtsOk.assign1 ?_ rfl ?_
        · exact flagOk_of_notGenGlobal _ (newVar_notGenGlobal p3.2 _)
        · simp only [Expr2.flagsOkB, Expr2.varRefs, List.all_cons, List.all_nil,
            Bool.and_eq_true]
          exact ⟨hflag, trivial⟩
      have hif : GenStmtsOk [Stmt2.ifStmt p4.1 _ []] :=
        GenStmtsOk.ifOne (flagOk_of_notGenGlobal _ (newVar_notGenGlobal p3.2 _))
          hbranch GenStmtsOk.nil
      exact (hone.append (hif.append hih.2) :)

lemma fwInv_arity (fw : FunWriterState) (h : fwInv fw = true) :
    arity2 fw.isErrorFunRef.type 1 = true := by
  simp only [fwInv, Bool.and_eq_true] at h
  obtain ⟨h1, h2⟩ := h
  cases hty : fw.isErrorFunRef.type <;> rw [hty] at h2 <;> simp_all [arity2]
  case functionT ats ret =>
    rcases ats with _ | ⟨a, _ | ⟨b, bs⟩⟩ <;> simp_all [arity2]

lemma newVarForExprWithErrorChecking_spec (e : Expr2) (sw : StmtWriterState)
    (fw : FunWriterState) (h2 : e.arityOkB = true) (h3 : e.flagsOkB = true)
    (hmf : mayFailRhs e = true) (hctx : sw.tryExceptContexts.all ctxOk = true)
    (hfw : fwInv fw = true) :
    FwExtends fw (newVarForExprWithErrorChecking e sw fw).2.2 ∧
    SwExtends sw (newVarForExprWithErrorChecking e sw fw).2.1 ∧
    ((newVarForExprWithErrorChecking e sw fw).1).notGenGlobal = true := by
  unfold newVarForExprWithErrorChecking
  cases hrt : sw.currentFunReturnType with
  | none =>
    refine ⟨newVar_extends fw e.type false,
      SwExtends.write _ (GenStmtsOk.assign1
        (flagOk_of_notGenGlobal _ (newVar_notGenGlobal fw e.type)) h2 h3),
      newVar_notGenGlobal fw e.type⟩
  | some retTy =>
    simp only
    set p1 := fw.newVar e.type false with hp1
    set p2 := p1.2.newVar .errorOrVoid false with hp2
    set p3 := p2.2.newVar (Expr2.functionCall p2.2.isErrorFunRef [p2.1]).type false with hp3
    have herrv : p2.1.notGenGlobal = true := newVar_notGenGlobal p1.2 .errorOrVoid
    have hdisp := errorCheckingDispatch_spec sw.tryExceptContexts retTy p2.1 p3.2 hctx herrv
    have hier : p2.2.isErrorFunRef = fw.isErrorFunRef := rfl
    have hfw2 : fw.isErrorFunRef.isFunctionThatMayThrow = true := by
      simp only [fwInv, Bool.and_eq_true] at hfw
      exact hfw.1
    have hcallA : (Expr2.functionCall p2.2.isErrorFunRef [p2.1]).arityOkB = true := by
      have h1 : arity2 (p2.2.isErrorFunRef).type 1 = true :=
        fwInv_arity fw hfw
      simp [Expr2.arityOkB, h1]
    have hcallF : (Expr2.functionCall p2.2.isErrorFunRef [p2.1]).flagsOkB = true := by
      simp only [Expr2.flagsOkB, Expr2.varRefs, List.all_cons, List.all_nil,
        Bool.and_eq_true, hier]
      exact ⟨flagOk_of_mayThrow _ hfw2, flagOk_of_notGenGlobal _ herrv, trivial⟩
    refine ⟨?_, ?_, newVar_notGenGlobal fw e.type⟩
    · exact (newVar_extends fw e.type false).trans
        ((newVar_extends p1.2 .errorOrVoid false).trans
          ((newVar_extends p2.2 _ false).trans hdisp.1))
    · refine SwExtends.write3 _ _ _ ?_
      have ha : GenStmtsOk [Stmt2.assignment p1.1 (some p2.1) e] := by
        refine ⟨fun pairs => by simp [chStmtsOk, chStmtOkHead, pairsOfStmt, hmf], ?_, ?_⟩
        · simp [stmtsAll, stmtAll, h2]
        · simp only [stmtsAll, stmtAll, Bool.and_eq_true]
          refine ⟨⟨⟨?_, ?_⟩, h3⟩, trivial⟩
          · exact flagOk_of_notGenGlobal _ (newVar_notGenGlobal fw e.type)
          · exact flagOk_of_notGenGlobal _ herrv
      have hb : GenStmtsOk [Stmt2.assignment p3.1 none
          (Expr2.functionCall p2.2.isErrorFunRef [p2.1])] :=
        GenStmtsOk.assign1
          (flagOk_of_notGenGlobal _ (newVar_notGenGlobal p2.2 _)) hcallA hcallF
      have hc : GenStmtsOk [Stmt2.ifStmt p3.1
          (errorCheckingDispatch sw.tryExceptContexts retTy p2.1 p3.2).1 []] :=
        GenStmtsOk.ifOne
          (flagOk_of_notGenGlobal _ (newVar_notGenGlobal p2.2 _)) hdisp.2 GenStmtsOk.nil
      exact (ha.append (hb.append hc) :)

lemma raiseDispatch_spec (ctxs : List TryExceptContext) (exceptionExpr : VarReference) :
    ∀ (sw : StmtWriterState) (fw : FunWriterState), ctxs.all ctxOk = true →
    exceptionExpr.flagOk = true →
    FwExtends fw (raiseDispatch ctxs exceptionExpr sw fw).2 ∧
    SwExtends sw (raiseDispatch ctxs exceptionExpr sw fw).1 := by
  induction ctxs with
  | nil =>
    intro sw fw _ hexc
    exact ⟨FwExtends.refl fw, SwExtends.write _ (GenStmtsOk.returnError hexc)⟩
  | cons ctx rest ih =>
    intro sw fw hctx hexc
    simp only [List.all_cons, Bool.and_eq_true] at hctx
    simp only [raiseDispatch]
    by_cases hb : IrType.beq ctx.caughtExceptionType exceptionExpr.type = true
    · rw [if_pos hb]
      obtain ⟨hmf, har, hfl⟩ := ctxOk_facts ctx hctx.1
      set p1 := fw.obfuscateIdentifier ctx.caughtExceptionName with hp1
      set p2 := p1.2.newVar ctx.exceptFunCallExpr.type false with hp2
      set p3 := p2.2.newVar .errorOrVoid false with hp3
      constructor
      · exact (obfuscateIdentifier_extends fw ctx.caughtExceptionName).trans
          ((newVar_extends p1.2 _ false).trans (newVar_extends p2.2 .errorOrVoid false))
      · refine SwExtends.write3 _ _ _ ?_
        refine GenStmtsOk.dispatchTriple ?_ ?_ ?_ rfl ?_ hmf har hfl
        · simp [VarReference.flagOk]
        · exact flagOk_of_notGenGlobal _ (newVar_notGenGlobal p1.2 _)
        · exact flagOk_of_notGenGlobal _ (newVar_notGenGlobal p2.2 .errorOrVoid)
        · simp only [Expr2.flagsOkB, Expr2.varRefs, List.all_cons, List.all_nil,
            Bool.and_eq_true]
          exact ⟨hexc, trivial⟩
    · rw [if_neg hb]
      exact ih sw fw hctx.2 hexc

lemma addToSetFold_spec (elemVars : List VarReference) :
    ∀ (result : VarReference) (sw : StmtWriterState) (fw : FunWriterState),
    result.notGenGlobal = true → elemVars.all VarReference.flagOk = true →
    FwExtends fw (addToSetFold result elemVars sw fw).2.2 ∧
    SwExtends sw (addToSetFold result elemVars sw fw).2.1 ∧
    ((addToSetFold result elemVars sw fw).1).notGenGlobal = true := by
  induction elemVars with
  | nil =>
    intro result sw fw hres _
    exact ⟨FwExtends.refl fw, SwExtends.refl sw, hres⟩
  | cons v rest ih =>
    intro result sw fw hres helems
    simp only [List.all_cons, Bool.and_eq_true] at helems
    simp only [addToSetFold]
    have hnv := newVarForExpr_spec (.addToSet result v) sw fw rfl
      (by simp only [Expr2.flagsOkB, Expr2.varRefs, List.all_cons, List.all_nil,
            Bool.and_eq_true]
          exact ⟨flagOk_of_notGenGlobal _ hres, helems.1, trivial⟩)
    have hih := ih (newVarForExpr (.addToSet result v) sw fw).1
      (newVarForExpr (.addToSet result v) sw fw).2.1
      (newVarForExpr (.addToSet result v) sw fw).2.2 hnv.2.2 helems.2
    exact ⟨hnv.1.trans hih.1, hnv.2.1.trans hih.2.1, hih.2.2⟩

lemma addFree_globals (bound : List String) (vs : List VarReference) :
    ∀ acc : List VarReference, (∀ v ∈ acc, v.isGlobalFunction = false) →
    ∀ v ∈ addFree bound acc vs, v.isGlobalFunction = false := by
  induction vs with
  | nil => intro acc h; simpa [addFree] using h
  | cons x xs ih =>
    intro acc h
    have hstep : addFree bound acc (x :: xs) =
        addFree bound
          (if x.isGlobalFunction || bound.contains x.name ||
              (acc.map (fun w => w.name)).contains x.name then acc
           else acc ++ [x]) xs := rfl
    rw [hstep]
    by_cases hx : (x.isGlobalFunction || bound.contains x.name ||
        (acc.map (fun w => w.name)).contains x.name) = true
    · rw [if_pos hx]; exact ih acc h
    · rw [if_neg hx]
      refine ih _ ?_
      intro v hv
      rcases List.mem_append.1 hv with h1 | h1
      · exact h v h1
      · simp only [List.mem_singleton] at h1
        subst h1
        simp only [Bool.or_eq_true, not_or, Bool.not_eq_true] at hx
        exact hx.1.1

mutual

lemma freeVarsInStmt_globals : ∀ (s : Stmt2) (bound : List String)
    (acc : List VarReference), (∀ v ∈ acc, v.isGlobalFunction = false) →
    ∀ v ∈ (freeVarsInStmt s bound acc).2, v.isGlobalFunction = false
  | .assignment lhs lhs2 rhs, bound, acc, h => by
    simp only [freeVarsInStmt]
    exact addFree_globals bound rhs.varRefs acc h
  | .returnStmt r e, bound, acc, h => by
    simp only [freeVarsInStmt]
    exact addFree_globals bound _ acc h
  | .assertStmt v m, bound, acc, h => by
    simp only [freeVarsInStmt]
    exact addFree_globals bound _ acc h
  | .unpackingAssignment ls rhs m, bound, acc, h => by
    simp only [freeVarsInStmt]
    exact addFree_globals bound _ acc h
  | .ifStmt c a b, bound, acc, h => by
    simp only [freeVarsInStmt]
    exact freeVarsInStmts_globals b bound _
      (freeVarsInStmts_globals a bound _ (addFree_globals bound [c] acc h))

lemma freeVarsInStmts_globals : ∀ (ss : List Stmt2) (bound : List String)
    (acc : List VarReference), (∀ v ∈ acc, v.isGlobalFunction = false) →
    ∀ v ∈ (freeVarsInStmts ss bound acc).2, v.isGlobalFunction = false
  | [], _, _, h => by simpa [freeVarsInStmts] using h
  | s :: rest, bound, acc, h => by
    simp only [freeVarsInStmts]
    exact freeVarsInStmts_globals rest _ _ (freeVarsInStmt_globals s bound acc h)

end

lemma getUniqueFreeVariables_globals (stmts : List Stmt2) :
    ∀ v ∈ getUniqueFreeVariablesInStmts stmts, v.isGlobalFunction = false :=
  freeVarsInStmts_globals stmts [] [] (by simp)

lemma freeVars_flagOk (stmts : List Stmt2) :
    (getUniqueFreeVariablesInStmts stmts).all VarReference.flagOk = true := by
  rw [List.all_eq_true]
  intro v hv
  refine flagOk_of_notGenGlobal v ?_
  simp [VarReference.notGenGlobal, getUniqueFreeVariables_globals stmts v hv]

lemma arity2_map (vs : List VarReference) (r : IrType) :
    arity2 (.functionT (vs.map (fun v => v.type)) r) vs.length = true := by
  simp [arity2]

lemma all_flagOk_of_all_notGenGlobal (vs : List VarReference)
    (h : vs.all VarReference.notGenGlobal = true) :
    vs.all VarReference.flagOk = true := by
  rw [List.all_eq_true] at h ⊢
  intro v hv
  exact flagOk_of_notGenGlobal v (h v hv)

lemma arityOk_call_of_notGenGlobal (fn : VarReference) (args : List VarReference)
    (h : fn.notGenGlobal = true) : (Expr2.functionCall fn args).arityOkB = true := by
  simp only [VarReference.notGenGlobal] at h
  simp [Expr2.arityOkB, h]

lemma flagsOk_call (fn : VarReference) (args : List VarReference)
    (hfn : fn.flagOk = true) (hargs : args.all VarReference.flagOk = true) :
    (Expr2.functionCall fn args).flagsOkB = true := by
  simp [Expr2.flagsOkB, Expr2.varRefs, hfn, hargs]

lemma ctxAll_of_swExtends {a b : StmtWriterState} (h : SwExtends a b)
    (ha : a.tryExceptContexts.all ctxOk = true) :
    b.tryExceptContexts.all ctxOk = true := by
  rw [h.2.1]; exact ha

lemma genOk_of_mk0_extends {rt : Option IrType} {b : StmtWriterState}
    (h : SwExtends (StmtWriterState.mk0 rt) b) : GenStmtsOk b.stmts := by
  obtain ⟨_, _, σ, hσ, hg⟩ := h
  rw [hσ]
  exact hg

lemma wfPairsB_insSorted (le : (String × Expr3) → (String × Expr3) → Bool)
    (x : String × Expr3) (l : List (String × Expr3)) :
    Expr3.wfPairsB (insSorted le x l) = (Expr3.wfB x.2 && Expr3.wfPairsB l) := by
  obtain ⟨n, e⟩ := x
  induction l with
  | nil => simp [insSorted, Expr3.wfPairsB]
  | cons y ys ih =>
    obtain ⟨m, f⟩ := y
    simp only [insSorted]
    by_cases hle : le (n, e) (m, f) = true
    · rw [if_pos hle]
      simp [Expr3.wfPairsB]
    · rw [if_neg hle]
      simp only [Expr3.wfPairsB, ih]
      cases Expr3.wfB e <;> cases Expr3.wfB f <;> simp

lemma wfPairsB_insSort (le : (String × Expr3) → (String × Expr3) → Bool)
    (l : List (String × Expr3)) :
    Expr3.wfPairsB (insSort le l) = Expr3.wfPairsB l := by
  induction l with
  | nil => rfl
  | cons x xs ih =>
    obtain ⟨n, e⟩ := x
    simp [insSort, wfPairsB_insSorted, ih, Expr3.wfPairsB]

/-- The statement of the one-step `FwExtends`/`SwExtends`/clean-result
conclusion for `new_var_for_expr` after an already-analysed prefix
translation. -/
lemma newVarStep {sw sw' : StmtWriterState} {fw fw' : FunWriterState}
    (e : Expr2) (hF : FwExtends fw fw') (hS : SwExtends sw sw')
    (h2 : e.arityOkB = true) (h3 : e.flagsOkB = true) :
    FwExtends fw (newVarForExpr e sw' fw').2.2 ∧
    SwExtends sw (newVarForExpr e sw' fw').2.1 ∧
    ((newVarForExpr e sw' fw').1).notGenGlobal = true := by
  have h := newVarForExpr_spec e sw' fw' h2 h3
  exact ⟨hF.trans h.1, hS.trans h.2.1, h.2.2⟩

/-- The induction hypothesis shape for `exprToIr2` at a given fuel: on
well-formed input with a clean handler stack and a well-formed `FunWriter`,
the writers only extend (per `FwExtends`/`SwExtends`) and the resulting
variable reference is never a generated global. -/
def PExpr (fuel : Nat) : Prop :=
  ∀ (e : Expr3) (sw : StmtWriterState) (fw : FunWriterState),
    Expr3.wfB e = true → sw.tryExceptContexts.all ctxOk = true → fwInv fw = true →
    FwExtends fw (exprToIr2 fuel e sw fw).2.2 ∧
    SwExtends sw (exprToIr2 fuel e sw fw).2.1 ∧
    ((exprToIr2 fuel e sw fw).1).notGenGlobal = true

/-- The induction hypothesis shape for `exprListToIr2`. -/
def PList (fuel : Nat) : Prop :=
  ∀ (es : List Expr3) (sw : StmtWriterState) (fw : FunWriterState),
    Expr3.wfListB es = true → sw.tryExceptContexts.all ctxOk = true → fwInv fw = true →
    FwExtends fw (exprListToIr2 fuel es sw fw).2.2 ∧
    SwExtends sw (exprListToIr2 fuel es sw fw).2.1 ∧
    ((exprListToIr2 fuel es sw fw).1).all VarReference.notGenGlobal = true

/-- The induction hypothesis shape for `typeLiteralArgsToIr2`. -/
def PTypeArgs (fuel : Nat) : Prop :=
  ∀ (args : List (String × Expr3)) (sw : StmtWriterState) (fw : FunWriterState),
    Expr3.wfPairsB args = true → sw.tryExceptContexts.all ctxOk = true → fwInv fw = true →
    FwExtends fw (typeLiteralArgsToIr2 fuel args sw fw).2.2 ∧
    SwExtends sw (typeLiteralArgsToIr2 fuel args sw fw).2.1 ∧
    ((typeLiteralArgsToIr2 fuel args sw fw).1).all
      (fun p => p.2.notGenGlobal) = true

/-- The induction hypothesis shape for `matchCasesToIr2`: the statement
writer is passed through untouched (each case body uses a fresh writer), and
every produced case holds a may-throw outlined function of the right arity
applied to flag-clean forwarded variables. -/
def PCases (fuel : Nat) : Prop :=
  ∀ (ty : Ir3Type) (cs : List (List String × List String × Expr3))
    (sw : StmtWriterState) (fw : FunWriterState),
    Expr3.wfCasesB cs = true → fwInv fw = true →
    FwExtends fw (matchCasesToIr2 fuel ty cs sw fw).2.2 ∧
    (matchCasesToIr2 fuel ty cs sw fw).2.1 = sw ∧
    ((matchCasesToIr2 fuel ty cs sw fw).1).all
      (fun c => c.2.2.1.isFunctionThatMayThrow && c.2.2.1.flagOk &&
        arity2 c.2.2.1.type c.2.2.2.length &&
        c.2.2.2.all VarReference.flagOk) = true

/-- The induction hypothesis shape for
`deconstructedListComprehensionToIr2`. -/
def PCompr (fuel : Nat) : Prop :=
  ∀ (listVar : VarReference) (loopVar : Var3) (res : Expr3)
    (sw : StmtWriterState) (fw : FunWriterState),
    Expr3.wfB res = true → Var3.wfB loopVar = true → listVar.notGenGlobal = true →
    sw.tryExceptContexts.all ctxOk = true → fwInv fw = true →
    FwExtends fw (deconstructedListComprehensionToIr2 fuel listVar loopVar res sw fw).2.2 ∧
    SwExtends sw (deconstructedListComprehensionToIr2 fuel listVar loopVar res sw fw).2.1 ∧
    ((deconstructedListComprehensionToIr2 fuel listVar loopVar res sw fw).1).notGenGlobal
      = true

/-- The induction hypothesis shape for `stmtsToIr2`. -/
def PStmts (fuel : Nat) : Prop :=
  ∀ (ss : List Stmt3) (sw : StmtWriterState) (fw : FunWriterState),
    Stmt3.wfListB ss = true → sw.tryExceptContexts.all ctxOk = true → fwInv fw = true →
    FwExtends fw (stmtsToIr2 fuel ss sw fw).2 ∧
    SwExtends sw (stmtsToIr2 fuel ss sw fw).1

/-- The induction hypothesis shape for `tryExceptStmtToIr2`. -/
def PTry (fuel : Nat) : Prop :=
  ∀ (tb : List Stmt3) (cty : Ir3Type) (cn : String) (eb thenS : List Stmt3)
    (sw : StmtWriterState) (fw : FunWriterState),
    Stmt3.wfListB tb = true → Stmt3.wfListB eb = true → Stmt3.wfListB thenS = true →
    sw.tryExceptContexts.all ctxOk = true → fwInv fw = true →
    FwExtends fw (tryExceptStmtToIr2 fuel tb cty cn eb thenS sw fw).2 ∧
    SwExtends sw (tryExceptStmtToIr2 fuel tb cty cn eb thenS sw fw).1

lemma master_zero : PExpr 0 ∧ PList 0 ∧ PTypeArgs 0 ∧ PCases 0 ∧ PCompr 0 ∧
    PStmts 0 ∧ PTry 0 := by
  refine ⟨?_, ?_, ?_, ?_, ?_, ?_, ?_⟩
  · intro e sw fw _ _ _
    exact ⟨FwExtends.refl fw, SwExtends.refl sw, rfl⟩
  · intro es sw fw _ _ _
    exact ⟨FwExtends.refl fw, SwExtends.refl sw, rfl⟩
  · intro args sw fw _ _ _
    exact ⟨FwExtends.refl fw, SwExtends.refl sw, rfl⟩
  · intro ty cs sw fw _ _
    exact ⟨FwExtends.refl fw, rfl, rfl⟩
  · intro lv loop res sw fw _ _ _ _ _
    exact ⟨FwExtends.refl fw, SwExtends.refl sw, rfl⟩
  · intro ss sw fw _ _ _
    exact ⟨FwExtends.refl fw, SwExtends.refl sw⟩
  · intro tb cty cn eb thenS sw fw _ _ _ _ _
    exact ⟨FwExtends.refl fw, SwExtends.refl sw⟩

lemma PList_succ (fuel : Nat) (ihE : PExpr fuel) (ihL : PList fuel) :
    PList (fuel + 1) := by
  intro es sw fw hwf hctx hfw
  cases es with
  | nil => exact ⟨FwExtends.refl fw, SwExtends.refl sw, rfl⟩
  | cons e rest =>
    simp only [Expr3.wfListB, Bool.and_eq_true] at hwf
    have h1 := ihE e sw fw hwf.1 hctx hfw
    have h2 := ihL rest _ _ hwf.2 (ctxAll_of_swExtends h1.2.1 hctx)
      (fwInv_of_extends h1.1 hfw)
    simp only [exprListToIr2]
    refine ⟨h1.1.trans h2.1, h1.2.1.trans h2.2.1, ?_⟩
    simp only [List.all_cons, Bool.and_eq_true]
    exact ⟨h1.2.2, h2.2.2⟩

lemma PTypeArgs_succ (fuel : Nat) (ihE : PExpr fuel) (ihT : PTypeArgs fuel) :
    PTypeArgs (fuel + 1) := by
  intro args sw fw hwf hctx hfw
  cases args with
  | nil => exact ⟨FwExtends.refl fw, SwExtends.refl sw, rfl⟩
  | cons a rest =>
    obtain ⟨n, e⟩ := a
    simp only [Expr3.wfPairsB, Bool.and_eq_true] at hwf
    have h1 := ihE e sw fw hwf.1 hctx hfw
    have h2 := ihT rest _ _ hwf.2 (ctxAll_of_swExtends h1.2.1 hctx)
      (fwInv_of_extends h1.1 hfw)
    simp only [typeLiteralArgsToIr2]
    refine ⟨h1.1.trans h2.1, h1.2.1.trans h2.2.1, ?_⟩
    simp only [List.all_cons, Bool.and_eq_true]
    exact ⟨h1.2.2, h2.2.2⟩

lemma PExpr_succ (fuel : Nat) (ihE : PExpr fuel) (ihL : PList fuel)
    (ihT : PTypeArgs fuel) (ihC : PCases fuel) (ihD : PCompr fuel) :
    PExpr (fuel + 1) := by
  intro e sw fw hwf hctx hfw
  cases e with
  | varRef v =>
    simp only [exprToIr2]
    have h := varReferenceToIr2_spec v fw (by simpa [Expr3.wfB] using hwf)
    exact ⟨h.1, SwExtends.refl sw, h.2⟩
  | matchExpr ms mc ty =>
    simp only [Expr3.wfB, Bool.and_eq_true] at hwf
    have h1 := ihL ms sw fw hwf.1 hctx hfw
    have h2 := ihC ty mc (exprListToIr2 fuel ms sw fw).2.1
      (exprListToIr2 fuel ms sw fw).2.2 hwf.2 (fwInv_of_extends h1.1 hfw)
    obtain ⟨h2F, h2sw, h2all⟩ := h2
    have harB : (Expr2.matchExpr (exprListToIr2 fuel ms sw fw).1
        (matchCasesToIr2 fuel ty mc (exprListToIr2 fuel ms sw fw).2.1
          (exprListToIr2 fuel ms sw fw).2.2).1).arityOkB = true := by
      simp only [Expr2.arityOkB, List.all_eq_true]
      intro c hc
      have hcc := (List.all_eq_true.1 h2all) c hc
      simp only [Bool.and_eq_true] at hcc
      exact hcc.1.2
    have hflB : (Expr2.matchExpr (exprListToIr2 fuel ms sw fw).1
        (matchCasesToIr2 fuel ty mc (exprListToIr2 fuel ms sw fw).2.1
          (exprListToIr2 fuel ms sw fw).2.2).1).flagsOkB = true := by
      simp only [Expr2.flagsOkB, Bool.and_eq_true]
      refine ⟨all_flagOk_of_all_notGenGlobal _ h1.2.2, ?_⟩
      rw [List.all_eq_true]
      intro c hc
      have hcc := (List.all_eq_true.1 h2all) c hc
      simp only [Bool.and_eq_true] at hcc
      simp [hcc.1.1.1, hcc.1.1.2, hcc.2]
    have hspec := newVarForExprWithErrorChecking_spec
      (.matchExpr (exprListToIr2 fuel ms sw fw).1
        (matchCasesToIr2 fuel ty mc (exprListToIr2 fuel ms sw fw).2.1
          (exprListToIr2 fuel ms sw fw).2.2).1)
      (matchCasesToIr2 fuel ty mc (exprListToIr2 fuel ms sw fw).2.1
        (exprListToIr2 fuel ms sw fw).2.2).2.1
      (matchCasesToIr2 fuel ty mc (exprListToIr2 fuel ms sw fw).2.1
        (exprListToIr2 fuel ms sw fw).2.2).2.2
      harB hflB rfl
      (by rw [h2sw]; exact ctxAll_of_swExtends h1.2.1 hctx)
      (fwInv_of_extends (h1.1.trans h2F) hfw)
    have hsw2 : SwExtends sw (matchCasesToIr2 fuel ty mc
        (exprListToIr2 fuel ms sw fw).2.1 (exprListToIr2 fuel ms sw fw).2.2).2.1 := by
      rw [h2sw]; exact h1.2.1
    simp only [exprToIr2]
    exact ⟨(h1.1.trans h2F).trans hspec.1, hsw2.trans hspec.2.1, hspec.2.2⟩
  | boolLiteral b =>
    simp only [exprToIr2]
    exact newVarStep (.boolLiteral b) (FwExtends.refl fw) (SwExtends.refl sw) rfl rfl
  | intLiteral n =>
    simp only [exprToIr2]
    exact newVarStep (.intLiteral n) (FwExtends.refl fw) (SwExtends.refl sw) rfl rfl
  | typeLiteral cpp argExprs =>
    simp only [Expr3.wfB] at hwf
    have hsorted : Expr3.wfPairsB (insSort (fun a b => strLeB a.1 b.1) argExprs) = true := by
      rw [wfPairsB_insSort]; exact hwf
    have h1 := ihT (insSort (fun a b => strLeB a.1 b.1) argExprs) sw fw hsorted hctx hfw
    obtain ⟨h1F, h1S, h1all⟩ := h1
    simp only [exprToIr2]
    refine newVarStep (.typeLiteral cpp
      (typeLiteralArgsToIr2 fuel (insSort (fun a b => strLeB a.1 b.1) argExprs) sw fw).1)
      h1F h1S rfl ?_
    simp only [Expr2.flagsOkB, Expr2.varRefs, List.all_eq_true]
    rw [List.all_eq_true] at h1all
    intro v hv
    obtain ⟨p, hp, hpe⟩ := List.mem_map.1 hv
    subst hpe
    exact flagOk_of_notGenGlobal _ (h1all p hp)
  | listExpr t elems =>
    simp only [Expr3.wfB] at hwf
    have h1 := ihL elems sw fw hwf hctx hfw
    obtain ⟨h1F, h1S, h1all⟩ := h1
    simp only [exprToIr2]
    refine newVarStep (.listExpr (typeToIr2 t) (exprListToIr2 fuel elems sw fw).1)
      h1F h1S rfl ?_
    simp only [Expr2.flagsOkB, Expr2.varRefs]
    exact all_flagOk_of_all_notGenGlobal _ h1all
  | setExpr t elems =>
    simp only [Expr3.wfB] at hwf
    have h0 := newVarForExpr_spec (.listExpr (typeToIr2 t) []) sw fw rfl rfl
    have h1 := ihL elems _ _ hwf (ctxAll_of_swExtends h0.2.1 hctx)
      (fwInv_of_extends h0.1 hfw)
    have h2 := addToSetFold_spec
      (exprListToIr2 fuel elems
        (newVarForExpr (.listExpr (typeToIr2 t) []) sw fw).2.1
        (newVarForExpr (.listExpr (typeToIr2 t) []) sw fw).2.2).1
      (newVarForExpr (.listExpr (typeToIr2 t) []) sw fw).1
      (exprListToIr2 fuel elems
        (newVarForExpr (.listExpr (typeToIr2 t) []) sw fw).2.1
        (newVarForExpr (.listExpr (typeToIr2 t) []) sw fw).2.2).2.1
      (exprListToIr2 fuel elems
        (newVarForExpr (.listExpr (typeToIr2 t) []) sw fw).2.1
        (newVarForExpr (.listExpr (typeToIr2 t) []) sw fw).2.2).2.2
      h0.2.2 (all_flagOk_of_all_notGenGlobal _ h1.2.2)
    simp only [exprToIr2]
    exact ⟨(h0.1.trans h1.1).trans h2.1, (h0.2.1.trans h1.2.1).trans h2.2.1, h2.2.2⟩
  | functionCall funExpr args =>
    simp only [Expr3.wfB, Bool.and_eq_true] at hwf
    have h1 := ihE funExpr sw fw hwf.1 hctx hfw
    have h2 := ihL args _ _ hwf.2 (ctxAll_of_swExtends h1.2.1 hctx)
      (fwInv_of_extends h1.1 hfw)
    simp only [exprToIr2]
    cases hmt : (exprToIr2 fuel funExpr sw fw).1.isFunctionThatMayThrow with
    | true =>
      rw [if_pos rfl]
      have hspec := newVarForExprWithErrorChecking_spec
        (.functionCall (exprToIr2 fuel funExpr sw fw).1
          (exprListToIr2 fuel args (exprToIr2 fuel funExpr sw fw).2.1
            (exprToIr2 fuel funExpr sw fw).2.2).1)
        (exprListToIr2 fuel args (exprToIr2 fuel funExpr sw fw).2.1
          (exprToIr2 fuel funExpr sw fw).2.2).2.1
        (exprListToIr2 fuel args (exprToIr2 fuel funExpr sw fw).2.1
          (exprToIr2 fuel funExpr sw fw).2.2).2.2
        (arityOk_call_of_notGenGlobal _ _ h1.2.2)
        (flagsOk_call _ _ (flagOk_of_notGenGlobal _ h1.2.2)
          (all_flagOk_of_all_notGenGlobal _ h2.2.2))
        hmt
        (ctxAll_of_swExtends (h1.2.1.trans h2.2.1) hctx)
        (fwInv_of_extends (h1.1.trans h2.1) hfw)
      exact ⟨(h1.1.trans h2.1).trans hspec.1, (h1.2.1.trans h2.2.1).trans hspec.2.1,
        hspec.2.2⟩
    | false =>
      rw [if_neg (by simp)]
      exact newVarStep (.functionCall (exprToIr2 fuel funExpr sw fw).1
          (exprListToIr2 fuel args (exprToIr2 fuel funExpr sw fw).2.1
            (exprToIr2 fuel funExpr sw fw).2.2).1)
        (h1.1.trans h2.1) (h1.2.1.trans h2.2.1)
        (arityOk_call_of_notGenGlobal _ _ h1.2.2)
        (flagsOk_call _ _ (flagOk_of_notGenGlobal _ h1.2.2)
          (all_flagOk_of_all_notGenGlobal _ h2.2.2))
  | equalityComparison l r =>
    simp only [Expr3.wfB, Bool.and_eq_true] at hwf
    have h1 := ihE l sw fw hwf.1 hctx hfw
    have h2 := ihE r _ _ hwf.2 (ctxAll_of_swExtends h1.2.1 hctx)
      (fwInv_of_extends h1.1 hfw)
    simp only [exprToIr2]
    split
    · exact newVarStep (.setEqualityComparison (exprToIr2 fuel l sw fw).1
        (exprToIr2 fuel r (exprToIr2 fuel l sw fw).2.1 (exprToIr2 fuel l sw fw).2.2).1)
        (h1.1.trans h2.1) (h1.2.1.trans h2.2.1) rfl
        (by simp [Expr2.flagsOkB, Expr2.varRefs, flagOk_of_notGenGlobal _ h1.2.2,
          flagOk_of_notGenGlobal _ h2.2.2])
    · exact newVarStep (.equalityComparison (exprToIr2 fuel l sw fw).1
        (exprToIr2 fuel r (exprToIr2 fuel l sw fw).2.1 (exprToIr2 fuel l sw fw).2.2).1)
        (h1.1.trans h2.1) (h1.2.1.trans h2.2.1) rfl
        (by simp [Expr2.flagsOkB, Expr2.varRefs, flagOk_of_notGenGlobal _ h1.2.2,
          flagOk_of_notGenGlobal _ h2.2.2])
  | attributeAccess e1 nm ty =>
    simp only [Expr3.wfB] at hwf
    have h1 := ihE e1 sw fw hwf hctx hfw
    simp only [exprToIr2]
    exact newVarStep (.attributeAccess (exprToIr2 fuel e1 sw fw).1 nm (typeToIr2 ty))
      h1.1 h1.2.1 rfl
      (by simp [Expr2.flagsOkB, Expr2.varRefs, flagOk_of_notGenGlobal _ h1.2.2])
  | andExpr l r =>
    simp only [Expr3.wfB, Bool.and_eq_true] at hwf
    have h1 := ihE l sw fw hwf.1 hctx hfw
    have h2 := ihE r
      (StmtWriterState.mk0 (exprToIr2 fuel l sw fw).2.1.currentFunReturnType)
      (exprToIr2 fuel l sw fw).2.2 hwf.2 rfl (fwInv_of_extends h1.1 hfw)
    simp only [exprToIr2]
    refine ⟨h1.1.trans h2.1, ?_, h2.2.2⟩
    refine h1.2.1.trans (SwExtends.write _ ?_)
    exact GenStmtsOk.ifOne (flagOk_of_notGenGlobal _ h1.2.2)
      (genOk_of_mk0_extends h2.2.1)
      (GenStmtsOk.assign1 (flagOk_of_notGenGlobal _ h2.2.2) rfl rfl)
  | orExpr l r =>
    simp only [Expr3.wfB, Bool.and_eq_true] at hwf
    have h1 := ihE l sw fw hwf.1 hctx hfw
    have h2 := ihE r
      (StmtWriterState.mk0 (exprToIr2 fuel l sw fw).2.1.currentFunReturnType)
      (exprToIr2 fuel l sw fw).2.2 hwf.2 rfl (fwInv_of_extends h1.1 hfw)
    simp only [exprToIr2]
    refine ⟨h1.1.trans h2.1, ?_, h2.2.2⟩
    refine h1.2.1.trans (SwExtends.write _ ?_)
    exact GenStmtsOk.ifOne (flagOk_of_notGenGlobal _ h1.2.2)
      (GenStmtsOk.assign1 (flagOk_of_notGenGlobal _ h2.2.2) rfl rfl)
      (genOk_of_mk0_extends h2.2.1)
  | notExpr e1 =>
    simp only [Expr3.wfB] at hwf
    have h1 := ihE e1 sw fw hwf hctx hfw
    simp only [exprToIr2]
    exact newVarStep (.notExpr (exprToIr2 fuel e1 sw fw).1)
      h1.1 h1.2.1 rfl
      (by simp [Expr2.flagsOkB, Expr2.varRefs, flagOk_of_notGenGlobal _ h1.2.2])
  | intUnaryMinus e1 =>
    simp only [Expr3.wfB] at hwf
    have h1 := ihE e1 sw fw hwf hctx hfw
    simp only [exprToIr2]
    exact newVarStep (.unaryMinus (exprToIr2 fuel e1 sw fw).1)
      h1.1 h1.2.1 rfl
      (by simp [Expr2.flagsOkB, Expr2.varRefs, flagOk_of_notGenGlobal _ h1.2.2])
  | intListSum e1 =>
    simp only [Expr3.wfB] at hwf
    have h1 := ihE e1 sw fw hwf hctx hfw
    simp only [exprToIr2]
    exact newVarStep (.intListSum (exprToIr2 fuel e1 sw fw).1)
      h1.1 h1.2.1 rfl
      (by simp [Expr2.flagsOkB, Expr2.varRefs, flagOk_of_notGenGlobal _ h1.2.2])
  | intSetSum e1 =>
    simp only [Expr3.wfB] at hwf
    have h1 := ihE e1 sw fw hwf hctx hfw
    simp only [exprToIr2]
    exact newVarStep (.intListSum (exprToIr2 fuel e1 sw fw).1)
      h1.1 h1.2.1 rfl
      (by simp [Expr2.flagsOkB, Expr2.varRefs, flagOk_of_notGenGlobal _ h1.2.2])
  | boolListAll e1 =>
    simp only [Expr3.wfB] at hwf
    have h1 := ihE e1 sw fw hwf hctx hfw
    simp only [exprToIr2]
    exact newVarStep (.boolListAll (exprToIr2 fuel e1 sw fw).1)
      h1.1 h1.2.1 rfl
      (by simp [Expr2.flagsOkB, Expr2.varRefs, flagOk_of_notGenGlobal _ h1.2.2])
  | boolSetAll e1 =>
    simp only [Expr3.wfB] at hwf
    have h1 := ihE e1 sw fw hwf hctx hfw
    simp only [exprToIr2]
    exact newVarStep (.boolListAll (exprToIr2 fuel e1 sw fw).1)
      h1.1 h1.2.1 rfl
      (by simp [Expr2.flagsOkB, Expr2.varRefs, flagOk_of_notGenGlobal _ h1.2.2])
  | boolListAny e1 =>
    simp only [Expr3.wfB] at hwf
    have h1 := ihE e1 sw fw hwf hctx hfw
    simp only [exprToIr2]
    exact newVarStep (.boolListAny (exprToIr2 fuel e1 sw fw).1)
      h1.1 h1.2.1 rfl
      (by simp [Expr2.flagsOkB, Expr2.varRefs, flagOk_of_notGenGlobal _ h1.2.2])
  | boolSetAny e1 =>
    simp only [Expr3.wfB] at hwf
    have h1 := ihE e1 sw fw hwf hctx hfw
    simp only [exprToIr2]
    exact newVarStep (.boolListAny (exprToIr2 fuel e1 sw fw).1)
      h1.1 h1.2.1 rfl
      (by simp [Expr2.flagsOkB, Expr2.varRefs, flagOk_of_notGenGlobal _ h1.2.2])
  | intComparison l r op =>
    simp only [Expr3.wfB, Bool.and_eq_true] at hwf
    have h1 := ihE l sw fw hwf.1 hctx hfw
    have h2 := ihE r _ _ hwf.2 (ctxAll_of_swExtends h1.2.1 hctx)
      (fwInv_of_extends h1.1 hfw)
    simp only [exprToIr2]
    exact newVarStep (.intComparison (exprToIr2 fuel l sw fw).1
        (exprToIr2 fuel r (exprToIr2 fuel l sw fw).2.1 (exprToIr2 fuel l sw fw).2.2).1 op)
      (h1.1.trans h2.1) (h1.2.1.trans h2.2.1) rfl
      (by simp [Expr2.flagsOkB, Expr2.varRefs, flagOk_of_notGenGlobal _ h1.2.2,
        flagOk_of_notGenGlobal _ h2.2.2])
  | intBinaryOp l r op =>
    simp only [Expr3.wfB, Bool.and_eq_true] at hwf
    have h1 := ihE l sw fw hwf.1 hctx hfw
    have h2 := ihE r _ _ hwf.2 (ctxAll_of_swExtends h1.2.1 hctx)
      (fwInv_of_extends h1.1 hfw)
    simp only [exprToIr2]
    exact newVarStep (.intBinaryOp (exprToIr2 fuel l sw fw).1
        (exprToIr2 fuel r (exprToIr2 fuel l sw fw).2.1 (exprToIr2 fuel l sw fw).2.2).1 op)
      (h1.1.trans h2.1) (h1.2.1.trans h2.2.1) rfl
      (by simp [Expr2.flagsOkB, Expr2.varRefs, flagOk_of_notGenGlobal _ h1.2.2,
        flagOk_of_notGenGlobal _ h2.2.2])
  | listConcat l r =>
    simp only [Expr3.wfB, Bool.and_eq_true] at hwf
    have h1 := ihE l sw fw hwf.1 hctx hfw
    have h2 := ihE r _ _ hwf.2 (ctxAll_of_swExtends h1.2.1 hctx)
      (fwInv_of_extends h1.1 hfw)
    simp only [exprToIr2]
    exact newVarStep (.listConcat (exprToIr2 fuel l sw fw).1
        (exprToIr2 fuel r (exprToIr2 fuel l sw fw).2.1 (exprToIr2 fuel l sw fw).2.2).1)
      (h1.1.trans h2.1) (h1.2.1.trans h2.2.1) rfl
      (by simp [Expr2.flagsOkB, Expr2.varRefs, flagOk_of_notGenGlobal _ h1.2.2,
        flagOk_of_notGenGlobal _ h2.2.2])
  | listComprehension la lv res =>
    simp only [Expr3.wfB, Bool.and_eq_true] at hwf
    have h1 := ihE la sw fw hwf.1.1 hctx hfw
    have h2 := ihD (exprToIr2 fuel la sw fw).1 lv res (exprToIr2 fuel la sw fw).2.1
      (exprToIr2 fuel la sw fw).2.2 hwf.2 hwf.1.2 h1.2.2
      (ctxAll_of_swExtends h1.2.1 hctx) (fwInv_of_extends h1.1 hfw)
    simp only [exprToIr2]
    exact ⟨h1.1.trans h2.1, h1.2.1.trans h2.2.1, h2.2.2⟩
  | setComprehension sa lv res =>
    simp only [Expr3.wfB, Bool.and_eq_true] at hwf
    have h1 := ihE sa sw fw hwf.1.1 hctx hfw
    have h2 := newVarForExpr_spec (.setToList (exprToIr2 fuel sa sw fw).1)
      (exprToIr2 fuel sa sw fw).2.1 (exprToIr2 fuel sa sw fw).2.2 rfl
      (by simp [Expr2.flagsOkB, Expr2.varRefs, flagOk_of_notGenGlobal _ h1.2.2])
    have h3 := ihD
      (newVarForExpr (.setToList (exprToIr2 fuel sa sw fw).1)
        (exprToIr2 fuel sa sw fw).2.1 (exprToIr2 fuel sa sw fw).2.2).1 lv res
      (newVarForExpr (.setToList (exprToIr2 fuel sa sw fw).1)
        (exprToIr2 fuel sa sw fw).2.1 (exprToIr2 fuel sa sw fw).2.2).2.1
      (newVarForExpr (.setToList (exprToIr2 fuel sa sw fw).1)
        (exprToIr2 fuel sa sw fw).2.1 (exprToIr2 fuel sa sw fw).2.2).2.2
      hwf.2 hwf.1.2 h2.2.2
      (ctxAll_of_swExtends (h1.2.1.trans h2.2.1) hctx)
      (fwInv_of_extends (h1.1.trans h2.1) hfw)
    simp only [exprToIr2]
    refine ?_
    have h4 := newVarForExpr_spec
      (.listToSet (deconstructedListComprehensionToIr2 fuel
        (newVarForExpr (.setToList (exprToIr2 fuel sa sw fw).1)
          (exprToIr2 fuel sa sw fw).2.1 (exprToIr2 fuel sa sw fw).2.2).1 lv res
        (newVarForExpr (.setToList (exprToIr2 fuel sa sw fw).1)
          (exprToIr2 fuel sa sw fw).2.1 (exprToIr2 fuel sa sw fw).2.2).2.1
        (newVarForExpr (.setToList (exprToIr2 fuel sa sw fw).1)
          (exprToIr2 fuel sa sw fw).2.1 (exprToIr2 fuel sa sw fw).2.2).2.2).1)
      (deconstructedListComprehensionToIr2 fuel
        (newVarForExpr (.setToList (exprToIr2 fuel sa sw fw).1)
          (exprToIr2 fuel sa sw fw).2.1 (exprToIr2 fuel sa sw fw).2.2).1 lv res
        (newVarForExpr (.setToList (exprToIr2 fuel sa sw fw).1)
          (exprToIr2 fuel sa sw fw).2.1 (exprToIr2 fuel sa sw fw).2.2).2.1
        (newVarForExpr (.setToList (exprToIr2 fuel sa sw fw).1)
          (exprToIr2 fuel sa sw fw).2.1 (exprToIr2 fuel sa sw fw).2.2).2.2).2.1
      (deconstructedListComprehensionToIr2 fuel
        (newVarForExpr (.setToList (exprToIr2 fuel sa sw fw).1)
          (exprToIr2 fuel sa sw fw).2.1 (exprToIr2 fuel sa sw fw).2.2).1 lv res
        (newVarForExpr (.setToList (exprToIr2 fuel sa sw fw).1)
          (exprToIr2 fuel sa sw fw).2.1 (exprToIr2 fuel sa sw fw).2.2).2.1
        (newVarForExpr (.setToList (exprToIr2 fuel sa sw fw).1)
          (exprToIr2 fuel sa sw fw).2.1 (exprToIr2 fuel sa sw fw).2.2).2.2).2.2
      rfl
      (by simp [Expr2.flagsOkB, Expr2.varRefs, flagOk_of_notGenGlobal _ h3.2.2])
    exact ⟨((h1.1.trans h2.1).trans h3.1).trans h4.1,
      ((h1.2.1.trans h2.2.1).trans h3.2.1).trans h4.2.1, h4.2.2⟩

/-- A synthesized helper definition whose arguments are computed as the
unique free variables of its body satisfies the definition invariant. -/
lemma DefnOkP_mk (name descr : String) (body : List Stmt2) (rt : Option IrType)
    (hg : GenStmtsOk body) :
    DefnOkP ⟨name, descr, argDeclsOfVars (getUniqueFreeVariablesInStmts body), body, rt⟩ :=
  ⟨hg.1 [], hg.2.1, hg.2.2, fun _ => rfl⟩

lemma PCases_succ (fuel : Nat) (ihE : PExpr fuel) (ihC : PCases fuel) :
    PCases (fuel + 1) := by
  intro ty cs sw fw hwf hfw
  cases cs with
  | nil => exact ⟨FwExtends.refl fw, rfl, rfl⟩
  | cons c rest =>
    obtain ⟨typePatterns, matchedVarNames, caseExpr⟩ := c
    simp only [Expr3.wfCasesB, Bool.and_eq_true] at hwf
    simp only [matchCasesToIr2]
    set p1 := exprToIr2 fuel caseExpr (StmtWriterState.mk0 (some (typeToIr2 ty))) fw with hp1
    set csw := p1.2.1.writeStmt (.returnStmt (some p1.1) none) with hcsw
    set fwds := getUniqueFreeVariablesInStmts csw.stmts with hfwds
    set p2 := p1.2.2.newId with hp2
    set d : FunctionDefn2 :=
      ⟨p2.1, "(meta)function wrapping the code in a branch of a match expression",
       argDeclsOfVars fwds, csw.stmts, some p1.1.type⟩ with hd
    set fw3 := p2.2.writeFunction d with hfw3
    set p3 := obfuscateAll matchedVarNames fw3 with hp3
    set p4 := obfuscateAll matchedVarNames p3.2 with hp4
    have h1 : FwExtends fw p1.2.2 ∧
        SwExtends (StmtWriterState.mk0 (some (typeToIr2 ty))) p1.2.1 ∧
        p1.1.notGenGlobal = true :=
      ihE caseExpr (StmtWriterState.mk0 (some (typeToIr2 ty))) fw hwf.1 rfl hfw
    have hgen : GenStmtsOk csw.stmts :=
      genOk_of_mk0_extends (h1.2.1.trans (SwExtends.write _
        (GenStmtsOk.returnResult (flagOk_of_notGenGlobal _ h1.2.2))))
    have hdOk : DefnOkP d := DefnOkP_mk _ _ _ _ hgen
    have hF : FwExtends fw p4.2 :=
      ((h1.1.trans (newId_extends p1.2.2)).trans
        (writeFunction_extends p2.2 d hdOk)).trans
        ((obfuscateAll_extends matchedVarNames fw3).trans
          (obfuscateAll_extends matchedVarNames p3.2))
    have hrec := ihC ty rest sw p4.2 hwf.2 (fwInv_of_extends hF hfw)
    refine ⟨hF.trans hrec.1, hrec.2.1, ?_⟩
    rw [List.all_cons, hrec.2.2]
    simp [hfwds, VarReference.flagOk, arity2, freeVars_flagOk csw.stmts]

lemma PCompr_succ (fuel : Nat) (ihE : PExpr fuel) : PCompr (fuel + 1) := by
  intro listVar loopVar res sw fw hres hlv hlvar hctx hfw
  simp only [deconstructedListComprehensionToIr2]
  set p1 := exprToIr2 fuel res (StmtWriterState.mk0 (some (typeToIr2 res.type))) fw with hp1
  set hsw := p1.2.1.writeStmt (.returnStmt (some p1.1) none) with hhsw
  set fwds := getUniqueFreeVariablesInStmts hsw.stmts with hfwds
  set p2 := p1.2.2.newId with hp2
  set d : FunctionDefn2 :=
    ⟨p2.1, "(meta)function wrapping the result expression in a list/set comprehension",
     argDeclsOfVars fwds, hsw.stmts, some (typeToIr2 res.type)⟩ with hd
  set fw3 := p2.2.writeFunction d with hfw3
  set helperRef : VarReference :=
    ⟨.functionT (fwds.map (fun v => v.type)) (typeToIr2 res.type), p2.1, true, true⟩
    with hhr
  set p4 := varReferenceToIr2 loopVar fw3 with hp4
  have h1 : FwExtends fw p1.2.2 ∧
      SwExtends (StmtWriterState.mk0 (some (typeToIr2 res.type))) p1.2.1 ∧
      p1.1.notGenGlobal = true :=
    ihE res (StmtWriterState.mk0 (some (typeToIr2 res.type))) fw hres rfl hfw
  have hgen : GenStmtsOk hsw.stmts :=
    genOk_of_mk0_extends (h1.2.1.trans (SwExtends.write _
      (GenStmtsOk.returnResult (flagOk_of_notGenGlobal _ h1.2.2))))
  have hdOk : DefnOkP d := DefnOkP_mk _ _ _ _ hgen
  have hloop : FwExtends fw3 p4.2 ∧ p4.1.notGenGlobal = true :=
    varReferenceToIr2_spec loopVar fw3 hlv
  have hF : FwExtends fw p4.2 :=
    ((h1.1.trans (newId_extends p1.2.2)).trans
      (writeFunction_extends p2.2 d hdOk)).trans hloop.1
  have hspec := newVarForExprWithErrorChecking_spec
    (.listComprehension listVar p4.1 helperRef fwds) sw p4.2
    (arity2_map fwds (typeToIr2 res.type))
    (by have hv1 := flagOk_of_notGenGlobal _ hlvar
        have hv2 := flagOk_of_notGenGlobal _ hloop.2
        have hv3 : helperRef.flagOk = true := flagOk_of_mayThrow _ rfl
        have hv4 : helperRef.isFunctionThatMayThrow = true := rfl
        simp [Expr2.flagsOkB, hfwds, freeVars_flagOk hsw.stmts, hv1, hv2, hv3, hv4])
    rfl hctx (fwInv_of_extends hF hfw)
  exact ⟨hF.trans hspec.1, hspec.2.1, hspec.2.2⟩

lemma PStmts_succ (fuel : Nat) (ihE : PExpr fuel) (ihS : PStmts fuel)
    (ihY : PTry fuel) : PStmts (fuel + 1) := by
  intro ss sw fw hwf hctx hfw
  cases ss with
  | nil => exact ⟨FwExtends.refl fw, SwExtends.refl sw⟩
  | cons st rest =>
    simp only [Stmt3.wfListB, Bool.and_eq_true] at hwf
    cases st with
    | ifStmt condExpr ifS elseS =>
      simp only [Stmt3.wfB, Bool.and_eq_true] at hwf
      simp only [stmtsToIr2]
      set p1 := exprToIr2 fuel condExpr sw fw with hp1
      set p2 := stmtsToIr2 fuel ifS (StmtWriterState.mk0 p1.2.1.currentFunReturnType)
        p1.2.2 with hp2
      set p3 := stmtsToIr2 fuel elseS (StmtWriterState.mk0 p1.2.1.currentFunReturnType)
        p2.2 with hp3
      have h1 : FwExtends fw p1.2.2 ∧ SwExtends sw p1.2.1 ∧ p1.1.notGenGlobal = true :=
        ihE condExpr sw fw hwf.1.1.1 hctx hfw
      have h2 : FwExtends p1.2.2 p2.2 ∧
          SwExtends (StmtWriterState.mk0 p1.2.1.currentFunReturnType) p2.1 :=
        ihS ifS _ _ hwf.1.1.2 rfl (fwInv_of_extends h1.1 hfw)
      have h3 : FwExtends p2.2 p3.2 ∧
          SwExtends (StmtWriterState.mk0 p1.2.1.currentFunReturnType) p3.1 :=
        ihS elseS _ _ hwf.1.2 rfl (fwInv_of_extends (h1.1.trans h2.1) hfw)
      have hw : SwExtends sw (p1.2.1.writeStmt (.ifStmt p1.1 p2.1.stmts p3.1.stmts)) :=
        h1.2.1.trans (SwExtends.write _
          (GenStmtsOk.ifOne (flagOk_of_notGenGlobal _ h1.2.2)
            (genOk_of_mk0_extends h2.2) (genOk_of_mk0_extends h3.2)))
      have h4 := ihS rest (p1.2.1.writeStmt (.ifStmt p1.1 p2.1.stmts p3.1.stmts)) p3.2
        hwf.2 (ctxAll_of_swExtends hw hctx)
        (fwInv_of_extends ((h1.1.trans h2.1).trans h3.1) hfw)
      exact ⟨((h1.1.trans h2.1).trans h3.1).trans h4.1, hw.trans h4.2⟩
    | assignment lhs rhs =>
      simp only [Stmt3.wfB, Bool.and_eq_true] at hwf
      simp only [stmtsToIr2]
      set q1 := varReferenceToIr2 lhs fw with hq1
      set q2 := exprToIr2 fuel rhs sw q1.2 with hq2
      have h0 : FwExtends fw q1.2 ∧ q1.1.notGenGlobal = true :=
        varReferenceToIr2_spec lhs fw hwf.1.1
      have h1 : FwExtends q1.2 q2.2.2 ∧ SwExtends sw q2.2.1 ∧ q2.1.notGenGlobal = true :=
        ihE rhs sw q1.2 hwf.1.2 hctx (fwInv_of_extends h0.1 hfw)
      have hw : SwExtends sw (q2.2.1.writeStmt (.assignment q1.1 none (.varRef q2.1))) :=
        h1.2.1.trans (SwExtends.write _
          (GenStmtsOk.assign1 (flagOk_of_notGenGlobal _ h0.2) rfl
            (by simp [Expr2.flagsOkB, Expr2.varRefs, flagOk_of_notGenGlobal _ h1.2.2])))
      have h4 := ihS rest (q2.2.1.writeStmt (.assignment q1.1 none (.varRef q2.1)))
        q2.2.2 hwf.2 (ctxAll_of_swExtends hw hctx)
        (fwInv_of_extends (h0.1.trans h1.1) hfw)
      exact ⟨(h0.1.trans h1.1).trans h4.1, hw.trans h4.2⟩
    | unpackingAssignment lhsList rhs msg =>
      simp only [Stmt3.wfB, Bool.and_eq_true] at hwf
      simp only [stmtsToIr2]
      set q1 := varListToIr2 lhsList fw with hq1
      set q2 := exprToIr2 fuel rhs sw q1.2 with hq2
      have h0 : FwExtends fw q1.2 ∧ q1.1.all VarReference.notGenGlobal = true :=
        varListToIr2_spec lhsList fw hwf.1.1
      have h1 : FwExtends q1.2 q2.2.2 ∧ SwExtends sw q2.2.1 ∧ q2.1.notGenGlobal = true :=
        ihE rhs sw q1.2 hwf.1.2 hctx (fwInv_of_extends h0.1 hfw)
      have hw : SwExtends sw
          (q2.2.1.writeStmt (.unpackingAssignment q1.1 (.varRef q2.1) msg)) :=
        h1.2.1.trans (SwExtends.write _
          (GenStmtsOk.unpackingOne (all_flagOk_of_all_notGenGlobal _ h0.2) rfl
            (by simp [Expr2.flagsOkB, Expr2.varRefs, flagOk_of_notGenGlobal _ h1.2.2])))
      have h4 := ihS rest (q2.2.1.writeStmt (.unpackingAssignment q1.1 (.varRef q2.1) msg))
        q2.2.2 hwf.2 (ctxAll_of_swExtends hw hctx)
        (fwInv_of_extends (h0.1.trans h1.1) hfw)
      exact ⟨(h0.1.trans h1.1).trans h4.1, hw.trans h4.2⟩
    | returnStmt e =>
      simp only [Stmt3.wfB] at hwf
      simp only [stmtsToIr2]
      set q := exprToIr2 fuel e sw fw with hq
      have h1 : FwExtends fw q.2.2 ∧ SwExtends sw q.2.1 ∧ q.1.notGenGlobal = true :=
        ihE e sw fw hwf.1 hctx hfw
      have hw : SwExtends sw (q.2.1.writeStmt (.returnStmt (some q.1) none)) :=
        h1.2.1.trans (SwExtends.write _
          (GenStmtsOk.returnResult (flagOk_of_notGenGlobal _ h1.2.2)))
      have h4 := ihS rest (q.2.1.writeStmt (.returnStmt (some q.1) none)) q.2.2
        hwf.2 (ctxAll_of_swExtends hw hctx) (fwInv_of_extends h1.1 hfw)
      exact ⟨h1.1.trans h4.1, hw.trans h4.2⟩
    | raiseStmt e =>
      simp only [Stmt3.wfB] at hwf
      simp only [stmtsToIr2]
      set q1 := exprToIr2 fuel e sw fw with hq1
      set q2 := raiseDispatch q1.2.1.tryExceptContexts q1.1 q1.2.1 q1.2.2 with hq2
      have h1 : FwExtends fw q1.2.2 ∧ SwExtends sw q1.2.1 ∧ q1.1.notGenGlobal = true :=
        ihE e sw fw hwf.1 hctx hfw
      have hdisp : FwExtends q1.2.2 q2.2 ∧ SwExtends q1.2.1 q2.1 :=
        raiseDispatch_spec q1.2.1.tryExceptContexts q1.1 q1.2.1 q1.2.2
          (ctxAll_of_swExtends h1.2.1 hctx) (flagOk_of_notGenGlobal _ h1.2.2)
      have h4 := ihS rest q2.1 q2.2 hwf.2
        (ctxAll_of_swExtends (h1.2.1.trans hdisp.2) hctx)
        (fwInv_of_extends (h1.1.trans hdisp.1) hfw)
      exact ⟨(h1.1.trans hdisp.1).trans h4.1, (h1.2.1.trans hdisp.2).trans h4.2⟩
    | assertStmt e msg =>
      simp only [Stmt3.wfB] at hwf
      simp only [stmtsToIr2]
      set q := exprToIr2 fuel e sw fw with hq
      have h1 : FwExtends fw q.2.2 ∧ SwExtends sw q.2.1 ∧ q.1.notGenGlobal = true :=
        ihE e sw fw hwf.1 hctx hfw
      have hw : SwExtends sw (q.2.1.writeStmt (.assertStmt q.1 msg)) :=
        h1.2.1.trans (SwExtends.write _
          (GenStmtsOk.assertOne (flagOk_of_notGenGlobal _ h1.2.2)))
      have h4 := ihS rest (q.2.1.writeStmt (.assertStmt q.1 msg)) q.2.2
        hwf.2 (ctxAll_of_swExtends hw hctx) (fwInv_of_extends h1.1 hfw)
      exact ⟨h1.1.trans h4.1, hw.trans h4.2⟩
    | tryExcept tb cty cn eb =>
      simp only [Stmt3.wfB, Bool.and_eq_true] at hwf
      simp only [stmtsToIr2]
      exact ihY tb cty cn eb rest sw fw hwf.1.1 hwf.1.2 hwf.2 hctx hfw

/-- The common tail of `try_except_stmt_to_ir2`: outline the (possibly
continuation-extended) except-block writer `swE` into a helper definition,
push the handler context, lower the try body, and pop the context.  Both
writers extend, with the handler stack restored. -/
lemma tryCore_spec (fuel : Nat) (ihS : PStmts fuel) (tb : List Stmt3) (cty : Ir3Type)
    (cn : String) (sw swE : StmtWriterState) (fw : FunWriterState) (fwE : FunWriterState)
    (hE : SwExtends (StmtWriterState.mk0 sw.currentFunReturnType) swE)
    (hF : FwExtends fw fwE) (hwtb : Stmt3.wfListB tb = true)
    (hctx : sw.tryExceptContexts.all ctxOk = true) (hfw : fwInv fw = true) :
    FwExtends fw (stmtsToIr2 fuel tb
      { currentFunReturnType := sw.currentFunReturnType, stmts := sw.stmts,
        tryExceptContexts := sw.tryExceptContexts ++
          [⟨typeToIr2 cty, cn, .functionCall
             ⟨.functionT ((getUniqueFreeVariablesInStmts swE.stmts).map (fun v => v.type))
                (sw.currentFunReturnType.getD .bottom), fwE.newId.1, true, true⟩
             (getUniqueFreeVariablesInStmts swE.stmts)⟩] }
      (fwE.newId.2.writeFunction
        ⟨fwE.newId.1, "(meta)function wrapping the code in an except block",
         argDeclsOfVars (getUniqueFreeVariablesInStmts swE.stmts), swE.stmts,
         sw.currentFunReturnType⟩)).2 ∧
    SwExtends sw
      { currentFunReturnType := (stmtsToIr2 fuel tb
          { currentFunReturnType := sw.currentFunReturnType, stmts := sw.stmts,
            tryExceptContexts := sw.tryExceptContexts ++
              [⟨typeToIr2 cty, cn, .functionCall
                 ⟨.functionT ((getUniqueFreeVariablesInStmts swE.stmts).map (fun v => v.type))
                    (sw.currentFunReturnType.getD .bottom), fwE.newId.1, true, true⟩
                 (getUniqueFreeVariablesInStmts swE.stmts)⟩] }
          (fwE.newId.2.writeFunction
            ⟨fwE.newId.1, "(meta)function wrapping the code in an except block",
             argDeclsOfVars (getUniqueFreeVariablesInStmts swE.stmts), swE.stmts,
             sw.currentFunReturnType⟩)).1.currentFunReturnType,
        stmts := (stmtsToIr2 fuel tb
          { currentFunReturnType := sw.currentFunReturnType, stmts := sw.stmts,
            tryExceptContexts := sw.tryExceptContexts ++
              [⟨typeToIr2 cty, cn, .functionCall
                 ⟨.functionT ((getUniqueFreeVariablesInStmts swE.stmts).map (fun v => v.type))
                    (sw.currentFunReturnType.getD .bottom), fwE.newId.1, true, true⟩
                 (getUniqueFreeVariablesInStmts swE.stmts)⟩] }
          (fwE.newId.2.writeFunction
            ⟨fwE.newId.1, "(meta)function wrapping the code in an except block",
             argDeclsOfVars (getUniqueFreeVariablesInStmts swE.stmts), swE.stmts,
             sw.currentFunReturnType⟩)).1.stmts,
        tryExceptContexts := (stmtsToIr2 fuel tb
          { currentFunReturnType := sw.currentFunReturnType, stmts := sw.stmts,
            tryExceptContexts := sw.tryExceptContexts ++
              [⟨typeToIr2 cty, cn, .functionCall
                 ⟨.functionT ((getUniqueFreeVariablesInStmts swE.stmts).map (fun v => v.type))
                    (sw.currentFunReturnType.getD .bottom), fwE.newId.1, true, true⟩
                 (getUniqueFreeVariablesInStmts swE.stmts)⟩] }
          (fwE.newId.2.writeFunction
            ⟨fwE.newId.1, "(meta)function wrapping the code in an except block",
             argDeclsOfVars (getUniqueFreeVariablesInStmts swE.stmts), swE.stmts,
             sw.currentFunReturnType⟩)).1.tryExceptContexts.dropLast } ∧
    FwExtends
      (fwE.newId.2.writeFunction
        ⟨fwE.newId.1, "(meta)function wrapping the code in an except block",
         argDeclsOfVars (getUniqueFreeVariablesInStmts swE.stmts), swE.stmts,
         sw.currentFunReturnType⟩)
      (stmtsToIr2 fuel tb
        { currentFunReturnType := sw.currentFunReturnType, stmts := sw.stmts,
          tryExceptContexts := sw.tryExceptContexts ++
            [⟨typeToIr2 cty, cn, .functionCall
               ⟨.functionT ((getUniqueFreeVariablesInStmts swE.stmts).map (fun v => v.type))
                  (sw.currentFunReturnType.getD .bottom), fwE.newId.1, true, true⟩
               (getUniqueFreeVariablesInStmts swE.stmts)⟩] }
        (fwE.newId.2.writeFunction
          ⟨fwE.newId.1, "(meta)function wrapping the code in an except block",
           argDeclsOfVars (getUniqueFreeVariablesInStmts swE.stmts), swE.stmts,
           sw.currentFunReturnType⟩)).2 := by
  set efwds := getUniqueFreeVariablesInStmts swE.stmts with hefwds
  set pId := fwE.newId with hpId
  set exceptD : FunctionDefn2 :=
    ⟨pId.1, "(meta)function wrapping the code in an except block",
     argDeclsOfVars efwds, swE.stmts, sw.currentFunReturnType⟩ with hexD
  set fwB := pId.2.writeFunction exceptD with hfwB
  set eref : VarReference := ⟨.functionT (efwds.map (fun v => v.type))
    (sw.currentFunReturnType.getD .bottom), pId.1, true, true⟩ with heref
  set ctx2 : TryExceptContext := ⟨typeToIr2 cty, cn, .functionCall eref efwds⟩ with hctxd
  set swP : StmtWriterState :=
    ⟨sw.currentFunReturnType, sw.stmts, sw.tryExceptContexts ++ [ctx2]⟩ with hswP
  set pTry := stmtsToIr2 fuel tb swP fwB with hpT
  have hExcGen : GenStmtsOk swE.stmts := genOk_of_mk0_extends hE
  have hExcD : DefnOkP exceptD := DefnOkP_mk _ _ _ _ hExcGen
  have hFB : FwExtends fw fwB :=
    (hF.trans (newId_extends fwE)).trans (writeFunction_extends pId.2 exceptD hExcD)
  have h1 : eref.flagOk = true := flagOk_of_mayThrow _ rfl
  have h2 : eref.isFunctionThatMayThrow = true := rfl
  have h3 : arity2 eref.type efwds.length = true := arity2_map efwds _
  have hctxOkNew : ctxOk ctx2 = true := by
    rw [hctxd]
    simp [ctxOk, h1, h2, h3, hefwds, freeVars_flagOk swE.stmts]
  have hswPctx : swP.tryExceptContexts.all ctxOk = true := by
    rw [hswP]
    simp [hctx, hctxOkNew]
  have hT : FwExtends fwB pTry.2 ∧ SwExtends swP pTry.1 :=
    ihS tb swP fwB hwtb hswPctx (fwInv_of_extends hFB hfw)
  obtain ⟨hTF, hret, hctxeq, σ, hσ, hg⟩ := hT
  refine ⟨hFB.trans hTF, ⟨hret, ?_, ⟨σ, hσ, hg⟩⟩, hTF⟩
  show pTry.1.tryExceptContexts.dropLast = sw.tryExceptContexts
  rw [hctxeq]
  show (sw.tryExceptContexts ++ [ctx2]).dropLast = sw.tryExceptContexts
  exact List.dropLast_concat

lemma PTry_succ (fuel : Nat) (ihS : PStmts fuel) : PTry (fuel + 1) := by
  intro tb cty cn eb thenS sw fw hwtb hweb hwthen hctx hfw
  simp only [tryExceptStmtToIr2]
  cases hth : thenS.isEmpty with
  | true =>
    simp only [reduceIte]
    have hE : FwExtends fw
        (stmtsToIr2 fuel eb (StmtWriterState.mk0 sw.currentFunReturnType) fw).2 ∧
        SwExtends (StmtWriterState.mk0 sw.currentFunReturnType)
          (stmtsToIr2 fuel eb (StmtWriterState.mk0 sw.currentFunReturnType) fw).1 :=
      ihS eb _ _ hweb rfl hfw
    have hcoreA := tryCore_spec fuel ihS tb cty cn sw _ fw _ hE.2 hE.1 hwtb hctx hfw
    exact ⟨hcoreA.1, hcoreA.2.1⟩
  | false =>
    rw [if_neg Bool.false_ne_true]
    dsimp only
    set q1 := stmtsToIr2 fuel thenS (StmtWriterState.mk0 sw.currentFunReturnType) fw
      with hq1
    set tfwds := getUniqueFreeVariablesInStmts q1.1.stmts with htfwds
    set q2 := q1.2.newId with hq2
    set thenD : FunctionDefn2 :=
      ⟨q2.1, "(meta)function wrapping the code after a try-except statement",
       argDeclsOfVars tfwds, q1.1.stmts, sw.currentFunReturnType⟩ with hthenD
    set q3 := q2.2.writeFunction thenD with hq3
    set tref : VarReference := ⟨.functionT (tfwds.map (fun v => v.type))
      (sw.currentFunReturnType.getD .bottom), q2.1, true, true⟩ with htref
    set callE : Expr2 := .functionCall tref tfwds with hcallE
    set pExc := stmtsToIr2 fuel eb (StmtWriterState.mk0 sw.currentFunReturnType) q3
      with hpE
    have hq1s : FwExtends fw q1.2 ∧
        SwExtends (StmtWriterState.mk0 sw.currentFunReturnType) q1.1 :=
      ihS thenS _ _ hwthen rfl hfw
    have hThenGen : GenStmtsOk q1.1.stmts := genOk_of_mk0_extends hq1s.2
    have hThenD : DefnOkP thenD := DefnOkP_mk _ _ _ _ hThenGen
    have hFq3 : FwExtends fw q3 :=
      (hq1s.1.trans (newId_extends q1.2)).trans (writeFunction_extends q2.2 thenD hThenD)
    have hmfC : mayFailRhs callE = true := rfl
    have harC : callE.arityOkB = true := by
      rw [hcallE, htref]
      simp [Expr2.arityOkB, arity2]
    have hflC : callE.flagsOkB = true := by
      rw [hcallE]
      exact flagsOk_call _ _ (flagOk_of_mayThrow _ rfl)
        (by rw [htfwds]; exact freeVars_flagOk q1.1.stmts)
    have hE : FwExtends q3 pExc.2 ∧
        SwExtends (StmtWriterState.mk0 sw.currentFunReturnType) pExc.1 :=
      ihS eb _ _ hweb rfl (fwInv_of_extends hFq3 hfw)
    cases hle : Stmt3.lastAlwaysReturns eb with
    | true =>
      rw [if_pos rfl]
      have hcore := tryCore_spec fuel ihS tb cty cn sw pExc.1 fw pExc.2
        hE.2 (hFq3.trans hE.1) hwtb hctx hfw
      cases hlt : Stmt3.lastAlwaysReturns tb with
      | true =>
        rw [if_pos rfl]
        exact ⟨hcore.1, hcore.2.1⟩
      | false =>
        rw [if_neg Bool.false_ne_true]
        have hr2 := newVarForExprWithErrorChecking_spec callE _ _ harC hflC hmfC
          (ctxAll_of_swExtends hcore.2.1 hctx) (fwInv_of_extends hcore.1 hfw)
        exact ⟨hcore.1.trans hr2.1, hcore.2.1.trans (hr2.2.1.trans
          (SwExtends.write _ (GenStmtsOk.returnResult
            (flagOk_of_notGenGlobal _ hr2.2.2))))⟩
    | false =>
      rw [if_neg Bool.false_ne_true]
      have hr := newVarForExprWithErrorChecking_spec callE pExc.1 pExc.2 harC hflC hmfC
        (ctxAll_of_swExtends hE.2 rfl) (fwInv_of_extends (hFq3.trans hE.1) hfw)
      have hswE : SwExtends (StmtWriterState.mk0 sw.currentFunReturnType)
          ((newVarForExprWithErrorChecking callE pExc.1 pExc.2).2.1.writeStmt
            (.returnStmt (some (newVarForExprWithErrorChecking callE pExc.1 pExc.2).1)
              none)) :=
        hE.2.trans (hr.2.1.trans (SwExtends.write _
          (GenStmtsOk.returnResult (flagOk_of_notGenGlobal _ hr.2.2))))
      have hfwE : FwExtends fw (newVarForExprWithErrorChecking callE pExc.1 pExc.2).2.2 :=
        (hFq3.trans hE.1).trans hr.1
      have hcore := tryCore_spec fuel ihS tb cty cn sw
        ((newVarForExprWithErrorChecking callE pExc.1 pExc.2).2.1.writeStmt
          (.returnStmt (some (newVarForExprWithErrorChecking callE pExc.1 pExc.2).1) none))
        fw (newVarForExprWithErrorChecking callE pExc.1 pExc.2).2.2
        hswE hfwE hwtb hctx hfw
      cases hlt : Stmt3.lastAlwaysReturns tb with
      | true =>
        rw [if_pos rfl]
        exact ⟨hcore.1, hcore.2.1⟩
      | false =>
        rw [if_neg Bool.false_ne_true]
        have hr2 := newVarForExprWithErrorChecking_spec callE _ _ harC hflC hmfC
          (ctxAll_of_swExtends hcore.2.1 hctx) (fwInv_of_extends hcore.1 hfw)
        exact ⟨hcore.1.trans hr2.1, hcore.2.1.trans (hr2.2.1.trans
          (SwExtends.write _ (GenStmtsOk.returnResult
            (flagOk_of_notGenGlobal _ hr2.2.2))))⟩

/-- The master invariant of Pass A, proved by induction on the fuel: every
translation function only extends the writers (per `FwExtends`/`SwExtends`,
which carry the C1 channel discipline, the C5 helper-argument discipline and
the C5/C10 arity and flag disciplines) and returns clean references. -/
lemma masterP : ∀ fuel : Nat, PExpr fuel ∧ PList fuel ∧ PTypeArgs fuel ∧
    PCases fuel ∧ PCompr fuel ∧ PStmts fuel ∧ PTry fuel := by
  intro fuel
  induction fuel with
  | zero => exact master_zero
  | succ fuel ih =>
    obtain ⟨ihE, ihL, ihT, ihC, ihD, ihS, ihY⟩ := ih
    exact ⟨PExpr_succ fuel ihE ihL ihT ihC ihD, PList_succ fuel ihE ihL,
      PTypeArgs_succ fuel ihE ihT, PCases_succ fuel ihE ihC, PCompr_succ fuel ihE,
      PStmts_succ fuel ihE ihS ihY, PTry_succ fuel ihS⟩

lemma argDeclsToIr2_extends (args : List (String × Ir3Type)) :
    ∀ fw : FunWriterState, FwExtends fw (argDeclsToIr2 args fw).2 := by
  induction args with
  | nil => intro fw; exact FwExtends.refl fw
  | cons a rest ih =>
    intro fw
    exact (obfuscateIdentifier_extends fw a.1).trans
      (ih (fw.obfuscateIdentifier a.1).2)

/-- `function_defn_to_ir2` only extends the `FunWriter`, and every appended
definition (the lowered function itself included) satisfies the definition
invariant. -/
lemma functionDefnToIr2_spec (fuel : Nat) (fd : FunctionDefn3) (fw : FunWriterState)
    (hwf : Stmt3.wfListB fd.body = true) (hfw : fwInv fw = true) :
    FwExtends fw (functionDefnToIr2 fuel fd fw) := by
  obtain ⟨hE, hL, hT, hC, hD, hS, hY⟩ := masterP fuel
  unfold functionDefnToIr2
  set p1 := stmtsToIr2 fuel fd.body
    (StmtWriterState.mk0 (some (typeToIr2 fd.returnType))) fw with hp1
  set p2 := argDeclsToIr2 fd.args p1.2 with hp2
  have h1 : FwExtends fw p1.2 ∧
      SwExtends (StmtWriterState.mk0 (some (typeToIr2 fd.returnType))) p1.1 :=
    hS fd.body _ fw hwf rfl hfw
  have hgen : GenStmtsOk p1.1.stmts := genOk_of_mk0_extends h1.2
  have h2 : FwExtends p1.2 p2.2 := argDeclsToIr2_extends fd.args p1.2
  have hdOk : DefnOkP ⟨fd.name, "", p2.1, p1.1.stmts, some (typeToIr2 fd.returnType)⟩ :=
    ⟨hgen.1 [], hgen.2.1, hgen.2.2,
     fun h => absurd (show ("" : String) ∈ helperDescriptions from h) (by decide)⟩
  exact (h1.1.trans h2).trans (writeFunction_extends p2.2 _ hdOk)

lemma fwInv_init : fwInv FunWriterState.init = true := by decide

lemma init_defns_ok : ∀ d ∈ FunWriterState.init.functionDefns, DefnOkP d := by
  intro d hd
  simp only [FunWriterState.init, createIsErrorFunDefn, FunWriterState.newVar,
    FunWriterState.newId, newVarForExpr, StmtWriterState.mk0, StmtWriterState.writeStmt,
    List.mem_singleton] at hd
  subst hd
  refine ⟨by decide, by decide, by decide, fun h => absurd h (by decide)⟩

lemma assertionsToIr2_spec (fuel : Nat) (asserts : List (Expr3 × String)) :
    ∀ (sw : StmtWriterState) (fw : FunWriterState),
    asserts.all (fun a => Expr3.wfB a.1) = true →
    sw.tryExceptContexts.all ctxOk = true → fwInv fw = true →
    FwExtends fw (assertionsToIr2 fuel asserts sw fw).2 ∧
    SwExtends sw (assertionsToIr2 fuel asserts sw fw).1 := by
  induction asserts with
  | nil => intro sw fw _ _ _; exact ⟨FwExtends.refl fw, SwExtends.refl sw⟩
  | cons a rest ih =>
    obtain ⟨e, msg⟩ := a
    intro sw fw hwf hctx hfw
    simp only [List.all_cons, Bool.and_eq_true] at hwf
    obtain ⟨hE, _⟩ := masterP fuel
    have h1 := hE e sw fw hwf.1 hctx hfw
    have hw : SwExtends sw
        ((exprToIr2 fuel e sw fw).2.1.writeStmt
          (.assertStmt (exprToIr2 fuel e sw fw).1 msg)) :=
      h1.2.1.trans (SwExtends.write _
        (GenStmtsOk.assertOne (flagOk_of_notGenGlobal _ h1.2.2)))
    have h4 := ih _ _ hwf.2 (ctxAll_of_swExtends hw hctx) (fwInv_of_extends h1.1 hfw)
    simp only [assertionsToIr2]
    exact ⟨h1.1.trans h4.1, hw.trans h4.2⟩

lemma foldl_functionDefns_spec (fuel : Nat) (fds : List FunctionDefn3) :
    ∀ fw : FunWriterState, fds.all FunctionDefn3.wfB = true → fwInv fw = true →
    FwExtends fw (fds.foldl (fun fw fd => functionDefnToIr2 fuel fd fw) fw) := by
  induction fds with
  | nil => intro fw _ _; exact FwExtends.refl fw
  | cons fd rest ih =>
    intro fw hwf hfw
    simp only [List.all_cons, Bool.and_eq_true] at hwf
    have h1 := functionDefnToIr2_spec fuel fd fw hwf.1 hfw
    exact h1.trans (ih (functionDefnToIr2 fuel fd fw) hwf.2 (fwInv_of_extends h1 hfw))

lemma filterMap_none_of {α β : Type} (f : α → Option β) (l : List α)
    (h : ∀ a, f a = none) : l.filterMap f = [] := by
  induction l with
  | nil => rfl
  | cons a rest ih => simp [List.filterMap_cons, h a, ih]

lemma defnsOf_append (a b : List TopLevelElem) :
    defnsOf (a ++ b) = defnsOf a ++ defnsOf b := by
  unfold defnsOf
  exact List.filterMap_append a b _

lemma defnsOf_cons_customType (t : IrType) (rest : List TopLevelElem) :
    defnsOf (TopLevelElem.customType t :: rest) = defnsOf rest := by
  simp [defnsOf, List.filterMap_cons]

lemma defnsOf_cons_check (x : List (IrType × String)) (rest : List TopLevelElem) :
    defnsOf (TopLevelElem.checkIfErrorDefn x :: rest) = defnsOf rest := by
  simp [defnsOf, List.filterMap_cons]

lemma defnsOf_cons_defn (d : FunctionDefn2) (rest : List TopLevelElem) :
    defnsOf (TopLevelElem.functionDefn d :: rest) = d :: defnsOf rest := by
  simp [defnsOf, List.filterMap_cons]

lemma defnsOf_cons_stmt (st : Stmt2) (rest : List TopLevelElem) :
    defnsOf (TopLevelElem.stmt st :: rest) = defnsOf rest := by
  simp [defnsOf, List.filterMap_cons]

lemma defnsOf_nil : defnsOf [] = [] := rfl

lemma defnsOf_map_customType {α : Type} (f : α → IrType) (l : List α) :
    defnsOf (l.map (fun t => TopLevelElem.customType (f t))) = [] := by
  induction l with
  | nil => rfl
  | cons a rest ih => rw [List.map_cons, defnsOf_cons_customType]; exact ih

lemma defnsOf_map_stmt (l : List Stmt2) :
    defnsOf (l.map TopLevelElem.stmt) = [] := by
  induction l with
  | nil => rfl
  | cons a rest ih => rw [List.map_cons, defnsOf_cons_stmt]; exact ih

lemma defnsOf_map_defn (l : List FunctionDefn2) :
    defnsOf (l.map TopLevelElem.functionDefn) = l := by
  induction l with
  | nil => rfl
  | cons a rest ih => rw [List.map_cons, defnsOf_cons_defn, ih]

lemma defnsOf_moduleToIr2 (fuel : Nat) (m : Module3) :
    defnsOf (moduleToIr2 fuel m) =
      (assertionsToIr2 fuel m.assertions (StmtWriterState.mk0 none)
        (m.functionDefns.foldl (fun fw fd => functionDefnToIr2 fuel fd fw)
          FunWriterState.init)).2.functionDefns := by
  unfold moduleToIr2
  rw [defnsOf_append, defnsOf_append, defnsOf_append, defnsOf_map_customType,
    defnsOf_cons_check, defnsOf_nil, defnsOf_map_defn, defnsOf_map_stmt]
  simp

/-- Every function definition in the assembled module body satisfies the
definition invariant (channel, arity, flag and helper-argument disciplines). -/
lemma moduleToIr2_defns_ok (fuel : Nat) (m : Module3) (hwf : Module3.wfB m = true) :
    ∀ d ∈ defnsOf (moduleToIr2 fuel m), DefnOkP d := by
  simp only [Module3.wfB, Bool.and_eq_true] at hwf
  have hfold := foldl_functionDefns_spec fuel m.functionDefns FunWriterState.init
    hwf.1 fwInv_init
  have hassert := assertionsToIr2_spec fuel m.assertions (StmtWriterState.mk0 none) _
    hwf.2 rfl (fwInv_of_extends hfold fwInv_init)
  rw [defnsOf_moduleToIr2]
  obtain ⟨_, ⟨δ, hδ, hq⟩, _⟩ := hfold.trans hassert.1
  rw [hδ]
  intro d hd
  rcases List.mem_append.1 hd with h | h
  · exact init_defns_ok d h
  · exact hq d h

lemma mem_defns_of_extends {a b : FunWriterState} (h : FwExtends a b)
    {d : FunctionDefn2} (hd : d ∈ a.functionDefns) : d ∈ b.functionDefns := by
  obtain ⟨_, ⟨δ, hδ, _⟩, _⟩ := h
  rw [hδ]
  exact List.mem_append_left δ hd

lemma lookup_append_of_none {β : Type} (l1 l2 : List (String × β)) (k : String)
    (h : List.lookup k l1 = none) : List.lookup k (l1 ++ l2) = List.lookup k l2 := by
  induction l1 with
  | nil => rfl
  | cons p rest ih =>
    obtain ⟨a, b⟩ := p
    simp only [List.lookup, List.cons_append] at h ⊢
    cases hk : (k == a) with
    | true => rw [hk] at h; simp at h
    | false =>
      rw [hk] at h
      dsimp only at h ⊢
      exact ih h

/-- The `try` function used by the C1/C5/C10 witnesses: a function with a
try/except statement, a raise inside the try body, statements after the
block, and a match expression producing more synthesized helpers. -/
def wTryFun : FunctionDefn3 :=
  ⟨"wf", [("b", .bool)],
   [.tryExcept [.raiseStmt (.varRef ⟨.custom "E" [], "e0", false, false⟩)]
      (.custom "E" []) "err"
      [.returnStmt (.boolLiteral false)],
    .returnStmt (.varRef ⟨.bool, "b", false, false⟩)],
   .bool⟩

/-- The one-function module used by the C1/C5/C10 witnesses. -/
def wMod : Module3 := ⟨[wTryFun], [], []⟩

/-- C1: result/error exclusivity.  In every function definition produced by
Pass A for a well-formed module (the lowered source functions and all
synthesized helpers alike), every return statement populates exactly one of
the result and error channels — or forwards verbatim a (result, error) pair
bound immediately before by a two-target assignment from a may-fail
expression, which preserves run-time exclusivity inductively; a return
populating neither channel never occurs (`chStmtsOk` forbids it). -/
theorem result_error_exclusivity (fuel : Nat) (m : Module3)
    (hwf : Module3.wfB m = true) :
    ∀ d ∈ defnsOf (moduleToIr2 fuel m), chStmtsOk [] d.body = true :=
  fun d hd => (moduleToIr2_defns_ok fuel m hwf d hd).1

theorem result_error_exclusivity_witness :
    Module3.wfB wMod = true ∧
    ∀ d ∈ defnsOf (moduleToIr2 40 wMod), chStmtsOk [] d.body = true :=
  ⟨by decide, result_error_exclusivity 40 wMod (by decide)⟩

/-- C5: free-variable completeness.  Every helper function synthesized by
Pass A (recognizable by its description: match-arm outline, comprehension
body, try continuation, except handler) is declared with parameters that are
exactly (the declarations of) the unique free variables of its body, in
first-occurrence order with each name exactly once; and everywhere in every
produced body, a call whose callee is a generated global function — i.e. a
synthesized helper — passes exactly as many arguments as the callee's
function type declares, so no helper is invoked with a mismatched argument
count. -/
theorem helper_params_are_free_variables (fuel : Nat) (m : Module3)
    (hwf : Module3.wfB m = true) :
    ∀ d ∈ defnsOf (moduleToIr2 fuel m),
      (d.description ∈ helperDescriptions →
        d.args = argDeclsOfVars (getUniqueFreeVariablesInStmts d.body)) ∧
      stmtsAll Expr2.arityOkB (fun _ => true) d.body = true :=
  fun d hd => ⟨(moduleToIr2_defns_ok fuel m hwf d hd).2.2.2,
    (moduleToIr2_defns_ok fuel m hwf d hd).2.1⟩

theorem helper_params_are_free_variables_witness :
    Module3.wfB wMod = true ∧
    ∀ d ∈ defnsOf (moduleToIr2 40 wMod),
      (d.description ∈ helperDescriptions →
        d.args = argDeclsOfVars (getUniqueFreeVariablesInStmts d.body)) ∧
      stmtsAll Expr2.arityOkB (fun _ => true) d.body = true :=
  ⟨by decide, helper_params_are_free_variables 40 wMod (by decide)⟩

/-- C10: every function-typed variable reference created by Pass A carries
the may-fail flag.  (a) In every produced body, every reference to a
generated global function (i.e. a synthesized helper: match-arm outline,
comprehension body, try continuation, except handler) carries
`is_function_that_may_throw = true` (`flagOk`), and the outlined-arm and
element-function references embedded in match expressions and comprehensions
carry the flag outright (`flagsOkB`), so their calls take the error-checking
call path.  (b) `FunWriter.new_var` sets the flag exactly when the variable's
type is a function type, so every fresh function-typed variable is flagged
may-fail even when the function it is bound to can never actually fail. -/
theorem synthesized_refs_carry_may_fail_flag (fuel : Nat) (m : Module3)
    (hwf : Module3.wfB m = true) (fw : FunWriterState) (t : IrType) :
    (∀ d ∈ defnsOf (moduleToIr2 fuel m),
      stmtsAll Expr2.flagsOkB VarReference.flagOk d.body = true) ∧
    ((fw.newVar t false).1).isFunctionThatMayThrow = t.isFunctionType :=
  ⟨fun d hd => (moduleToIr2_defns_ok fuel m hwf d hd).2.2.1, rfl⟩

theorem synthesized_refs_carry_may_fail_flag_witness :
    Module3.wfB wMod = true ∧
    ((∀ d ∈ defnsOf (moduleToIr2 40 wMod),
      stmtsAll Expr2.flagsOkB VarReference.flagOk d.body = true) ∧
    ((FunWriterState.init.newVar (.functionT [.bool] .bool) false).1).isFunctionThatMayThrow
      = (IrType.functionT [.bool] .bool).isFunctionType) :=
  ⟨by decide, synthesized_refs_carry_may_fail_flag 40 wMod (by decide)
    FunWriterState.init (.functionT [.bool] .bool)⟩

/-- C9 (amended): the obfuscation map is memoized and module-wide.  A second
obfuscation of the same identifier returns the same generated name; an
identifier not yet in the map is mapped to the next fresh generated name; and
global-function references are never obfuscated — they keep their source name
and leave the writer untouched.  (The map lives on the module-wide
`FunWriter`, not on a per-function scope — see the companion counterexample
theorem.) -/
theorem obfuscation_memoized_and_globals_kept (fw : FunWriterState) (id : String)
    (v : Var3) (hg : v.isGlobalFunction = true) :
    ((fw.obfuscateIdentifier id).2.obfuscateIdentifier id).1 =
      (fw.obfuscateIdentifier id).1 ∧
    (List.lookup id fw.obfuscatedIdentifiersByIdentifier = none →
      (fw.obfuscateIdentifier id).1 = genIdentifier fw.counter) ∧
    (varReferenceToIr2 v fw).1.name = v.name ∧
    (varReferenceToIr2 v fw).2 = fw := by
  refine ⟨?_, ?_, ?_, ?_⟩
  · unfold FunWriterState.obfuscateIdentifier
    cases h : List.lookup id fw.obfuscatedIdentifiersByIdentifier with
    | some n => simp [h]
    | none =>
      have h2 : List.lookup id
          (fw.obfuscatedIdentifiersByIdentifier ++ [(id, genIdentifier fw.counter)]) =
          some (genIdentifier fw.counter) := by
        rw [lookup_append_of_none _ _ _ h]
        simp [List.lookup]
      simp [h, FunWriterState.newId, h2]
  · intro h
    unfold FunWriterState.obfuscateIdentifier
    simp [h, FunWriterState.newId]
  · unfold varReferenceToIr2
    rw [if_pos hg]
  · unfold varReferenceToIr2
    rw [if_pos hg]

theorem obfuscation_memoized_and_globals_kept_witness :
    (⟨.bool, "g", true, false⟩ : Var3).isGlobalFunction = true ∧
    (((FunWriterState.init.obfuscateIdentifier "x").2.obfuscateIdentifier "x").1 =
      (FunWriterState.init.obfuscateIdentifier "x").1 ∧
    (List.lookup "x" FunWriterState.init.obfuscatedIdentifiersByIdentifier = none →
      (FunWriterState.init.obfuscateIdentifier "x").1 =
        genIdentifier FunWriterState.init.counter) ∧
    (varReferenceToIr2 ⟨.bool, "g", true, false⟩ FunWriterState.init).1.name = "g" ∧
    (varReferenceToIr2 ⟨.bool, "g", true, false⟩ FunWriterState.init).2 =
      FunWriterState.init) :=
  ⟨by decide, obfuscation_memoized_and_globals_kept FunWriterState.init "x"
    ⟨.bool, "g", true, false⟩ (by decide)⟩

/-- The shape of one error-checked call followed by a result return, as
appended by `try_except_stmt_to_ir2` when a body does not always return:
bind the call to a (result, error) pair, test the error with `is_error`,
propagate the error in the true branch, and return the result. -/
lemma errorChecked_shape (e : Expr2) (sw : StmtWriterState) (fw : FunWriterState)
    (retTy : IrType) (hrt : sw.currentFunReturnType = some retTy)
    (hctx : sw.tryExceptContexts = []) :
    ∃ x err b bre,
      ((newVarForExprWithErrorChecking e sw fw).2.1.writeStmt
        (.returnStmt (some (newVarForExprWithErrorChecking e sw fw).1) none)).stmts =
      sw.stmts ++
        [.assignment x (some err) e, .assignment b none bre,
         .ifStmt b [.returnStmt none (some err)] [], .returnStmt (some x) none] := by
  unfold newVarForExprWithErrorChecking
  rw [hrt]
  dsimp only
  rw [hctx]
  refine ⟨(fw.newVar e.type false).1,
    ((fw.newVar e.type false).2.newVar .errorOrVoid false).1,
    (((fw.newVar e.type false).2.newVar .errorOrVoid false).2.newVar
      (Expr2.functionCall
        ((fw.newVar e.type false).2.newVar .errorOrVoid false).2.isErrorFunRef
        [((fw.newVar e.type false).2.newVar .errorOrVoid false).1]).type false).1,
    Expr2.functionCall
      ((fw.newVar e.type false).2.newVar .errorOrVoid false).2.isErrorFunRef
      [((fw.newVar e.type false).2.newVar .errorOrVoid false).1], ?_⟩
  simp [StmtWriterState.writeStmt, errorCheckingDispatch]

/-- The continuation function synthesized by `try_except_stmt_to_ir2` for the
statements following a try/except block (its parameters are the computed
unique free variables of the lowered continuation body). -/
def contFunDefn (fuel : Nat) (thenS : List Stmt3) (rt : Option IrType)
    (fw : FunWriterState) : FunctionDefn2 :=
  ⟨(stmtsToIr2 fuel thenS (StmtWriterState.mk0 rt) fw).2.newId.1,
   "(meta)function wrapping the code after a try-except statement",
   argDeclsOfVars (getUniqueFreeVariablesInStmts
     (stmtsToIr2 fuel thenS (StmtWriterState.mk0 rt) fw).1.stmts),
   (stmtsToIr2 fuel thenS (StmtWriterState.mk0 rt) fw).1.stmts, rt⟩

/-- The error-checked call of the synthesized continuation (it passes exactly
the continuation's forwarded free variables). -/
def contFunCall (fuel : Nat) (thenS : List Stmt3) (rt : Option IrType)
    (fw : FunWriterState) : Expr2 :=
  .functionCall
    ⟨.functionT ((getUniqueFreeVariablesInStmts
        (stmtsToIr2 fuel thenS (StmtWriterState.mk0 rt) fw).1.stmts).map
          (fun v => v.type))
      (rt.getD .bottom),
     (stmtsToIr2 fuel thenS (StmtWriterState.mk0 rt) fw).2.newId.1, true, true⟩
    (getUniqueFreeVariablesInStmts
      (stmtsToIr2 fuel thenS (StmtWriterState.mk0 rt) fw).1.stmts)

/-- C4: try/except lowering.  For a try/except statement with a non-empty
statement tail, Pass A outlines the tail into the synthesized continuation
function `contFunDefn` — whose parameters are exactly the unique free
variables referenced in its lowered body — and records it; and it outlines
the except body into a synthesized handler function whose parameters are
likewise exactly the unique free variables of its body.  When the except
body's statements do not all terminate (per `always_returns`), the handler's
body ends with the error-checked call of the continuation (passing exactly
the forwarded free variables) followed by a return of its result. -/
theorem tryexcept_outlines_continuation_and_handler (fuel : Nat) (tb : List Stmt3)
    (cty : Ir3Type) (cn : String) (eb thenS : List Stmt3) (sw : StmtWriterState)
    (fw : FunWriterState) (retTy : IrType)
    (hrt : sw.currentFunReturnType = some retTy) (hne : thenS.isEmpty = false)
    (hwtb : Stmt3.wfListB tb = true) (hweb : Stmt3.wfListB eb = true)
    (hwthen : Stmt3.wfListB thenS = true)
    (hctx : sw.tryExceptContexts.all ctxOk = true) (hfw : fwInv fw = true) :
    contFunDefn fuel thenS sw.currentFunReturnType fw ∈
      (tryExceptStmtToIr2 (fuel + 1) tb cty cn eb thenS sw fw).2.functionDefns ∧
    (Stmt3.lastAlwaysReturns eb = false →
      ∃ handlerD ∈ (tryExceptStmtToIr2 (fuel + 1) tb cty cn eb thenS sw fw).2.functionDefns,
        handlerD.description = "(meta)function wrapping the code in an except block" ∧
        handlerD.args = argDeclsOfVars (getUniqueFreeVariablesInStmts handlerD.body) ∧
        ∃ pre x err b bre,
          handlerD.body = pre ++
            [.assignment x (some err) (contFunCall fuel thenS sw.currentFunReturnType fw),
             .assignment b none bre,
             .ifStmt b [.returnStmt none (some err)] [],
             .returnStmt (some x) none]) := by
  obtain ⟨ihE, ihL, ihT, ihC, ihD, ihS, ihY⟩ := masterP fuel
  simp only [tryExceptStmtToIr2]
  rw [hne, if_neg Bool.false_ne_true]
  dsimp only
  set q1 := stmtsToIr2 fuel thenS (StmtWriterState.mk0 sw.currentFunReturnType) fw
    with hq1
  set tfwds := getUniqueFreeVariablesInStmts q1.1.stmts with htfwds
  set q2 := q1.2.newId with hq2
  set thenD : FunctionDefn2 :=
    ⟨q2.1, "(meta)function wrapping the code after a try-except statement",
     argDeclsOfVars tfwds, q1.1.stmts, sw.currentFunReturnType⟩ with hthenD
  set q3 := q2.2.writeFunction thenD with hq3
  set tref : VarReference := ⟨.functionT (tfwds.map (fun v => v.type))
    (sw.currentFunReturnType.getD .bottom), q2.1, true, true⟩ with htref
  set callE : Expr2 := .functionCall tref tfwds with hcallE
  set pExc := stmtsToIr2 fuel eb (StmtWriterState.mk0 sw.currentFunReturnType) q3
    with hpE
  have hq1s : FwExtends fw q1.2 ∧
      SwExtends (StmtWriterState.mk0 sw.currentFunReturnType) q1.1 :=
    ihS thenS _ _ hwthen rfl hfw
  have hThenGen : GenStmtsOk q1.1.stmts := genOk_of_mk0_extends hq1s.2
  have hThenD : DefnOkP thenD := DefnOkP_mk _ _ _ _ hThenGen
  have hFq3 : FwExtends fw q3 :=
    (hq1s.1.trans (newId_extends q1.2)).trans (writeFunction_extends q2.2 thenD hThenD)
  have hmemThen : thenD ∈ q3.functionDefns := by
    rw [hq3]
    simp [FunWriterState.writeFunction]
  have hmfC : mayFailRhs callE = true := rfl
  have harC : callE.arityOkB = true := by
    rw [hcallE, htref]
    simp [Expr2.arityOkB, arity2]
  have hflC : callE.flagsOkB = true := by
    rw [hcallE]
    exact flagsOk_call _ _ (flagOk_of_mayThrow _ rfl)
      (by rw [htfwds]; exact freeVars_flagOk q1.1.stmts)
  have hE : FwExtends q3 pExc.2 ∧
      SwExtends (StmtWriterState.mk0 sw.currentFunReturnType) pExc.1 :=
    ihS eb _ _ hweb rfl (fwInv_of_extends hFq3 hfw)
  cases hle : Stmt3.lastAlwaysReturns eb with
  | true =>
    rw [if_pos rfl]
    have hcore := tryCore_spec fuel ihS tb cty cn sw pExc.1 q3 pExc.2
      hE.2 hE.1 hwtb hctx (fwInv_of_extends hFq3 hfw)
    cases hlt : Stmt3.lastAlwaysReturns tb with
    | true =>
      rw [if_pos rfl]
      refine ⟨mem_defns_of_extends hcore.1 hmemThen, ?_⟩
      intro hcontra
      exact absurd hcontra (by decide)
    | false =>
      rw [if_neg Bool.false_ne_true]
      have hr2 := newVarForExprWithErrorChecking_spec callE _ _ harC hflC hmfC
        (ctxAll_of_swExtends hcore.2.1 hctx) (fwInv_of_extends (hFq3.trans hcore.1) hfw)
      refine ⟨mem_defns_of_extends (hcore.1.trans hr2.1) hmemThen, ?_⟩
      intro hcontra
      exact absurd hcontra (by decide)
  | false =>
    rw [if_neg Bool.false_ne_true]
    have hr := newVarForExprWithErrorChecking_spec callE pExc.1 pExc.2 harC hflC hmfC
      (ctxAll_of_swExtends hE.2 rfl) (fwInv_of_extends (hFq3.trans hE.1) hfw)
    set swE := (newVarForExprWithErrorChecking callE pExc.1 pExc.2).2.1.writeStmt
      (.returnStmt (some (newVarForExprWithErrorChecking callE pExc.1 pExc.2).1) none)
      with hswE
    set fwE := (newVarForExprWithErrorChecking callE pExc.1 pExc.2).2.2 with hfwE
    have hXsw : SwExtends (StmtWriterState.mk0 sw.currentFunReturnType) swE :=
      hE.2.trans (hr.2.1.trans (SwExtends.write _
        (GenStmtsOk.returnResult (flagOk_of_notGenGlobal _ hr.2.2))))
    have hXfw : FwExtends q3 fwE := hE.1.trans hr.1
    have hcore := tryCore_spec fuel ihS tb cty cn sw swE q3 fwE
      hXsw hXfw hwtb hctx (fwInv_of_extends hFq3 hfw)
    set exceptD : FunctionDefn2 :=
      ⟨fwE.newId.1, "(meta)function wrapping the code in an except block",
       argDeclsOfVars (getUniqueFreeVariablesInStmts swE.stmts), swE.stmts,
       sw.currentFunReturnType⟩ with hexD
    have hmemExc : exceptD ∈ (fwE.newId.2.writeFunction exceptD).functionDefns := by
      rw [hexD]
      simp [FunWriterState.writeFunction]
    have hshape := errorChecked_shape callE pExc.1 pExc.2 retTy
      (by rw [hE.2.1]; exact hrt) hE.2.2.1
    obtain ⟨x, err, b, bre, hb⟩ := hshape
    cases hlt : Stmt3.lastAlwaysReturns tb with
    | true =>
      rw [if_pos rfl]
      refine ⟨mem_defns_of_extends hcore.1 hmemThen, fun _ => ?_⟩
      exact ⟨exceptD, mem_defns_of_extends hcore.2.2 hmemExc, rfl, rfl,
        pExc.1.stmts, x, err, b, bre, hb⟩
    | false =>
      rw [if_neg Bool.false_ne_true]
      have hr2 := newVarForExprWithErrorChecking_spec callE _ _ harC hflC hmfC
        (ctxAll_of_swExtends hcore.2.1 hctx) (fwInv_of_extends (hFq3.trans hcore.1) hfw)
      refine ⟨mem_defns_of_extends (hcore.1.trans hr2.1) hmemThen, fun _ => ?_⟩
      exact ⟨exceptD, mem_defns_of_extends (hcore.2.2.trans hr2.1) hmemExc, rfl, rfl,
        pExc.1.stmts, x, err, b, bre, hb⟩

/-- The concrete try body, except body, statement tail and writer used by the
C4 witness. -/
def c4tb : List Stmt3 := [.raiseStmt (.varRef ⟨.custom "E" [], "e1", false, false⟩)]

def c4eb : List Stmt3 := [.assignment ⟨.bool, "y", false, false⟩ (.boolLiteral true)]

def c4then : List Stmt3 := [.returnStmt (.varRef ⟨.bool, "z", false, false⟩)]

def c4sw : StmtWriterState := StmtWriterState.mk0 (some .bool)

theorem tryexcept_outlines_witness :
    (c4sw.currentFunReturnType = some IrType.bool ∧ c4then.isEmpty = false ∧
     Stmt3.wfListB c4tb = true ∧ Stmt3.wfListB c4eb = true ∧
     Stmt3.wfListB c4then = true ∧ c4sw.tryExceptContexts.all ctxOk = true ∧
     fwInv FunWriterState.init = true) ∧
    (contFunDefn 30 c4then c4sw.currentFunReturnType FunWriterState.init ∈
      (tryExceptStmtToIr2 (30 + 1) c4tb (.custom "E" []) "err" c4eb c4then c4sw
        FunWriterState.init).2.functionDefns ∧
    (Stmt3.lastAlwaysReturns c4eb = false →
      ∃ handlerD ∈ (tryExceptStmtToIr2 (30 + 1) c4tb (.custom "E" []) "err" c4eb c4then
          c4sw FunWriterState.init).2.functionDefns,
        handlerD.description = "(meta)function wrapping the code in an except block" ∧
        handlerD.args = argDeclsOfVars (getUniqueFreeVariablesInStmts handlerD.body) ∧
        ∃ pre x err b bre,
          handlerD.body = pre ++
            [.assignment x (some err)
               (contFunCall 30 c4then c4sw.currentFunReturnType FunWriterState.init),
             .assignment b none bre,
             .ifStmt b [.returnStmt none (some err)] [],
             .returnStmt (some x) none])) :=
  ⟨⟨rfl, by decide, by decide, by decide, by decide, by decide, by decide⟩,
   tryexcept_outlines_continuation_and_handler 30 c4tb (.custom "E" []) "err" c4eb c4then
     c4sw FunWriterState.init .bool rfl (by decide) (by decide) (by decide) (by decide)
     (by decide) (by decide)⟩

end PassA
